import Mathlib

/-!
# Bookstore: cart, order and payment core

A shallow embedding of the Go packages `bookstore/entities`, `datastore`,
`payments` and `bookstore` of the repository, followed by theorems about them.

Modelling conventions

* Go `int` is the 64-bit two's-complement integer of the platforms the server
  is built for.  It is embedded as `Int`; every `+`, `-`, `+=`, `-=` of the
  source is followed by `wrapInt`, which is the identity on the representable
  range and wraps around outside it, as Go's arithmetic does.
* Go `float64` is IEEE 754 binary64.  It is embedded as `Float64`: a finite
  value is the rational number it denotes, and negative zero, the two
  infinities and NaN stand beside the finite values.  `+`, `-`, `*` and the
  conversion `float64(n)` of an `int` compute the exact result and round it to
  the nearest representable value, ties to even, every operation on its own:
  this is what the default amd64 build computes (the Go specification lets a
  compiler fuse `x*y + z` into one rounding, which is not modelled).
* A Go `map[K]V` that the code only indexes is a function from keys; the
  inventory map, whose absent keys read as `0`, is a function into `Int`.
  `Cart.Items`, which the code also measures and ranges over, is an
  association list with unique keys, `none` being the nil map.  Go leaves the
  order of `range` over a map unspecified; the embedding iterates in the order
  of the association list.
* A Go `(value, error)` result is a value together with an optional error
  message; methods on `*Datastore` also return the datastore they leave behind.
* `crypto/rand` and the payment processor are outside the program: the raw
  order id (or its failure) and the processor are arguments.
-/

namespace Bookstore

/-! ## Machine integers -/

/-- Go `int` arithmetic: reduce an exact result to the signed 64-bit range. -/
def wrapInt (x : Int) : Int := (x + 9223372036854775808) % 18446744073709551616 - 9223372036854775808

/-- The values a Go `int` can hold. -/
def InIntRange (x : Int) : Prop := -9223372036854775808 ≤ x ∧ x ≤ 9223372036854775807

instance (x : Int) : Decidable (InIntRange x) := by
  unfold InIntRange
  exact inferInstance

/-! ## Machine floats -/

/-- Number of binary digits of `n`, found by halving at most `fuel` times. -/
def bitLengthAux : Nat → Nat → Nat
  | 0, _ => 0
  | fuel + 1, n => if n = 0 then 0 else bitLengthAux fuel (n / 2) + 1

/-- Number of binary digits of `n`: `2 ^ (bitLength n - 1) ≤ n < 2 ^ bitLength n`
for `n > 0`. -/
def bitLength (n : Nat) : Nat := bitLengthAux n n

/-- The natural number nearest to `n / d`, the even one on a tie (`d > 0`). -/
def roundHalfEven (n d : Nat) : Nat :=
  let t := n / d
  let r := n % d
  if 2 * r < d then t
  else if d < 2 * r then t + 1
  else if t % 2 = 0 then t else t + 1

/-- The binary exponent of `num / den`, the `e` with
`2 ^ e ≤ num / den < 2 ^ (e + 1)` (`num, den > 0`). -/
def floorLog2 (num den : Nat) : Int :=
  let a := bitLength num
  let b := bitLength den
  if (b ≤ a ∧ den * 2 ^ (a - b) ≤ num) ∨ (a < b ∧ den ≤ num * 2 ^ (b - a)) then (a : Int) - b
  else (a : Int) - b - 1

/-- Round the positive rational `num / den` to the nearest float64 magnitude,
ties to even: 53 significant bits, least exponent `-1074`. The result is `none`
when the rounded value is beyond the largest finite float64. -/
def roundMagnitude (num den : Nat) : Option ℚ :=
  match max (floorLog2 num den - 52) (-1074) with
  | Int.ofNat k =>
    let n := roundHalfEven num (den * 2 ^ k)
    if 2 ^ 1024 ≤ n * 2 ^ k then none else some (mkRat (n * 2 ^ k : Nat) 1)
  | Int.negSucc k =>
    some (mkRat (roundHalfEven (num * 2 ^ (k + 1)) den : Nat) (2 ^ (k + 1)))

/-- Go `float64`: a finite value (`finite 0` is `+0`), negative zero, an
infinity with its sign, or NaN. -/
inductive Float64 where
  | finite (value : ℚ)
  | negZero
  | infinite (negative : Bool)
  | nan
deriving DecidableEq

/-- The float64 nearest to the exact number `q`: an exact zero is `+0`, a
non-zero number that rounds to zero keeps its sign, one that rounds beyond the
largest finite value is an infinity. -/
def Float64.ofRat (q : ℚ) : Float64 :=
  if q = 0 then .finite 0
  else match roundMagnitude q.num.natAbs q.den with
    | none => .infinite (decide (q < 0))
    | some m =>
      if m = 0 then (if q < 0 then .negZero else .finite 0)
      else if q < 0 then .finite (-m) else .finite m

/-- Go `float64(n)` for an `int` `n`. -/
def Float64.ofInt (n : Int) : Float64 := Float64.ofRat n

/-- The number a finite value or a zero denotes; `0` for infinities and NaN. -/
def Float64.value : Float64 → ℚ
  | .finite v => v
  | _ => 0

/-- The number a float64 denotes, when it is finite. -/
def Float64.toRat : Float64 → Option ℚ
  | .finite v => some v
  | .negZero => some 0
  | _ => none

/-- The sign bit. -/
def Float64.isNegative : Float64 → Bool
  | .finite v => decide (v < 0)
  | .negZero => true
  | .infinite s => s
  | .nan => false

/-- Whether the value is `+0` or `-0`. -/
def Float64.isZero : Float64 → Bool
  | .finite v => decide (v = 0)
  | .negZero => true
  | _ => false

/-- Go unary `-` on float64. -/
def Float64.neg : Float64 → Float64
  | .finite v => if v = 0 then .negZero else .finite (-v)
  | .negZero => .finite 0
  | .infinite s => .infinite (!s)
  | .nan => .nan

/-- Go `+` on float64. -/
def Float64.add : Float64 → Float64 → Float64
  | .nan, _ => .nan
  | _, .nan => .nan
  | .infinite s, .infinite t => if s = t then .infinite s else .nan
  | .infinite s, _ => .infinite s
  | _, .infinite t => .infinite t
  | .negZero, .negZero => .negZero
  | .negZero, .finite w => .finite w
  | .finite v, .negZero => .finite v
  | .finite v, .finite w => .ofRat (v + w)

/-- Go `-` on float64: the sum with the negated right operand. -/
def Float64.sub (a b : Float64) : Float64 := a.add b.neg

/-- Go `*` on float64. -/
def Float64.mul : Float64 → Float64 → Float64
  | .nan, _ => .nan
  | _, .nan => .nan
  | .infinite s, b => if b.isZero then .nan else .infinite (xor s b.isNegative)
  | a, .infinite t => if a.isZero then .nan else .infinite (xor a.isNegative t)
  | a, b =>
    if a.value * b.value = 0 then
      (if xor a.isNegative b.isNegative then .negZero else .finite 0)
    else .ofRat (a.value * b.value)

/-- Go `<` on float64: false when an operand is NaN, the zeros are equal. -/
def Float64.lt : Float64 → Float64 → Bool
  | .nan, _ => false
  | _, .nan => false
  | .infinite s, .infinite t => s && !t
  | .infinite s, _ => s
  | _, .infinite t => !t
  | a, b => decide (a.value < b.value)

/-- Go `<=` on float64: false when an operand is NaN, the zeros are equal. -/
def Float64.le : Float64 → Float64 → Bool
  | .nan, _ => false
  | _, .nan => false
  | .infinite s, .infinite t => s || !t
  | .infinite s, _ => s
  | _, .infinite t => !t
  | a, b => decide (a.value ≤ b.value)

instance : Add Float64 := ⟨Float64.add⟩

instance : Sub Float64 := ⟨Float64.sub⟩

instance : Mul Float64 := ⟨Float64.mul⟩

instance : Neg Float64 := ⟨Float64.neg⟩

instance : LT Float64 := ⟨fun a b => Float64.lt a b = true⟩

instance : LE Float64 := ⟨fun a b => Float64.le a b = true⟩

instance (a b : Float64) : Decidable (a < b) := inferInstanceAs (Decidable (Float64.lt a b = true))

instance (a b : Float64) : Decidable (a ≤ b) := inferInstanceAs (Decidable (Float64.le a b = true))

/-- A numeric constant of the source, converted to float64. -/
instance (n : Nat) : OfNat Float64 n := ⟨Float64.ofInt n⟩

/-- The exact number `q` is a float64 value: rounding leaves it as it is. -/
def Float64.Representable (q : ℚ) : Prop := (Float64.ofRat q).toRat = some q

instance (q : ℚ) : Decidable (Float64.Representable q) := by
  unfold Float64.Representable
  exact inferInstance

/-! ## entities/entities.go -/

/-- Go `Item`. -/
structure Item where
  SKU : String
  Name : String
  Price : Float64
deriving DecidableEq

/-- Go `CreditCardDetails`. -/
structure CreditCardDetails where
  FirstName : String
  LastName : String
  Number : String
  Expiration : String
  CVV : String
deriving DecidableEq

/-- Go `ItemWithQty`. -/
structure ItemWithQty where
  Item : Item
  Quantity : Int
deriving DecidableEq

/-- Go `Order`. -/
structure Order where
  ID : String
  UserID : String
  Items : List ItemWithQty
  TotalItems : Int
  TotalPrice : Float64
  PaymentConfirmation : String
deriving DecidableEq

/-- Go `CartItem`; the `*Item` it holds is never written through, so it is
embedded as the item value. -/
structure CartItem where
  Item : Item
  Quantity : Int
deriving DecidableEq

/-- Go `map[SKU]CartItem`, not nil. -/
abbrev CartLines := AList (fun _ : String => CartItem)

/-- Go `Cart`; `Items = none` is the nil map of the zero value `Cart{}`. -/
structure Cart where
  UserID : String
  Items : Option CartLines
  TotalItems : Int
  TotalPrice : Float64
deriving DecidableEq

/-- The zero value `Order{}`. -/
def Order.zero : Order :=
  { ID := "", UserID := "", Items := [], TotalItems := 0, TotalPrice := 0, PaymentConfirmation := "" }

/-- The zero value `Cart{}`. -/
def Cart.zero : Cart :=
  { UserID := "", Items := none, TotalItems := 0, TotalPrice := 0 }

/-- Go `NewCart`. -/
def NewCart (userID : String) : Cart :=
  { UserID := userID, Items := some ∅, TotalItems := 0, TotalPrice := 0 }

/-- The entries of `c.Items` in iteration order; a nil map has none. -/
def Cart.lines (c : Cart) : List (Sigma fun _ : String => CartItem) :=
  match c.Items with
  | none => []
  | some m => m.entries

/-- Go `c.Items[sku]` with its `ok` flag. -/
def Cart.line (c : Cart) (sku : String) : Option CartItem :=
  match c.Items with
  | none => none
  | some m => m.lookup sku

/-- Go `(*Cart).AddToCart`. -/
def Cart.AddToCart (c : Cart) (item : Item) (quantity : Int) : Cart :=
  let m : CartLines := match c.Items with
    | none => ∅
    | some m => m
  let m1 : CartLines := match m.lookup item.SKU with
    | some cartItem =>
        m.insert item.SKU { cartItem with Quantity := wrapInt (cartItem.Quantity + quantity) }
    | none => m.insert item.SKU { Item := item, Quantity := quantity }
  { c with
    Items := some m1
    TotalItems := wrapInt (c.TotalItems + quantity)
    TotalPrice := c.TotalPrice + item.Price * Float64.ofInt quantity }

/-- Go `(*Cart).RemoveFromCart`: the cart it leaves and the error it returns. -/
def Cart.RemoveFromCart (c : Cart) (item : Item) (quantity : Int) : Cart × Option String :=
  match c.Items with
  | none => (c, some ("item id " ++ item.SKU ++ " not found in the cart"))
  | some m =>
    match m.lookup item.SKU with
    | some cartItem =>
      if cartItem.Quantity > quantity then
        ({ c with
           Items := some (m.insert item.SKU
             { cartItem with Quantity := wrapInt (cartItem.Quantity - quantity) })
           TotalItems := wrapInt (c.TotalItems - quantity)
           TotalPrice := c.TotalPrice - item.Price * Float64.ofInt quantity }, none)
      else
        ({ c with
           Items := some (m.erase item.SKU)
           TotalItems := wrapInt (c.TotalItems - cartItem.Quantity)
           TotalPrice := c.TotalPrice - item.Price * Float64.ofInt quantity }, none)
    | none => (c, none)

/-! ## payments/payments.go -/

/-- Go `PaymentRequest`. -/
structure PaymentRequest where
  ID : String
  UserID : String
  Amount : Float64
deriving DecidableEq

/-- Go interface `PaymentProcessor`: one call of `ProcessPayment`, giving the
confirmation id and the error. -/
abbrev PaymentProcessor := PaymentRequest → CreditCardDetails → String × Option String

/-- Go `(*PaymentGateway).ProcessPayment`. -/
def PaymentGateway.ProcessPayment : PaymentProcessor :=
  fun payment _ => (payment.ID, none)

/-! ## datastore/db.go, datastore/seed.go -/

/-- Go `Datastore`. -/
structure Datastore where
  inventory : String → Int
  items : String → Option Item
  orders : String → Option (List Order)
  carts : String → Option Cart

/-- What a method on `*Datastore` returns, with the datastore it leaves. -/
structure Result (α : Type) where
  ds : Datastore
  val : α
  err : Option String

/-- Go `(*Datastore).AddItem`. -/
def Datastore.AddItem (ds : Datastore) (item : Item) (quantity : Int) : Datastore :=
  { ds with
    items := match ds.items item.SKU with
      | none => Function.update ds.items item.SKU (some item)
      | some _ => ds.items
    inventory := Function.update ds.inventory item.SKU (wrapInt (ds.inventory item.SKU + quantity)) }

/-- Go `(*Datastore).RemoveItem`. -/
def Datastore.RemoveItem (ds : Datastore) (item : Item) (quantity : Int) : Datastore × Option String :=
  match ds.items item.SKU with
  | none => (ds, some "item not found in the datastore")
  | some _ =>
    if ds.inventory item.SKU < quantity then (ds, some "insufficient stock")
    else
      ({ ds with inventory :=
          Function.update ds.inventory item.SKU (wrapInt (ds.inventory item.SKU - quantity)) }, none)

/-- Go `(*Datastore).seedItemData`. -/
def Datastore.seedItemData (ds : Datastore) : Datastore :=
  ((ds.AddItem { SKU := "item-1", Name := "Item 1", Price := 100 } 2).AddItem
      { SKU := "item-2", Name := "Item 2", Price := 200 } 2).AddItem
      { SKU := "item-3", Name := "Item 3", Price := 300 } 2

/-- Go `NewDatastore`. -/
def NewDatastore : Datastore :=
  Datastore.seedItemData
    { inventory := fun _ => 0, items := fun _ => none, orders := fun _ => none, carts := fun _ => none }

/-- Go `(*Datastore).GetItem`. -/
def Datastore.GetItem (ds : Datastore) (id : String) : Item × Option String :=
  match ds.items id with
  | some item => (item, none)
  | none => ({ SKU := "", Name := "", Price := 0 }, some "item not found in the datastore")

/-- Go `(*Datastore).AddToCart`. -/
def Datastore.AddToCart (ds : Datastore) (userID itemID : String) (quantity : Int) : Result Cart :=
  let created : Datastore × Cart := match ds.carts userID with
    | none =>
      ({ ds with carts := Function.update ds.carts userID (some (NewCart userID)) }, NewCart userID)
    | some cart => (ds, cart)
  let ds1 := created.1
  match ds1.GetItem itemID with
  | (_, some e) => { ds := ds1, val := Cart.zero, err := some e }
  | (item, none) =>
    if ds1.inventory item.SKU < quantity then
      { ds := ds1, val := Cart.zero, err := some ("insufficient stock for item " ++ item.SKU) }
    else
      let cart1 := created.2.AddToCart item quantity
      { ds := { ds1 with carts := Function.update ds1.carts userID (some cart1) }
        val := cart1, err := none }

/-- Go `(*Datastore).RemoveFromCart`. -/
def Datastore.RemoveFromCart (ds : Datastore) (userID itemID : String) (quantity : Int) : Result Cart :=
  match ds.carts userID with
  | none => { ds := ds, val := Cart.zero, err := some "cart not found in the datastore" }
  | some cart =>
    match ds.GetItem itemID with
    | (_, some e) => { ds := ds, val := Cart.zero, err := some e }
    | (item, none) =>
      match cart.RemoveFromCart item quantity with
      | (cart1, some e) =>
        { ds := { ds with carts := Function.update ds.carts userID (some cart1) }
          val := Cart.zero, err := some e }
      | (cart1, none) =>
        { ds := { ds with carts := Function.update ds.carts userID (some cart1) }
          val := cart1, err := none }

/-- Go `(*Datastore).GetCart`. -/
def Datastore.GetCart (ds : Datastore) (userID : String) : Datastore × Cart :=
  match ds.carts userID with
  | some cart => (ds, cart)
  | none => ({ ds with carts := Function.update ds.carts userID (some (NewCart userID)) }, NewCart userID)

/-- Go `(*Datastore).GetCartTotalPrice`. -/
def Datastore.GetCartTotalPrice (ds : Datastore) (userID : String) : Datastore × Float64 :=
  match ds.carts userID with
  | some cart => (ds, cart.TotalPrice)
  | none =>
    ({ ds with carts := Function.update ds.carts userID (some (NewCart userID)) },
      (NewCart userID).TotalPrice)

/-- The user's order slice; an absent key reads as the nil slice. -/
def Datastore.ordersOf (ds : Datastore) (userID : String) : List Order :=
  match ds.orders userID with
  | none => []
  | some os => os

/-- Go `(*Datastore).GetOrderHistory`: `make([]Order, n)` holds `n` zero
orders, and the loop appends the stored ones after them. -/
def Datastore.GetOrderHistory (ds : Datastore) (userID : String) : Datastore × List Order :=
  let ds1 : Datastore := match ds.orders userID with
    | none => { ds with orders := Function.update ds.orders userID (some []) }
    | some _ => ds
  let stored := ds1.ordersOf userID
  (ds1, stored.foldl (fun orders order => orders ++ [order]) (List.replicate stored.length Order.zero))

/-- Go `createNewOrderID` followed by `newOrderFromCart`; `rawOrderId` is what
`createNewOrderID` returned, `none` when `rand.Read` failed. -/
def newOrderFromCart (userID : String) (cart : Cart) (rawOrderId : Option String) :
    Order × Option String :=
  match rawOrderId with
  | none => (Order.zero, some ("unable to create new order id for user " ++ userID))
  | some raw =>
    let order : Order :=
      { ID := "order-" ++ raw, UserID := userID, Items := [],
        TotalItems := cart.TotalItems, TotalPrice := cart.TotalPrice, PaymentConfirmation := "" }
    (cart.lines.foldl
      (fun o kv => { o with Items := o.Items ++ [{ Item := kv.2.Item, Quantity := kv.2.Quantity }] })
      order, none)

/-- The second loop of `ConfirmOrder`: `ds.inventory[k] -= v.Quantity` per line. -/
def debitInventory (inventory : String → Int) (lines : List (Sigma fun _ : String => CartItem)) :
    String → Int :=
  lines.foldl (fun inv kv => Function.update inv kv.1 (wrapInt (inv kv.1 - kv.2.Quantity))) inventory

/-- Go `(*Datastore).ConfirmOrder`. -/
def Datastore.ConfirmOrder (ds : Datastore) (userID : String) (rawOrderId : Option String) :
    Result Order :=
  match ds.carts userID with
  | none => { ds := ds, val := Order.zero, err := some "cart not found in the datastore" }
  | some cart =>
    if cart.lines.length = 0 then
      { ds := ds, val := Order.zero, err := some "cart is empty" }
    else
      match cart.lines.find? (fun kv => decide (ds.inventory kv.1 < kv.2.Quantity)) with
      | some kv =>
        { ds := ds, val := Order.zero, err := some ("insufficient stock for item " ++ kv.1) }
      | none =>
        let ds1 : Datastore := { ds with inventory := debitInventory ds.inventory cart.lines }
        match newOrderFromCart userID cart rawOrderId with
        | (_, some _) =>
          { ds := ds1, val := Order.zero
            err := some ("unable to create new order for user " ++ userID) }
        | (newOrder, none) =>
          { ds := { ds1 with
                    orders := Function.update ds1.orders userID (some (newOrder :: ds1.ordersOf userID))
                    carts := Function.update ds1.carts userID (some (NewCart userID)) }
            val := newOrder, err := none }

/-- Go `(*Datastore).Checkout`. -/
def Datastore.Checkout (ds : Datastore) (userID : String) (rawOrderId : Option String) :
    Result Order :=
  ds.ConfirmOrder userID rawOrderId

/-- Go `(*Datastore).findOrderByOrderID`: the first order of the user with that
id (the order the returned pointer designates); `none` is the nil pointer,
which the source returns together with its one error,
"order not found in the datastore". -/
def Datastore.findOrderByOrderID (ds : Datastore) (userID orderID : String) : Option Order :=
  match ds.orders userID with
  | none => none
  | some orders => orders.find? (fun o => decide (o.ID = orderID))

/-- Go `(*Datastore).FindOrder`. -/
def Datastore.FindOrder (ds : Datastore) (userID orderID : String) : Order × Option String :=
  match ds.findOrderByOrderID userID orderID with
  | some order => (order, none)
  | none => (Order.zero, some "order not found in the datastore")

/-- The write `order.PaymentConfirmation = id` through the pointer that
`findOrderByOrderID` returned: it lands on the first order with that id. -/
def setPaymentConfirmation (orderID paymentConfirmationID : String) : List Order → List Order
  | [] => []
  | o :: rest =>
    if o.ID = orderID then { o with PaymentConfirmation := paymentConfirmationID } :: rest
    else o :: setPaymentConfirmation orderID paymentConfirmationID rest

/-- Go `(*Datastore).ConfirmPayment`. -/
def Datastore.ConfirmPayment (ds : Datastore) (userID orderID paymentConfirmationID : String) :
    Result Order :=
  match ds.findOrderByOrderID userID orderID with
  | none =>
    { ds := ds, val := Order.zero, err := some ("order " ++ orderID ++ " not found in the datastore") }
  | some order =>
    if order.PaymentConfirmation ≠ "" then
      { ds := ds, val := order, err := some ("order " ++ orderID ++ " already confirmed") }
    else
      { ds := { ds with
                orders := Function.update ds.orders userID
                  (some (setPaymentConfirmation orderID paymentConfirmationID (ds.ordersOf userID))) }
        val := { order with PaymentConfirmation := paymentConfirmationID }
        err := none }

/-! ## bookstore/bookstore.go -/

/-- What `ConfirmPurchase` returns, the datastore it leaves, and the request it
handed to the payment processor when it got that far. -/
structure PurchaseResult where
  ds : Datastore
  val : Order
  err : Option String
  sent : Option PaymentRequest

/-- The `if orderID == "" ... else ...` block that opens `ConfirmPurchase`: the
datastore it leaves, the value of `orderID` after it, and the error of its
early returns. The `order` it declares with `:=` is local to each branch. -/
def ConfirmPurchase.resolveOrder (ds : Datastore) (userID orderID : String)
    (rawOrderId : Option String) : Result String :=
  if orderID = "" then
    let r := ds.ConfirmOrder userID rawOrderId
    match r.err with
    | some e => { ds := r.ds, val := orderID, err := some e }
    | none => { ds := r.ds, val := r.val.ID, err := none }
  else
    match ds.FindOrder userID orderID with
    | (_, some e) => { ds := ds, val := orderID, err := some e }
    | (found, none) =>
      if found.PaymentConfirmation ≠ "" then
        { ds := ds, val := orderID, err := some "order already confirmed" }
      else { ds := ds, val := orderID, err := none }

/-- Go `(*BookstoreService).ConfirmPurchase`. The `order` read after the
opening block is the one declared by `var order entities.Order`, which that
block never assigns: it is still the zero order when the request is built. -/
def ConfirmPurchase (ds : Datastore) (pg : PaymentProcessor) (userID orderID : String)
    (creditCardDetails : CreditCardDetails) (rawOrderId : Option String) : PurchaseResult :=
  let order : Order := Order.zero
  let resolved := ConfirmPurchase.resolveOrder ds userID orderID rawOrderId
  match resolved.err with
  | some e => { ds := resolved.ds, val := Order.zero, err := some e, sent := none }
  | none =>
    let paymentRequest : PaymentRequest :=
      { ID := resolved.val, UserID := userID, Amount := order.TotalPrice }
    match pg paymentRequest creditCardDetails with
    | (_, some _) =>
      { ds := resolved.ds, val := order
        err := some ("payment processing failed for order id " ++ order.ID ++ ". please retry")
        sent := some paymentRequest }
    | (paymentConfirmationID, none) =>
      let r := resolved.ds.ConfirmPayment userID resolved.val paymentConfirmationID
      match r.err with
      | some e => { ds := r.ds, val := Order.zero, err := some e, sent := some paymentRequest }
      | none => { ds := r.ds, val := r.val, err := none, sent := some paymentRequest }

/-- One call on `BookstoreService`, with what the outside world supplies to it. -/
inductive Op where
  | addToCart (userID sku : String) (quantity : Int)
  | removeFromCart (userID sku : String) (quantity : Int)
  | getCart (userID : String)
  | getCartTotalPrice (userID : String)
  | checkout (userID : String) (rawOrderId : Option String)
  | confirmPurchase (pg : PaymentProcessor) (userID orderID : String)
      (creditCardDetails : CreditCardDetails) (rawOrderId : Option String)
  | getOrderHistory (userID : String)

/-- The datastore a service call leaves behind. -/
def Op.apply (ds : Datastore) : Op → Datastore
  | .addToCart userID sku quantity => (ds.AddToCart userID sku quantity).ds
  | .removeFromCart userID sku quantity => (ds.RemoveFromCart userID sku quantity).ds
  | .getCart userID => (ds.GetCart userID).1
  | .getCartTotalPrice userID => (ds.GetCartTotalPrice userID).1
  | .checkout userID rawOrderId => (ds.Checkout userID rawOrderId).ds
  | .confirmPurchase pg userID orderID creditCardDetails rawOrderId =>
    (ConfirmPurchase ds pg userID orderID creditCardDetails rawOrderId).ds
  | .getOrderHistory userID => (ds.GetOrderHistory userID).1

/-- Running a sequence of service calls from a datastore. -/
def runOps (ds : Datastore) (ops : List Op) : Datastore :=
  ops.foldl Op.apply ds

/-- One call on a `*Cart`. -/
inductive CartOp where
  | add (item : Item) (quantity : Int)
  | remove (item : Item) (quantity : Int)

/-- The cart a call leaves behind. -/
def CartOp.apply (c : Cart) : CartOp → Cart
  | .add item quantity => c.AddToCart item quantity
  | .remove item quantity => (c.RemoveFromCart item quantity).1

/-- The quantity argument of a cart call. -/
def CartOp.quantity : CartOp → Int
  | .add _ quantity => quantity
  | .remove _ quantity => quantity

/-- Running a sequence of cart calls from a cart. -/
def runCartOps (c : Cart) (ops : List CartOp) : Cart :=
  ops.foldl CartOp.apply c

/-! ## Observations used by the statements -/

/-- The lines of the user's cart in the datastore; none when the user has no cart. -/
def Datastore.cartLines (ds : Datastore) (userID : String) : List (Sigma fun _ : String => CartItem) :=
  match ds.carts userID with
  | none => []
  | some cart => cart.lines

/-- The sum over the current lines of `line.Quantity * line.Item.Price`, the
quantities and prices taken as exact numbers. -/
def Cart.linesPrice (c : Cart) : Float64 :=
  .finite (c.lines.map (fun kv => (kv.2.Quantity : ℚ) * kv.2.Item.Price.value)).sum

/-- The item entry that `newOrderFromCart` makes of a cart line. -/
def snapshotLine (kv : Sigma fun _ : String => CartItem) : ItemWithQty :=
  { Item := kv.2.Item, Quantity := kv.2.Quantity }

/-- The order `newOrderFromCart` builds when the raw id is `raw`, with its item
loop written as a map over the lines. -/
def pendingOrder (userID : String) (cart : Cart) (raw : String) : Order :=
  { ID := "order-" ++ raw, UserID := userID, Items := cart.lines.map snapshotLine,
    TotalItems := cart.TotalItems, TotalPrice := cart.TotalPrice, PaymentConfirmation := "" }

/-- The first catalogue item of the seed. -/
def item1 : Item := { SKU := "item-1", Name := "Item 1", Price := 100 }

/-- Card details as the purchase test sends them. -/
def testCard : CreditCardDetails :=
  { FirstName := "", LastName := "", Number := "123456789", Expiration := "12/22", CVV := "123" }

/-- The seeded store after user `u` asked for minus 9223372036854775807
`item-1`, a Go `int` that the stock check of `AddToCart` lets through. -/
def storeWithNegativeLine : Datastore :=
  runOps NewDatastore [Op.addToCart "u" "item-1" (-9223372036854775807)]

/-- The seeded store after user `u` put two `item-2` in the cart. -/
def storeWithCart : Datastore :=
  runOps NewDatastore [Op.addToCart "u" "item-2" 2]

/-- The seeded store after users `a` and `b` each put two `item-1` in their
carts and `a` checked out: the cart of `b` now asks for more than is left. -/
def storeOversold : Datastore :=
  runOps NewDatastore
    [Op.addToCart "a" "item-1" 2, Op.addToCart "b" "item-1" 2, Op.checkout "a" (some "r1")]

/-- The seeded store after user `u` checked out two `item-2` as order `order-r`. -/
def storeWithOrder : Datastore :=
  runOps NewDatastore [Op.addToCart "u" "item-2" 2, Op.checkout "u" (some "r")]

/-- The order `order-r` that `storeWithOrder` holds for user `u`. -/
def orderR : Order :=
  { ID := "order-r", UserID := "u"
    Items := [{ Item := { SKU := "item-2", Name := "Item 2", Price := 200 }, Quantity := 2 }]
    TotalItems := 2, TotalPrice := 400, PaymentConfirmation := "" }

/-- The store of `storeWithOrder` after the built-in gateway confirmed `order-r`. -/
def storeWithConfirmedOrder : Datastore :=
  runOps storeWithOrder [Op.confirmPurchase PaymentGateway.ProcessPayment "u" "order-r" testCard none]

/-- The sum of the quantities of the current lines, as an exact integer. -/
def Cart.linesQuantity (c : Cart) : Int :=
  (c.lines.map (fun kv => kv.2.Quantity)).sum

/-- `TotalItems` is a Go `int` and agrees with the sum of the line quantities
up to a multiple of `2^64`. -/
def Cart.CountInv (c : Cart) : Prop :=
  InIntRange c.TotalItems ∧ (c.TotalItems - c.linesQuantity) % 18446744073709551616 = 0

/-- The quantity of a SKU in an order: the sum over its item entries for that SKU. -/
def Order.quantityOf (o : Order) (sku : String) : Int :=
  ((o.Items.filter (fun i => decide (i.Item.SKU = sku))).map (fun i => i.Quantity)).sum

/-- The quantity of a SKU in all orders of one user. -/
def Datastore.userOrdered (ds : Datastore) (userID sku : String) : Int :=
  ((ds.ordersOf userID).map (fun o => o.quantityOf sku)).sum

/-- The quantity of a SKU in all orders of the listed users. -/
def Datastore.orderedQuantity (ds : Datastore) (users : List String) (sku : String) : Int :=
  (users.map (fun u => ds.userOrdered u sku)).sum

/-- The user a service call is made for. -/
def Op.userID : Op → String
  | .addToCart userID _ _ => userID
  | .removeFromCart userID _ _ => userID
  | .getCart userID => userID
  | .getCartTotalPrice userID => userID
  | .checkout userID _ => userID
  | .confirmPurchase _ userID _ _ _ => userID
  | .getOrderHistory userID => userID

/-- The call is not one in which `createNewOrderID` fails. -/
def Op.idGenerated : Op → Prop
  | .checkout _ rawOrderId => rawOrderId ≠ none
  | .confirmPurchase _ _ orderID _ rawOrderId => orderID = "" → rawOrderId ≠ none
  | _ => True

/-- The seeded store after user `u` put two `item-2` in the cart and the
checkout that followed could not generate an order id. -/
def storeAfterFailedId : Datastore :=
  runOps NewDatastore [Op.addToCart "u" "item-2" 2, Op.checkout "u" none]

/-- Every line of the cart is keyed by the SKU of the item it holds. -/
def Cart.KeysAgree (c : Cart) : Prop :=
  ∀ kv ∈ c.lines, kv.2.Item.SKU = kv.1

/-- Every line of every cart is keyed by the SKU of the item it holds. -/
def Datastore.KeysAgree (ds : Datastore) : Prop :=
  ∀ userID, ∀ kv ∈ ds.cartLines userID, kv.2.Item.SKU = kv.1

/-- The ledger of `users` accounts for the stock of `sku`: carts are keyed by
the SKU of their items, nobody else has an order, and the stock plus the
ordered quantity is `seeded` up to a multiple of `2^64`. -/
def Datastore.StockInv (ds : Datastore) (users : List String) (sku : String) (seeded : Int) :
    Prop :=
  ds.KeysAgree ∧ (∀ u, u ∉ users → ds.ordersOf u = []) ∧
  (ds.inventory sku + ds.orderedQuantity users sku - seeded) % 18446744073709551616 = 0

/-- One call of a method of `*Datastore`. `ListItems`, `GetItem` and
`FindOrder` only read their receiver. -/
inductive StoreOp where
  | addItem (item : Item) (quantity : Int)
  | removeItem (item : Item) (quantity : Int)
  | listItems
  | getItem (id : String)
  | addToCart (userID itemID : String) (quantity : Int)
  | removeFromCart (userID itemID : String) (quantity : Int)
  | getCart (userID : String)
  | getCartTotalPrice (userID : String)
  | getOrderHistory (userID : String)
  | checkout (userID : String) (rawOrderId : Option String)
  | confirmOrder (userID : String) (rawOrderId : Option String)
  | confirmPayment (userID orderID paymentConfirmationID : String)
  | findOrder (userID orderID : String)

/-- The datastore a method call leaves behind. -/
def StoreOp.apply (ds : Datastore) : StoreOp → Datastore
  | .addItem item quantity => ds.AddItem item quantity
  | .removeItem item quantity => (ds.RemoveItem item quantity).1
  | .listItems => ds
  | .getItem _ => ds
  | .addToCart userID itemID quantity => (ds.AddToCart userID itemID quantity).ds
  | .removeFromCart userID itemID quantity => (ds.RemoveFromCart userID itemID quantity).ds
  | .getCart userID => (ds.GetCart userID).1
  | .getCartTotalPrice userID => (ds.GetCartTotalPrice userID).1
  | .getOrderHistory userID => (ds.GetOrderHistory userID).1
  | .checkout userID rawOrderId => (ds.Checkout userID rawOrderId).ds
  | .confirmOrder userID rawOrderId => (ds.ConfirmOrder userID rawOrderId).ds
  | .confirmPayment userID orderID paymentConfirmationID =>
    (ds.ConfirmPayment userID orderID paymentConfirmationID).ds
  | .findOrder _ _ => ds

/-- Running a sequence of method calls from a datastore. -/
def runStoreOps (ds : Datastore) (ops : List StoreOp) : Datastore :=
  ops.foldl StoreOp.apply ds

/-- The later order has the `ID`, `UserID`, `Items`, `TotalItems` and
`TotalPrice` of the earlier one. -/
def Order.SameContent (o o1 : Order) : Prop :=
  o1.ID = o.ID ∧ o1.UserID = o.UserID ∧ o1.Items = o.Items ∧
    o1.TotalItems = o.TotalItems ∧ o1.TotalPrice = o.TotalPrice

/-- An order that carries a confirmation is the same order later. -/
def Order.KeptIfConfirmed (o o1 : Order) : Prop :=
  o.PaymentConfirmation ≠ "" → o1 = o

/-- What may happen to a stored order: its content stays, and once it carries
a confirmation all of it stays. -/
def Order.Step (o o1 : Order) : Prop :=
  o.SameContent o1 ∧ o.KeptIfConfirmed o1

/-- The later list is the earlier one, order by order related by `R`, with
newer orders in front of it. -/
def LedgerExtends (R : Order → Order → Prop) (old new : List Order) : Prop :=
  ∃ newer kept, new = newer ++ kept ∧ List.Forall₂ R old kept

/-- No `AddToCart` of the sequence, run from cart `c`, takes the quantity of
an existing line out of the range of Go `int`. -/
def addsStayInRange (c : Cart) : List CartOp → Prop
  | [] => True
  | CartOp.add item quantity :: rest =>
    (match c.line item.SKU with
      | some held => InIntRange (held.Quantity + quantity)
      | none => True) ∧
    addsStayInRange (c.AddToCart item quantity) rest
  | CartOp.remove item quantity :: rest =>
    addsStayInRange (c.RemoveFromCart item quantity).1 rest

/-- Every line of the cart holds a positive Go `int`. -/
def Cart.LinesPositive (c : Cart) : Prop :=
  ∀ kv ∈ c.lines, 0 < kv.2.Quantity ∧ InIntRange kv.2.Quantity

/-- The seeded store after user `u` put two `item-1` in the cart, asked to
remove five of them, and put one `item-2` in the cart. -/
def storeAfterOverRemoval : Datastore :=
  runOps NewDatastore
    [Op.addToCart "u" "item-1" 2, Op.removeFromCart "u" "item-1" 5, Op.addToCart "u" "item-2" 1]

/-- The seeded store after user `u` put two `item-1` in the cart, twice. -/
def storeAfterTwoAdds : Datastore :=
  runOps NewDatastore [Op.addToCart "u" "item-1" 2, Op.addToCart "u" "item-1" 2]

/-- The user a `Datastore` method call is made for; the catalogue methods are
made for no user. -/
def StoreOp.forUser : StoreOp → Option String
  | .addItem _ _ => none
  | .removeItem _ _ => none
  | .listItems => none
  | .getItem _ => none
  | .addToCart userID _ _ => some userID
  | .removeFromCart userID _ _ => some userID
  | .getCart userID => some userID
  | .getCartTotalPrice userID => some userID
  | .getOrderHistory userID => some userID
  | .checkout userID _ => some userID
  | .confirmOrder userID _ => some userID
  | .confirmPayment userID _ _ => some userID
  | .findOrder userID _ => some userID

/-- The seeded store after `a` and `b` each put an item in the cart and checked
out, and `b` put another item in the cart: both have an order, `b` has a cart
with a line. -/
def storeOfTwoUsers : Datastore :=
  runStoreOps NewDatastore
    [StoreOp.addToCart "a" "item-1" 1, StoreOp.checkout "a" (some "ra"),
      StoreOp.addToCart "b" "item-2" 1, StoreOp.checkout "b" (some "rb"),
      StoreOp.addToCart "b" "item-3" 2, StoreOp.addToCart "a" "item-3" 1]

/-- A payment processor that declines a request of the given amount and
accepts every other request, answering `paid`. -/
def declinesOnlyAmount (amount : Float64) : PaymentProcessor :=
  fun req _ => if req.Amount = amount then ("", some "declined") else ("paid", none)

/-- A payment processor that accepts a request of the given amount, answering
`paid`, and declines every other request. -/
def acceptsOnlyAmount (amount : Float64) : PaymentProcessor :=
  fun req _ => if req.Amount = amount then ("paid", none) else ("", some "declined")

end Bookstore

namespace Bookstore

/-! ## Lemmas on the loops -/

theorem wrapInt_of_inRange (x : Int) (h : InIntRange x) : wrapInt x = x := by
  unfold InIntRange at h
  unfold wrapInt
  omega

theorem wrapInt_inRange (x : Int) : InIntRange (wrapInt x) := by
  unfold InIntRange wrapInt
  omega

theorem foldl_append_one {α : Type} (l init : List α) :
    l.foldl (fun acc x => acc ++ [x]) init = init ++ l := by
  induction l generalizing init with
  | nil => simp
  | cons a t ih => simp [List.foldl_cons, ih]

theorem newOrder_items_foldl (lines : List (Sigma fun _ : String => CartItem)) (o : Order) :
    lines.foldl
      (fun o kv => { o with Items := o.Items ++ [{ Item := kv.2.Item, Quantity := kv.2.Quantity }] }) o
      = { o with Items := o.Items ++ lines.map snapshotLine } := by
  induction lines generalizing o with
  | nil => simp
  | cons a t ih => simp [List.foldl_cons, ih, snapshotLine]

theorem debitInventory_nil (inv : String → Int) : debitInventory inv [] = inv := rfl

theorem debitInventory_cons (inv : String → Int) (kv : Sigma fun _ : String => CartItem)
    (rest : List (Sigma fun _ : String => CartItem)) :
    debitInventory inv (kv :: rest)
      = debitInventory (Function.update inv kv.1 (wrapInt (inv kv.1 - kv.2.Quantity))) rest := rfl

/-- With unique keys, the debit loop touches each listed SKU once and no other. -/
theorem debitInventory_apply (lines : List (Sigma fun _ : String => CartItem))
    (hn : lines.NodupKeys) (inv : String → Int) (sku : String) :
    debitInventory inv lines sku =
      match lines.dlookup sku with
      | some v => wrapInt (inv sku - v.Quantity)
      | none => inv sku := by
  induction lines generalizing inv with
  | nil => simp [debitInventory_nil]
  | cons kv rest ih =>
    obtain ⟨k, v⟩ := kv
    rw [List.nodupKeys_cons] at hn
    rw [debitInventory_cons, ih hn.2]
    by_cases hk : sku = k
    · subst hk
      have hnone : rest.dlookup sku = none := List.dlookup_eq_none.mpr hn.1
      simp [hnone]
    · have hne : sku ≠ (⟨k, v⟩ : Sigma fun _ : String => CartItem).1 := hk
      rw [List.dlookup_cons_ne rest (⟨k, v⟩ : Sigma fun _ : String => CartItem) hne]
      simp [Function.update_noteq hk]

theorem Cart.lines_nodupKeys (c : Cart) : c.lines.NodupKeys := by
  unfold Cart.lines
  cases c.Items with
  | none => exact List.nodupKeys_nil
  | some m => exact m.nodupKeys

theorem newOrderFromCart_some (userID : String) (cart : Cart) (raw : String) :
    newOrderFromCart userID cart (some raw) = (pendingOrder userID cart raw, none) := by
  simp [newOrderFromCart, pendingOrder, newOrder_items_foldl]

/-- The three ways `ConfirmOrder` fails before it writes, and its one success. -/
theorem ConfirmOrder_cases (ds : Datastore) (userID : String) (rawOrderId : Option String) :
    (ds.carts userID = none ∧
      ds.ConfirmOrder userID rawOrderId =
        { ds := ds, val := Order.zero, err := some "cart not found in the datastore" }) ∨
    (∃ cart, ds.carts userID = some cart ∧ cart.lines = [] ∧
      ds.ConfirmOrder userID rawOrderId =
        { ds := ds, val := Order.zero, err := some "cart is empty" }) ∨
    (∃ cart kv, ds.carts userID = some cart ∧ kv ∈ cart.lines ∧
      ds.inventory kv.1 < kv.2.Quantity ∧
      ds.ConfirmOrder userID rawOrderId =
        { ds := ds, val := Order.zero, err := some ("insufficient stock for item " ++ kv.1) }) ∨
    (∃ cart, ds.carts userID = some cart ∧ cart.lines ≠ [] ∧
      (∀ kv ∈ cart.lines, kv.2.Quantity ≤ ds.inventory kv.1) ∧ rawOrderId = none ∧
      ds.ConfirmOrder userID rawOrderId =
        { ds := { ds with inventory := debitInventory ds.inventory cart.lines }
          val := Order.zero
          err := some ("unable to create new order for user " ++ userID) }) ∨
    (∃ cart raw, ds.carts userID = some cart ∧ cart.lines ≠ [] ∧
      (∀ kv ∈ cart.lines, kv.2.Quantity ≤ ds.inventory kv.1) ∧ rawOrderId = some raw ∧
      ds.ConfirmOrder userID rawOrderId =
        { ds := { ds with
                  inventory := debitInventory ds.inventory cart.lines
                  orders := Function.update ds.orders userID
                    (some (pendingOrder userID cart raw :: ds.ordersOf userID))
                  carts := Function.update ds.carts userID (some (NewCart userID)) }
          val := pendingOrder userID cart raw
          err := none }) := by
  cases hc : ds.carts userID with
  | none =>
    left
    simp [Datastore.ConfirmOrder, hc]
  | some cart =>
    right
    by_cases hl : cart.lines = []
    · left
      exact ⟨cart, rfl, hl, by simp [Datastore.ConfirmOrder, hc, hl]⟩
    · right
      have hlen : ¬ cart.lines.length = 0 := fun h => hl (List.length_eq_zero.mp h)
      cases hf : cart.lines.find? (fun kv => decide (ds.inventory kv.1 < kv.2.Quantity)) with
      | some kv =>
        left
        have h1 := List.find?_some hf
        have h2 := List.mem_of_find?_eq_some hf
        exact ⟨cart, kv, rfl, h2, of_decide_eq_true h1,
          by simp [Datastore.ConfirmOrder, hc, hlen, hf]⟩
      | none =>
        right
        have hall : ∀ kv ∈ cart.lines, kv.2.Quantity ≤ ds.inventory kv.1 := by
          intro kv hkv
          have := List.find?_eq_none.mp hf kv hkv
          simpa using this
        cases rawOrderId with
        | none =>
          left
          exact ⟨cart, rfl, hl, hall, rfl,
            by simp [Datastore.ConfirmOrder, hc, hlen, hf, newOrderFromCart]⟩
        | some raw =>
          right
          exact ⟨cart, raw, rfl, hl, hall, rfl,
            by simp [Datastore.ConfirmOrder, hc, hlen, hf, newOrderFromCart_some, Datastore.ordersOf]⟩

/-- A successful `ConfirmOrder`, spelled out. -/
theorem ConfirmOrder_success (ds : Datastore) (userID : String) (rawOrderId : Option String)
    (h : (ds.ConfirmOrder userID rawOrderId).err = none) :
    ∃ cart raw, ds.carts userID = some cart ∧ cart.lines ≠ [] ∧
      (∀ kv ∈ cart.lines, kv.2.Quantity ≤ ds.inventory kv.1) ∧ rawOrderId = some raw ∧
      ds.ConfirmOrder userID rawOrderId =
        { ds := { ds with
                  inventory := debitInventory ds.inventory cart.lines
                  orders := Function.update ds.orders userID
                    (some (pendingOrder userID cart raw :: ds.ordersOf userID))
                  carts := Function.update ds.carts userID (some (NewCart userID)) }
          val := pendingOrder userID cart raw
          err := none } := by
  rcases ConfirmOrder_cases ds userID rawOrderId with
    ⟨_, he⟩ | ⟨_, _, _, he⟩ | ⟨_, _, _, _, _, he⟩ | ⟨_, _, _, _, _, he⟩ | hs
  · rw [he] at h; simp at h
  · rw [he] at h; simp at h
  · rw [he] at h; simp at h
  · rw [he] at h; simp at h
  · exact hs

/-! ## Checkout -/

/-- C5. Checkout is atomic on insufficient stock: when some line of the user's
cart asks for more than `inventory[sku]`, `Datastore.Checkout` returns the
insufficient-stock error naming the SKU of a line that exceeds its stock, and
the datastore (inventory, every order list, every cart) is as before. -/
theorem Checkout_insufficient_stock_atomic (ds : Datastore) (userID : String)
    (rawOrderId : Option String)
    (h : ∃ kv ∈ ds.cartLines userID, ds.inventory kv.1 < kv.2.Quantity) :
    (∃ kv ∈ ds.cartLines userID, ds.inventory kv.1 < kv.2.Quantity ∧
      (ds.Checkout userID rawOrderId).err = some ("insufficient stock for item " ++ kv.1)) ∧
    (ds.Checkout userID rawOrderId).ds = ds ∧
    (ds.Checkout userID rawOrderId).ds.inventory = ds.inventory ∧
    (ds.Checkout userID rawOrderId).ds.orders = ds.orders ∧
    (ds.Checkout userID rawOrderId).ds.carts = ds.carts := by
  obtain ⟨kv0, hmem0, hlt0⟩ := h
  unfold Datastore.Checkout
  unfold Datastore.cartLines at hmem0 ⊢
  rcases ConfirmOrder_cases ds userID rawOrderId with
    ⟨hc, _⟩ | ⟨cart, hc, hl, _⟩ | ⟨cart, kv, hc, hkv, hlt, he⟩ |
    ⟨cart, hc, _, hall, _, _⟩ | ⟨cart, raw, hc, _, hall, _, _⟩
  · rw [hc] at hmem0; simp at hmem0
  · rw [hc] at hmem0; simp only [hl] at hmem0; simp at hmem0
  · rw [he, hc]
    exact ⟨⟨kv, hkv, hlt, rfl⟩, rfl, rfl, rfl, rfl⟩
  · rw [hc] at hmem0
    exact absurd hlt0 (not_lt.mpr (hall kv0 hmem0))
  · rw [hc] at hmem0
    exact absurd hlt0 (not_lt.mpr (hall kv0 hmem0))

/-- C5 at the oversold store: the cart of `b` holds two `item-1`, none is left. -/
theorem Checkout_insufficient_stock_atomic_witness :
    (∃ kv ∈ storeOversold.cartLines "b", storeOversold.inventory kv.1 < kv.2.Quantity ∧
      (storeOversold.Checkout "b" (some "r2")).err = some ("insufficient stock for item " ++ kv.1)) ∧
    (storeOversold.Checkout "b" (some "r2")).ds = storeOversold ∧
    (storeOversold.Checkout "b" (some "r2")).ds.inventory = storeOversold.inventory ∧
    (storeOversold.Checkout "b" (some "r2")).ds.orders = storeOversold.orders ∧
    (storeOversold.Checkout "b" (some "r2")).ds.carts = storeOversold.carts :=
  Checkout_insufficient_stock_atomic storeOversold "b" (some "r2") (by decide)

/-- C6. Checkout debits stock exactly once per line: when `Datastore.Checkout`
succeeds, the new `inventory[sku]` of a SKU with a line in the cart is the old
one minus that line's quantity, the subtraction being the one of Go `int`
(it is the exact difference whenever the quantity is not negative), and the
inventory of a SKU without a line is unchanged. -/
theorem Checkout_debits_each_line_once (ds : Datastore) (userID : String)
    (rawOrderId : Option String) (h : (ds.Checkout userID rawOrderId).err = none) (sku : String) :
    (∀ line, (⟨sku, line⟩ : Sigma fun _ : String => CartItem) ∈ ds.cartLines userID →
      (ds.Checkout userID rawOrderId).ds.inventory sku = wrapInt (ds.inventory sku - line.Quantity) ∧
      (0 ≤ line.Quantity → InIntRange (ds.inventory sku) →
        (ds.Checkout userID rawOrderId).ds.inventory sku = ds.inventory sku - line.Quantity)) ∧
    ((∀ line, (⟨sku, line⟩ : Sigma fun _ : String => CartItem) ∉ ds.cartLines userID) →
      (ds.Checkout userID rawOrderId).ds.inventory sku = ds.inventory sku) := by
  unfold Datastore.Checkout at h ⊢
  obtain ⟨cart, raw, hc, _, hall, _, he⟩ := ConfirmOrder_success ds userID rawOrderId h
  have hlines : ds.cartLines userID = cart.lines := by simp [Datastore.cartLines, hc]
  have hnd := cart.lines_nodupKeys
  rw [he, hlines]
  simp only
  rw [debitInventory_apply cart.lines hnd ds.inventory sku]
  constructor
  · intro line hmem
    have hlook : cart.lines.dlookup sku = some line :=
      Option.mem_def.mp ((List.mem_dlookup_iff hnd).mpr hmem)
    rw [hlook]
    refine ⟨rfl, ?_⟩
    intro hq hr
    have hle := hall ⟨sku, line⟩ hmem
    apply wrapInt_of_inRange
    unfold InIntRange at hr ⊢
    simp only at hle
    omega
  · intro hno
    have hnone : cart.lines.dlookup sku = none := by
      rw [List.dlookup_eq_none, List.not_mem_keys]
      exact hno
    rw [hnone]

/-- C6 at the store with a cart: the two `item-2` are debited, `item-1` is not. -/
theorem Checkout_debits_each_line_once_witness :
    (∀ line, (⟨"item-2", line⟩ : Sigma fun _ : String => CartItem) ∈ storeWithCart.cartLines "u" →
      (storeWithCart.Checkout "u" (some "r")).ds.inventory "item-2"
        = wrapInt (storeWithCart.inventory "item-2" - line.Quantity) ∧
      (0 ≤ line.Quantity → InIntRange (storeWithCart.inventory "item-2") →
        (storeWithCart.Checkout "u" (some "r")).ds.inventory "item-2"
          = storeWithCart.inventory "item-2" - line.Quantity)) ∧
    ((∀ line, (⟨"item-2", line⟩ : Sigma fun _ : String => CartItem) ∉ storeWithCart.cartLines "u") →
      (storeWithCart.Checkout "u" (some "r")).ds.inventory "item-2"
        = storeWithCart.inventory "item-2") :=
  Checkout_debits_each_line_once storeWithCart "u" (some "r") (by decide) "item-2"

/-- C7. Checkout returns a pending snapshot of the cart: when
`Datastore.Checkout` succeeds the user had a cart, and the returned order has
the caller as `UserID`, the cart's `TotalItems` and `TotalPrice`, one item entry
per cart line with that line's `Item` and `Quantity` (up to order), and an empty
`PaymentConfirmation`. -/
theorem Checkout_returns_pending_snapshot (ds : Datastore) (userID : String)
    (rawOrderId : Option String) (h : (ds.Checkout userID rawOrderId).err = none) :
    ∃ cart, ds.carts userID = some cart ∧
      (ds.Checkout userID rawOrderId).val.UserID = userID ∧
      (ds.Checkout userID rawOrderId).val.TotalItems = cart.TotalItems ∧
      (ds.Checkout userID rawOrderId).val.TotalPrice = cart.TotalPrice ∧
      List.Perm (ds.Checkout userID rawOrderId).val.Items (cart.lines.map snapshotLine) ∧
      (ds.Checkout userID rawOrderId).val.PaymentConfirmation = "" := by
  unfold Datastore.Checkout at h ⊢
  obtain ⟨cart, raw, hc, _, _, _, he⟩ := ConfirmOrder_success ds userID rawOrderId h
  refine ⟨cart, hc, ?_⟩
  rw [he]
  exact ⟨rfl, rfl, rfl, List.Perm.refl _, rfl⟩

/-- C7 at the store with a cart. -/
theorem Checkout_returns_pending_snapshot_witness :
    ∃ cart, storeWithCart.carts "u" = some cart ∧
      (storeWithCart.Checkout "u" (some "r")).val.UserID = "u" ∧
      (storeWithCart.Checkout "u" (some "r")).val.TotalItems = cart.TotalItems ∧
      (storeWithCart.Checkout "u" (some "r")).val.TotalPrice = cart.TotalPrice ∧
      List.Perm (storeWithCart.Checkout "u" (some "r")).val.Items (cart.lines.map snapshotLine) ∧
      (storeWithCart.Checkout "u" (some "r")).val.PaymentConfirmation = "" :=
  Checkout_returns_pending_snapshot storeWithCart "u" (some "r") (by decide)

/-- C8. Checkout drains the cart: after `Datastore.Checkout` succeeds the
user's cart still exists, has no lines, `TotalItems = 0` and `TotalPrice = 0`,
and a repeated `Checkout` for that user fails with the empty-cart error. -/
theorem Checkout_drains_cart (ds : Datastore) (userID : String)
    (rawOrderId : Option String) (h : (ds.Checkout userID rawOrderId).err = none) :
    (∃ cart, (ds.Checkout userID rawOrderId).ds.carts userID = some cart ∧
      cart.lines = [] ∧ cart.TotalItems = 0 ∧ cart.TotalPrice = 0) ∧
    ∀ rawOrderId2 : Option String,
      ((ds.Checkout userID rawOrderId).ds.Checkout userID rawOrderId2).err = some "cart is empty" := by
  unfold Datastore.Checkout at h ⊢
  obtain ⟨cart, raw, hc, _, _, _, he⟩ := ConfirmOrder_success ds userID rawOrderId h
  rw [he]
  refine ⟨⟨NewCart userID, by simp, rfl, rfl, rfl⟩, ?_⟩
  intro rawOrderId2
  simp [Datastore.ConfirmOrder, NewCart, Cart.lines]

/-- C8 at the store with a cart. -/
theorem Checkout_drains_cart_witness :
    (∃ cart, (storeWithCart.Checkout "u" (some "r")).ds.carts "u" = some cart ∧
      cart.lines = [] ∧ cart.TotalItems = 0 ∧ cart.TotalPrice = 0) ∧
    ∀ rawOrderId2 : Option String,
      ((storeWithCart.Checkout "u" (some "r")).ds.Checkout "u" rawOrderId2).err
        = some "cart is empty" :=
  Checkout_drains_cart storeWithCart "u" (some "r") (by decide)

/-- C9. Checkout of an empty cart fails without effect: when the user's cart
has no lines, or the user has no cart, `Datastore.Checkout` returns an error
(cart not found, or cart is empty) with the zero order, and leaves the
datastore as it was, so no order is created and inventory, order lists and
carts are unchanged. -/
theorem Checkout_empty_cart_no_effect (ds : Datastore) (userID : String)
    (rawOrderId : Option String) (h : ds.cartLines userID = []) :
    ((ds.Checkout userID rawOrderId).err = some "cart not found in the datastore" ∨
      (ds.Checkout userID rawOrderId).err = some "cart is empty") ∧
    (ds.Checkout userID rawOrderId).val = Order.zero ∧
    (ds.Checkout userID rawOrderId).ds = ds ∧
    (ds.Checkout userID rawOrderId).ds.inventory = ds.inventory ∧
    (ds.Checkout userID rawOrderId).ds.orders = ds.orders ∧
    (ds.Checkout userID rawOrderId).ds.carts = ds.carts := by
  unfold Datastore.Checkout
  unfold Datastore.cartLines at h
  rcases ConfirmOrder_cases ds userID rawOrderId with
    ⟨_, he⟩ | ⟨_, _, _, he⟩ | ⟨cart, kv, hc, hkv, _, _⟩ |
    ⟨cart, hc, hne, _, _, _⟩ | ⟨cart, raw, hc, hne, _, _, _⟩
  · rw [he]; exact ⟨Or.inl rfl, rfl, rfl, rfl, rfl, rfl⟩
  · rw [he]; exact ⟨Or.inr rfl, rfl, rfl, rfl, rfl, rfl⟩
  · rw [hc] at h; simp only at h; rw [h] at hkv; simp at hkv
  · rw [hc] at h; exact absurd h hne
  · rw [hc] at h; exact absurd h hne

/-- C9 at the seeded store, for a user who never had a cart. -/
theorem Checkout_empty_cart_no_effect_witness :
    ((NewDatastore.Checkout "nobody" (some "r")).err = some "cart not found in the datastore" ∨
      (NewDatastore.Checkout "nobody" (some "r")).err = some "cart is empty") ∧
    (NewDatastore.Checkout "nobody" (some "r")).val = Order.zero ∧
    (NewDatastore.Checkout "nobody" (some "r")).ds = NewDatastore ∧
    (NewDatastore.Checkout "nobody" (some "r")).ds.inventory = NewDatastore.inventory ∧
    (NewDatastore.Checkout "nobody" (some "r")).ds.orders = NewDatastore.orders ∧
    (NewDatastore.Checkout "nobody" (some "r")).ds.carts = NewDatastore.carts :=
  Checkout_empty_cart_no_effect NewDatastore "nobody" (some "r") (by decide)

/-! ## Where the inventory is written -/

theorem AddToCart_inventory (ds : Datastore) (userID itemID : String) (quantity : Int) :
    (ds.AddToCart userID itemID quantity).ds.inventory = ds.inventory := by
  unfold Datastore.AddToCart
  cases hc : ds.carts userID <;> simp only <;> split <;> try split
  all_goals rfl

theorem RemoveFromCart_inventory (ds : Datastore) (userID itemID : String) (quantity : Int) :
    (ds.RemoveFromCart userID itemID quantity).ds.inventory = ds.inventory := by
  unfold Datastore.RemoveFromCart
  split
  · rfl
  · split
    · rfl
    · split <;> rfl

theorem GetCart_inventory (ds : Datastore) (userID : String) :
    (ds.GetCart userID).1.inventory = ds.inventory := by
  unfold Datastore.GetCart
  split <;> rfl

theorem GetCartTotalPrice_inventory (ds : Datastore) (userID : String) :
    (ds.GetCartTotalPrice userID).1.inventory = ds.inventory := by
  unfold Datastore.GetCartTotalPrice
  split <;> rfl

theorem GetOrderHistory_inventory (ds : Datastore) (userID : String) :
    (ds.GetOrderHistory userID).1.inventory = ds.inventory := by
  unfold Datastore.GetOrderHistory
  simp only
  split <;> rfl

theorem ConfirmPayment_inventory (ds : Datastore) (userID orderID c : String) :
    (ds.ConfirmPayment userID orderID c).ds.inventory = ds.inventory := by
  unfold Datastore.ConfirmPayment
  split
  · rfl
  · split <;> rfl

/-- `ConfirmOrder` leaves the inventory alone or debits the lines of the cart. -/
theorem ConfirmOrder_inventory (ds : Datastore) (userID : String) (rawOrderId : Option String) :
    (ds.ConfirmOrder userID rawOrderId).ds.inventory = ds.inventory ∨
    ((∀ kv ∈ ds.cartLines userID, kv.2.Quantity ≤ ds.inventory kv.1) ∧
      (ds.ConfirmOrder userID rawOrderId).ds.inventory
        = debitInventory ds.inventory (ds.cartLines userID)) := by
  rcases ConfirmOrder_cases ds userID rawOrderId with
    ⟨_, he⟩ | ⟨_, _, _, he⟩ | ⟨_, _, _, _, _, he⟩ | ⟨cart, hc, _, hall, _, he⟩ |
    ⟨cart, raw, hc, _, hall, _, he⟩
  · left; rw [he]
  · left; rw [he]
  · left; rw [he]
  · right
    have hl : ds.cartLines userID = cart.lines := by simp [Datastore.cartLines, hc]
    rw [he, hl]
    exact ⟨hall, rfl⟩
  · right
    have hl : ds.cartLines userID = cart.lines := by simp [Datastore.cartLines, hc]
    rw [he, hl]
    exact ⟨hall, rfl⟩

theorem resolveOrder_ds (ds : Datastore) (userID orderID : String) (rawOrderId : Option String) :
    (ConfirmPurchase.resolveOrder ds userID orderID rawOrderId).ds
      = if orderID = "" then (ds.ConfirmOrder userID rawOrderId).ds else ds := by
  unfold ConfirmPurchase.resolveOrder
  by_cases hid : orderID = ""
  · simp only [hid, if_true]
    split <;> rfl
  · simp only [hid, if_false]
    split
    · rfl
    · split <;> rfl

theorem ConfirmPurchase_inventory_resolved (ds : Datastore) (pg : PaymentProcessor)
    (userID orderID : String) (creditCardDetails : CreditCardDetails)
    (rawOrderId : Option String) :
    (ConfirmPurchase ds pg userID orderID creditCardDetails rawOrderId).ds.inventory
      = (ConfirmPurchase.resolveOrder ds userID orderID rawOrderId).ds.inventory := by
  unfold ConfirmPurchase
  simp only
  split
  · rfl
  · split
    · rfl
    · split <;> exact ConfirmPayment_inventory _ _ _ _

/-- The inventory after `ConfirmPurchase` is that after its `ConfirmOrder`, if
it ran one, and the old one otherwise. -/
theorem ConfirmPurchase_inventory (ds : Datastore) (pg : PaymentProcessor)
    (userID orderID : String) (creditCardDetails : CreditCardDetails)
    (rawOrderId : Option String) :
    (ConfirmPurchase ds pg userID orderID creditCardDetails rawOrderId).ds.inventory
      = if orderID = "" then (ds.ConfirmOrder userID rawOrderId).ds.inventory else ds.inventory := by
  rw [ConfirmPurchase_inventory_resolved, resolveOrder_ds]
  split <;> rfl

/-- With unique keys and every line non-negative and within stock, the debit
loop leaves a non-negative stock that was non-negative and representable. -/
theorem debitInventory_nonneg (lines : List (Sigma fun _ : String => CartItem))
    (hn : lines.NodupKeys) (inv : String → Int)
    (h0 : ∀ sku, 0 ≤ inv sku) (hr : ∀ sku, InIntRange (inv sku))
    (hq : ∀ kv ∈ lines, 0 ≤ kv.2.Quantity ∧ kv.2.Quantity ≤ inv kv.1) (sku : String) :
    0 ≤ debitInventory inv lines sku ∧ debitInventory inv lines sku ≤ inv sku := by
  rw [debitInventory_apply lines hn inv sku]
  cases hl : lines.dlookup sku with
  | none => exact ⟨h0 sku, le_refl _⟩
  | some v =>
    have hmem : (⟨sku, v⟩ : Sigma fun _ : String => CartItem) ∈ lines :=
      (List.mem_dlookup_iff hn).mp (Option.mem_def.mpr hl)
    have hb := hq ⟨sku, v⟩ hmem
    have hrs := hr sku
    simp only at hb ⊢
    have hw : wrapInt (inv sku - v.Quantity) = inv sku - v.Quantity := by
      apply wrapInt_of_inRange
      unfold InIntRange at hrs ⊢
      omega
    rw [hw]
    omega

/-- One service call keeps the stock non-negative when the stock is
non-negative and representable and no cart holds a line of negative quantity. -/
theorem Op_apply_inventory_nonneg (ds : Datastore) (op : Op)
    (h0 : ∀ sku, 0 ≤ ds.inventory sku) (hr : ∀ sku, InIntRange (ds.inventory sku))
    (hq : ∀ userID, ∀ kv ∈ ds.cartLines userID, 0 ≤ kv.2.Quantity) (sku : String) :
    0 ≤ (op.apply ds).inventory sku := by
  have hco : ∀ userID rawOrderId, 0 ≤ (ds.ConfirmOrder userID rawOrderId).ds.inventory sku := by
    intro userID rawOrderId
    rcases ConfirmOrder_inventory ds userID rawOrderId with he | ⟨hall, he⟩
    · rw [he]; exact h0 sku
    · rw [he]
      have hnd : (ds.cartLines userID).NodupKeys := by
        unfold Datastore.cartLines
        cases ds.carts userID with
        | none => exact List.nodupKeys_nil
        | some cart => exact cart.lines_nodupKeys
      exact (debitInventory_nonneg _ hnd ds.inventory h0 hr
        (fun kv hkv => ⟨hq userID kv hkv, hall kv hkv⟩) sku).1
  cases op with
  | addToCart userID s quantity =>
    simp only [Op.apply, AddToCart_inventory]; exact h0 sku
  | removeFromCart userID s quantity =>
    simp only [Op.apply, RemoveFromCart_inventory]; exact h0 sku
  | getCart userID => simp only [Op.apply, GetCart_inventory]; exact h0 sku
  | getCartTotalPrice userID => simp only [Op.apply, GetCartTotalPrice_inventory]; exact h0 sku
  | checkout userID rawOrderId => exact hco userID rawOrderId
  | confirmPurchase pg userID orderID creditCardDetails rawOrderId =>
    simp only [Op.apply, ConfirmPurchase_inventory]
    split
    · exact hco userID rawOrderId
    · exact h0 sku
  | getOrderHistory userID => simp only [Op.apply, GetOrderHistory_inventory]; exact h0 sku

/-! ## Stock -/

/-- C1, evaluated. From the seeded store, adding minus 9223372036854775807
`item-1` to a cart passes the stock check of `AddToCart` (2 is not below it),
passes the re-check of `ConfirmOrder`, and the debit `2 - quantity` leaves the
`int` range: `inventory["item-1"]` ends at minus 9223372036854775807. -/
theorem stock_negative_after_checkout_of_negative_line :
    InIntRange (-9223372036854775807) ∧
    (NewDatastore.AddToCart "u" "item-1" (-9223372036854775807)).err = none ∧
    (storeWithNegativeLine.Checkout "u" (some "r")).err = none ∧
    (runOps NewDatastore
        [Op.addToCart "u" "item-1" (-9223372036854775807), Op.checkout "u" (some "r")]).inventory
      "item-1" = -9223372036854775807 ∧
    (runOps NewDatastore
        [Op.addToCart "u" "item-1" (-9223372036854775807), Op.checkout "u" (some "r")]).inventory
      "item-1" < 0 := by
  decide

/-! ## Cart totals -/

/-- C2, evaluated. From the empty cart, two `item-1` are added and five are
removed, both quantities positive: the line is gone, so the sum over the lines
is 0, and `TotalPrice` is `200 - 500`; `TotalItems` is back at 0. -/
theorem TotalPrice_differs_from_lines_after_over_removal :
    (∀ op ∈ [CartOp.add item1 2, CartOp.remove item1 5], 0 < op.quantity) ∧
    (runCartOps (NewCart "u") [CartOp.add item1 2, CartOp.remove item1 5]).lines = [] ∧
    (runCartOps (NewCart "u") [CartOp.add item1 2, CartOp.remove item1 5]).linesPrice = 0 ∧
    (runCartOps (NewCart "u") [CartOp.add item1 2, CartOp.remove item1 5]).TotalPrice = -300 ∧
    (runCartOps (NewCart "u") [CartOp.add item1 2, CartOp.remove item1 5]).TotalItems = 0 ∧
    (runCartOps (NewCart "u") [CartOp.add item1 2, CartOp.remove item1 5]).TotalPrice
      ≠ (runCartOps (NewCart "u") [CartOp.add item1 2, CartOp.remove item1 5]).linesPrice := by
  with_unfolding_all decide

/-! ## Payment confirmation -/

theorem find_setPaymentConfirmation (orderID c : String) (orders : List Order) (o : Order)
    (h : orders.find? (fun o => decide (o.ID = orderID)) = some o) :
    (setPaymentConfirmation orderID c orders).find? (fun o => decide (o.ID = orderID))
      = some { o with PaymentConfirmation := c } := by
  induction orders with
  | nil => simp at h
  | cons a t ih =>
    by_cases ha : a.ID = orderID
    · have hao : a = o := by simpa [List.find?_cons, ha] using h
      subst hao
      simp [setPaymentConfirmation, ha, List.find?_cons]
    · have ht : t.find? (fun o => decide (o.ID = orderID)) = some o := by
        simpa [List.find?_cons, ha] using h
      simp [setPaymentConfirmation, ha, List.find?_cons, ih ht]

/-- A successful `ConfirmPayment`, spelled out. -/
theorem ConfirmPayment_success (ds : Datastore) (userID orderID c : String)
    (h : (ds.ConfirmPayment userID orderID c).err = none) :
    ∃ orders o, ds.orders userID = some orders ∧
      orders.find? (fun o => decide (o.ID = orderID)) = some o ∧ o.PaymentConfirmation = "" ∧
      ds.ConfirmPayment userID orderID c =
        { ds := { ds with
                  orders := Function.update ds.orders userID
                    (some (setPaymentConfirmation orderID c orders)) }
          val := { o with PaymentConfirmation := c }
          err := none } := by
  cases hfo : ds.findOrderByOrderID userID orderID with
  | none => simp [Datastore.ConfirmPayment, hfo] at h
  | some o =>
    have hf := hfo
    unfold Datastore.findOrderByOrderID at hf
    cases ho : ds.orders userID with
    | none => simp [ho] at hf
    | some orders =>
      simp only [ho] at hf
      by_cases hp : o.PaymentConfirmation = ""
      · exact ⟨orders, o, rfl, hf, hp, by simp [Datastore.ConfirmPayment, hfo, hp, Datastore.ordersOf, ho]⟩
      · simp [Datastore.ConfirmPayment, hfo, hp] at h

/-- C3, as amended. For a non-empty confirmation id `c1`: if
`ConfirmPayment(user, id, c1)` succeeds, then `ConfirmPayment(user, id, c2)`
right after it fails with the already-confirmed error, changes nothing, and
the order found under that id still carries `c1`. -/
theorem ConfirmPayment_second_attempt_rejected (ds : Datastore) (userID orderID c1 c2 : String)
    (hc1 : c1 ≠ "") (h : (ds.ConfirmPayment userID orderID c1).err = none) :
    ((ds.ConfirmPayment userID orderID c1).ds.ConfirmPayment userID orderID c2).err
      = some ("order " ++ orderID ++ " already confirmed") ∧
    ((ds.ConfirmPayment userID orderID c1).ds.ConfirmPayment userID orderID c2).ds
      = (ds.ConfirmPayment userID orderID c1).ds ∧
    ((ds.ConfirmPayment userID orderID c1).ds.ConfirmPayment userID orderID c2).val.PaymentConfirmation
      = c1 ∧
    (((ds.ConfirmPayment userID orderID c1).ds.ConfirmPayment userID orderID c2).ds.findOrderByOrderID
      userID orderID).map (fun o => o.PaymentConfirmation) = some c1 := by
  obtain ⟨orders, o, ho, hf, _, he⟩ := ConfirmPayment_success ds userID orderID c1 h
  rw [he]
  have hfind : Datastore.findOrderByOrderID
      { ds with
        orders := Function.update ds.orders userID (some (setPaymentConfirmation orderID c1 orders)) }
      userID orderID = some { o with PaymentConfirmation := c1 } := by
    simp [Datastore.findOrderByOrderID, find_setPaymentConfirmation orderID c1 orders o hf]
  simp only [Datastore.ConfirmPayment, hfind]
  simp [hc1, hfind]

/-- C3 as amended, at the store with a pending order. -/
theorem ConfirmPayment_second_attempt_rejected_witness :
    ((storeWithOrder.ConfirmPayment "u" "order-r" "c1").ds.ConfirmPayment "u" "order-r" "c2").err
      = some ("order " ++ "order-r" ++ " already confirmed") ∧
    ((storeWithOrder.ConfirmPayment "u" "order-r" "c1").ds.ConfirmPayment "u" "order-r" "c2").ds
      = (storeWithOrder.ConfirmPayment "u" "order-r" "c1").ds ∧
    ((storeWithOrder.ConfirmPayment "u" "order-r" "c1").ds.ConfirmPayment "u" "order-r"
      "c2").val.PaymentConfirmation = "c1" ∧
    (((storeWithOrder.ConfirmPayment "u" "order-r" "c1").ds.ConfirmPayment "u" "order-r"
      "c2").ds.findOrderByOrderID "u" "order-r").map (fun o => o.PaymentConfirmation) = some "c1" :=
  ConfirmPayment_second_attempt_rejected storeWithOrder "u" "order-r" "c1" "c2"
    (by decide) (by decide)

/-- C3 as stated fails for the empty confirmation id: confirming the pending
order `order-r` with `""` succeeds and leaves it pending, so the confirmation
with `"x"` that follows succeeds as well and the order then carries `"x"`. -/
theorem ConfirmPayment_empty_id_confirms_twice :
    (storeWithOrder.ConfirmPayment "u" "order-r" "").err = none ∧
    ((storeWithOrder.ConfirmPayment "u" "order-r" "").ds.ConfirmPayment "u" "order-r" "x").err
      = none ∧
    ((storeWithOrder.ConfirmPayment "u" "order-r" "").ds.ConfirmPayment "u" "order-r" "x").err
      ≠ some ("order " ++ "order-r" ++ " already confirmed") ∧
    (((storeWithOrder.ConfirmPayment "u" "order-r" "").ds.ConfirmPayment "u" "order-r"
      "x").ds.findOrderByOrderID "u" "order-r").map (fun o => o.PaymentConfirmation) = some "x" := by
  decide

/-! ## Payment request -/

/-- Whatever `ConfirmPurchase` hands to the processor is for the caller and
for the amount of the zero order. -/
theorem ConfirmPurchase_sent_zero_amount (ds : Datastore) (pg : PaymentProcessor)
    (userID orderID : String) (creditCardDetails : CreditCardDetails)
    (rawOrderId : Option String) (req : PaymentRequest)
    (h : (ConfirmPurchase ds pg userID orderID creditCardDetails rawOrderId).sent = some req) :
    req.UserID = userID ∧ req.Amount = 0 := by
  unfold ConfirmPurchase at h
  simp only at h
  split at h
  · simp at h
  · split at h
    · simp only [Option.some.injEq] at h
      subst h
      exact ⟨rfl, rfl⟩
    · split at h
      · simp only [Option.some.injEq] at h
        subst h
        exact ⟨rfl, rfl⟩
      · simp only [Option.some.injEq] at h
        subst h
        exact ⟨rfl, rfl⟩

/-- C4, evaluated. With two `item-2` in the cart, `ConfirmPurchase` with an
empty order id checks out order `order-r` of total 400 and asks the processor
for 0; called again for the pending order `order-r` of total 400 it asks for 0
as well. The `ID` and `UserID` of the request are the order id and the caller. -/
theorem ConfirmPurchase_requests_zero_for_order_of_400 :
    (ConfirmPurchase storeWithCart PaymentGateway.ProcessPayment "u" "" testCard (some "r")).sent
      = some { ID := "order-r", UserID := "u", Amount := 0 } ∧
    ((ConfirmPurchase storeWithCart PaymentGateway.ProcessPayment "u" "" testCard
      (some "r")).ds.findOrderByOrderID "u" "order-r").map (fun o => o.TotalPrice) = some 400 ∧
    (storeWithOrder.findOrderByOrderID "u" "order-r").map (fun o => o.TotalPrice) = some 400 ∧
    (storeWithOrder.findOrderByOrderID "u" "order-r").map (fun o => o.PaymentConfirmation)
      = some "" ∧
    (ConfirmPurchase storeWithOrder PaymentGateway.ProcessPayment "u" "order-r" testCard none).sent
      = some { ID := "order-r", UserID := "u", Amount := 0 } := by
  with_unfolding_all decide

/-! ## Order history -/

/-- What `GetOrderHistory` returns: as many zero orders as the user has orders,
then the stored orders in ledger order. -/
theorem GetOrderHistory_eq (ds : Datastore) (userID : String) :
    (ds.GetOrderHistory userID).2
      = List.replicate (ds.ordersOf userID).length Order.zero ++ ds.ordersOf userID := by
  unfold Datastore.GetOrderHistory
  simp only [foldl_append_one]
  cases ho : ds.orders userID with
  | none => simp [Datastore.ordersOf, ho]
  | some orders => simp [Datastore.ordersOf, ho]

/-- C10, evaluated. For the user with the one order `order-r`,
`GetOrderHistory` returns two entries, the zero order first and `order-r`
second; for a user without orders it returns the empty sequence. -/
theorem GetOrderHistory_returns_zero_order_first :
    (storeWithOrder.ordersOf "u").length = 1 ∧
    (storeWithOrder.GetOrderHistory "u").2.length = 2 ∧
    (storeWithOrder.GetOrderHistory "u").2.map (fun o => o.ID) = ["", "order-r"] ∧
    (storeWithOrder.GetOrderHistory "u").2.head? = some Order.zero ∧
    (storeWithOrder.GetOrderHistory "nobody").2 = [] := by
  with_unfolding_all decide

/-! ## The contract of `ConfirmPayment` -/

theorem setPaymentConfirmation_split (orderID c : String) (pre post : List Order) (o : Order)
    (hpre : ∀ x ∈ pre, x.ID ≠ orderID) (ho : o.ID = orderID) :
    setPaymentConfirmation orderID c (pre ++ o :: post)
      = pre ++ { o with PaymentConfirmation := c } :: post := by
  induction pre with
  | nil => simp [setPaymentConfirmation, ho]
  | cons a t ih =>
    have ha : a.ID ≠ orderID := hpre a (List.mem_cons_self a t)
    have ht : ∀ x ∈ t, x.ID ≠ orderID := fun x hx => hpre x (List.mem_cons_of_mem a hx)
    simp [setPaymentConfirmation, ha, ih ht]

theorem find_split (orderID : String) (pre post : List Order) (o : Order)
    (hpre : ∀ x ∈ pre, x.ID ≠ orderID) (ho : o.ID = orderID) :
    (pre ++ o :: post).find? (fun o => decide (o.ID = orderID)) = some o := by
  induction pre with
  | nil => simp [ho]
  | cons a t ih =>
    have ha : a.ID ≠ orderID := hpre a (List.mem_cons_self a t)
    have ht : ∀ x ∈ t, x.ID ≠ orderID := fun x hx => hpre x (List.mem_cons_of_mem a hx)
    simp [List.find?_cons, ha, ih ht]

theorem ordersOf_eq_cons (ds : Datastore) (userID : String) (l : List Order) (hl : l ≠ [])
    (h : ds.ordersOf userID = l) : ds.orders userID = some l := by
  unfold Datastore.ordersOf at h
  cases ho : ds.orders userID with
  | none => rw [ho] at h; exact absurd h.symm hl
  | some os =>
    rw [ho] at h
    simp only at h
    rw [h]

theorem findOrderByOrderID_none (ds : Datastore) (userID orderID : String)
    (h : ∀ o ∈ ds.ordersOf userID, o.ID ≠ orderID) :
    ds.findOrderByOrderID userID orderID = none := by
  unfold Datastore.findOrderByOrderID
  unfold Datastore.ordersOf at h
  cases ho : ds.orders userID with
  | none => rfl
  | some os =>
    rw [ho] at h
    simp only [List.find?_eq_none]
    intro x hx
    simpa using h x hx

theorem findOrderByOrderID_split (ds : Datastore) (userID orderID : String)
    (pre post : List Order) (o : Order) (h : ds.ordersOf userID = pre ++ o :: post)
    (hpre : ∀ x ∈ pre, x.ID ≠ orderID) (ho : o.ID = orderID) :
    ds.findOrderByOrderID userID orderID = some o := by
  have hs := ordersOf_eq_cons ds userID (pre ++ o :: post) (by simp) h
  unfold Datastore.findOrderByOrderID
  rw [hs]
  exact find_split orderID pre post o hpre ho

/-- C11. The contract of `Datastore.ConfirmPayment(user, id, c)`: not-found
when the user's list has no order with that id; already-confirmed when the
(first) order with that id has a non-empty `PaymentConfirmation`; in both
cases the datastore is unchanged. Otherwise it succeeds, returns that order
with `PaymentConfirmation = c`, and the datastore differs only in that field
of that order: the user's list is the same before and after it, other users'
lists, inventory, items and carts are unchanged. -/
theorem ConfirmPayment_contract (ds : Datastore) (userID orderID c : String) :
    ((∀ o ∈ ds.ordersOf userID, o.ID ≠ orderID) →
      (ds.ConfirmPayment userID orderID c).err
        = some ("order " ++ orderID ++ " not found in the datastore") ∧
      (ds.ConfirmPayment userID orderID c).ds = ds) ∧
    (∀ pre o post, ds.ordersOf userID = pre ++ o :: post →
      (∀ x ∈ pre, x.ID ≠ orderID) → o.ID = orderID →
      (o.PaymentConfirmation ≠ "" →
        (ds.ConfirmPayment userID orderID c).err
          = some ("order " ++ orderID ++ " already confirmed") ∧
        (ds.ConfirmPayment userID orderID c).ds = ds) ∧
      (o.PaymentConfirmation = "" →
        (ds.ConfirmPayment userID orderID c).err = none ∧
        (ds.ConfirmPayment userID orderID c).val = { o with PaymentConfirmation := c } ∧
        (ds.ConfirmPayment userID orderID c).ds.ordersOf userID
          = pre ++ { o with PaymentConfirmation := c } :: post ∧
        (∀ u, u ≠ userID →
          (ds.ConfirmPayment userID orderID c).ds.orders u = ds.orders u) ∧
        (ds.ConfirmPayment userID orderID c).ds.inventory = ds.inventory ∧
        (ds.ConfirmPayment userID orderID c).ds.items = ds.items ∧
        (ds.ConfirmPayment userID orderID c).ds.carts = ds.carts)) := by
  constructor
  · intro h
    have hf := findOrderByOrderID_none ds userID orderID h
    simp [Datastore.ConfirmPayment, hf]
  · intro pre o post hsplit hpre ho
    have hf := findOrderByOrderID_split ds userID orderID pre post o hsplit hpre ho
    constructor
    · intro hp
      simp [Datastore.ConfirmPayment, hf, hp]
    · intro hp
      have hr : ds.ConfirmPayment userID orderID c =
          { ds := { ds with
                    orders := Function.update ds.orders userID
                      (some (setPaymentConfirmation orderID c (ds.ordersOf userID))) }
            val := { o with PaymentConfirmation := c }
            err := none } := by
        simp [Datastore.ConfirmPayment, hf, hp]
      rw [hr]
      refine ⟨rfl, rfl, ?_, ?_, rfl, rfl, rfl⟩
      · rw [hsplit, setPaymentConfirmation_split orderID c pre post o hpre ho]
        simp [Datastore.ordersOf]
      · intro u hu
        exact Function.update_noteq hu _ _

/-- C11 at the store with the pending order `order-r`: the success case. -/
theorem ConfirmPayment_contract_witness :
    (storeWithOrder.ConfirmPayment "u" "order-r" "c1").err = none ∧
    (storeWithOrder.ConfirmPayment "u" "order-r" "c1").val
      = { orderR with PaymentConfirmation := "c1" } ∧
    (storeWithOrder.ConfirmPayment "u" "order-r" "c1").ds.ordersOf "u"
      = [] ++ { orderR with PaymentConfirmation := "c1" } :: [] ∧
    (∀ u, u ≠ "u" →
      (storeWithOrder.ConfirmPayment "u" "order-r" "c1").ds.orders u = storeWithOrder.orders u) ∧
    (storeWithOrder.ConfirmPayment "u" "order-r" "c1").ds.inventory = storeWithOrder.inventory ∧
    (storeWithOrder.ConfirmPayment "u" "order-r" "c1").ds.items = storeWithOrder.items ∧
    (storeWithOrder.ConfirmPayment "u" "order-r" "c1").ds.carts = storeWithOrder.carts :=
  ((ConfirmPayment_contract storeWithOrder "u" "order-r" "c1").2 [] orderR []
    (by with_unfolding_all decide) (by simp) (by decide)).2 (by decide)

/-! ## `ConfirmPurchase` for an existing order -/

theorem resolveOrder_existing (ds : Datastore) (userID orderID : String)
    (rawOrderId : Option String) (o : Order) (hid : orderID ≠ "")
    (hf : ds.findOrderByOrderID userID orderID = some o) :
    ConfirmPurchase.resolveOrder ds userID orderID rawOrderId
      = if o.PaymentConfirmation ≠ "" then
          { ds := ds, val := orderID, err := some "order already confirmed" }
        else { ds := ds, val := orderID, err := none } := by
  simp [ConfirmPurchase.resolveOrder, hid, Datastore.FindOrder, hf]

theorem findOrderByOrderID_id (ds : Datastore) (userID orderID : String) (o : Order)
    (hf : ds.findOrderByOrderID userID orderID = some o) : o.ID = orderID := by
  unfold Datastore.findOrderByOrderID at hf
  cases ho : ds.orders userID with
  | none => simp [ho] at hf
  | some os =>
    simp only [ho] at hf
    simpa using List.find?_some hf

/-- `ConfirmPurchase` for a pending order when the processor answers `c` to the
request it is handed, which carries the order id, the user and `Amount = 0`. -/
theorem ConfirmPurchase_pending_success (ds : Datastore) (pg : PaymentProcessor)
    (userID orderID : String) (creditCardDetails : CreditCardDetails)
    (rawOrderId : Option String) (o : Order) (c : String) (hid : orderID ≠ "")
    (hf : ds.findOrderByOrderID userID orderID = some o) (hp : o.PaymentConfirmation = "")
    (hpg : pg { ID := orderID, UserID := userID, Amount := 0 } creditCardDetails = (c, none)) :
    ConfirmPurchase ds pg userID orderID creditCardDetails rawOrderId
      = { ds := (ds.ConfirmPayment userID orderID c).ds
          val := { o with PaymentConfirmation := c }
          err := none
          sent := some { ID := orderID, UserID := userID, Amount := 0 } } := by
  have hc : ds.ConfirmPayment userID orderID c =
      { ds := { ds with
                orders := Function.update ds.orders userID
                  (some (setPaymentConfirmation orderID c (ds.ordersOf userID))) }
        val := { o with PaymentConfirmation := c }
        err := none } := by
    simp [Datastore.ConfirmPayment, hf, hp]
  unfold ConfirmPurchase
  simp only [resolveOrder_existing ds userID orderID rawOrderId o hid hf, hp, ne_eq,
    not_true_eq_false, if_false]
  have hz : Order.zero.TotalPrice = 0 := rfl
  rw [hz, hpg]
  simp only [hc]

/-- C12. No re-payment: for a non-empty order id under which the user has an
order whose `PaymentConfirmation` is non-empty, `ConfirmPurchase` returns the
already-confirmed error whatever the processor is, does not call it, and
leaves the datastore (inventory, orders, carts) unchanged. -/
theorem ConfirmPurchase_rejects_confirmed_order (ds : Datastore) (pg : PaymentProcessor)
    (userID orderID : String) (creditCardDetails : CreditCardDetails)
    (rawOrderId : Option String) (o : Order) (hid : orderID ≠ "")
    (hf : ds.findOrderByOrderID userID orderID = some o) (hp : o.PaymentConfirmation ≠ "") :
    (ConfirmPurchase ds pg userID orderID creditCardDetails rawOrderId).err
      = some "order already confirmed" ∧
    (ConfirmPurchase ds pg userID orderID creditCardDetails rawOrderId).sent = none ∧
    (ConfirmPurchase ds pg userID orderID creditCardDetails rawOrderId).ds = ds ∧
    (ConfirmPurchase ds pg userID orderID creditCardDetails rawOrderId).ds.inventory
      = ds.inventory ∧
    (ConfirmPurchase ds pg userID orderID creditCardDetails rawOrderId).ds.orders = ds.orders ∧
    (ConfirmPurchase ds pg userID orderID creditCardDetails rawOrderId).ds.carts = ds.carts := by
  have hr : ConfirmPurchase ds pg userID orderID creditCardDetails rawOrderId =
      { ds := ds, val := Order.zero, err := some "order already confirmed", sent := none } := by
    simp [ConfirmPurchase, resolveOrder_existing ds userID orderID rawOrderId o hid hf, hp]
  rw [hr]
  exact ⟨rfl, rfl, rfl, rfl, rfl, rfl⟩

/-- C12 at the store whose order `order-r` is confirmed, with the built-in gateway. -/
theorem ConfirmPurchase_rejects_confirmed_order_witness :
    (ConfirmPurchase storeWithConfirmedOrder PaymentGateway.ProcessPayment "u" "order-r" testCard
      none).err = some "order already confirmed" ∧
    (ConfirmPurchase storeWithConfirmedOrder PaymentGateway.ProcessPayment "u" "order-r" testCard
      none).sent = none ∧
    (ConfirmPurchase storeWithConfirmedOrder PaymentGateway.ProcessPayment "u" "order-r" testCard
      none).ds = storeWithConfirmedOrder ∧
    (ConfirmPurchase storeWithConfirmedOrder PaymentGateway.ProcessPayment "u" "order-r" testCard
      none).ds.inventory = storeWithConfirmedOrder.inventory ∧
    (ConfirmPurchase storeWithConfirmedOrder PaymentGateway.ProcessPayment "u" "order-r" testCard
      none).ds.orders = storeWithConfirmedOrder.orders ∧
    (ConfirmPurchase storeWithConfirmedOrder PaymentGateway.ProcessPayment "u" "order-r" testCard
      none).ds.carts = storeWithConfirmedOrder.carts :=
  ConfirmPurchase_rejects_confirmed_order storeWithConfirmedOrder PaymentGateway.ProcessPayment
    "u" "order-r" testCard none { orderR with PaymentConfirmation := "order-r" }
    (by decide) (by with_unfolding_all decide) (by decide)

/-- C13. Payment failure leaves the state unchanged: for a non-empty order id
under which the user has a pending order, when the processor returns an error
to the call `ConfirmPurchase` makes (the request with the order id, the user
and `Amount = 0`, whatever it would answer to other requests),
`ConfirmPurchase` hands it that request and returns an error (with the zero
order; the message is built from the zero order and names no order id), the
datastore is as before, the order is still found, pending and with the same
fields, and the same call with a processor that answers `c` to that request
then succeeds. -/
theorem ConfirmPurchase_payment_failure_keeps_state (ds : Datastore) (pg : PaymentProcessor)
    (userID orderID : String) (creditCardDetails : CreditCardDetails)
    (rawOrderId : Option String) (o : Order) (hid : orderID ≠ "")
    (hf : ds.findOrderByOrderID userID orderID = some o) (hp : o.PaymentConfirmation = "")
    (hpg : (pg { ID := orderID, UserID := userID, Amount := 0 } creditCardDetails).2 ≠ none) :
    (ConfirmPurchase ds pg userID orderID creditCardDetails rawOrderId).sent
      = some { ID := orderID, UserID := userID, Amount := 0 } ∧
    (ConfirmPurchase ds pg userID orderID creditCardDetails rawOrderId).err
      = some ("payment processing failed for order id " ++ "" ++ ". please retry") ∧
    (ConfirmPurchase ds pg userID orderID creditCardDetails rawOrderId).val = Order.zero ∧
    (ConfirmPurchase ds pg userID orderID creditCardDetails rawOrderId).ds = ds ∧
    (ConfirmPurchase ds pg userID orderID creditCardDetails rawOrderId).ds.findOrderByOrderID
      userID orderID = some o ∧
    (ConfirmPurchase ds pg userID orderID creditCardDetails rawOrderId).ds.inventory
      = ds.inventory ∧
    (ConfirmPurchase ds pg userID orderID creditCardDetails rawOrderId).ds.orders = ds.orders ∧
    (ConfirmPurchase ds pg userID orderID creditCardDetails rawOrderId).ds.carts = ds.carts ∧
    (∀ (pg2 : PaymentProcessor) (c : String),
      pg2 { ID := orderID, UserID := userID, Amount := 0 } creditCardDetails = (c, none) →
      (ConfirmPurchase (ConfirmPurchase ds pg userID orderID creditCardDetails rawOrderId).ds pg2
        userID orderID creditCardDetails rawOrderId).err = none) := by
  have hr : ConfirmPurchase ds pg userID orderID creditCardDetails rawOrderId =
      { ds := ds, val := Order.zero
        err := some ("payment processing failed for order id " ++ "" ++ ". please retry")
        sent := some { ID := orderID, UserID := userID, Amount := 0 } } := by
    unfold ConfirmPurchase
    simp only [resolveOrder_existing ds userID orderID rawOrderId o hid hf, hp, ne_eq,
      not_true_eq_false, if_false]
    have hz : Order.zero.TotalPrice = 0 := rfl
    rw [hz]
    have hne := hpg
    cases hres : pg { ID := orderID, UserID := userID, Amount := 0 } creditCardDetails with
    | mk cid e =>
      rw [hres] at hne
      cases e with
      | none => exact absurd rfl hne
      | some msg => rfl
  rw [hr]
  refine ⟨rfl, rfl, rfl, rfl, hf, rfl, rfl, rfl, ?_⟩
  intro pg2 c hpg2
  rw [ConfirmPurchase_pending_success ds pg2 userID orderID creditCardDetails rawOrderId o c
    hid hf hp hpg2]

/-- C13 at the store with the pending order `order-r` of total 400, with a
processor that declines a request of amount 0 and accepts every other. -/
theorem ConfirmPurchase_payment_failure_keeps_state_witness :
    (ConfirmPurchase storeWithOrder (declinesOnlyAmount 0) "u" "order-r" testCard none).sent
      = some { ID := "order-r", UserID := "u", Amount := 0 } ∧
    (ConfirmPurchase storeWithOrder (declinesOnlyAmount 0) "u" "order-r" testCard none).err
      = some ("payment processing failed for order id " ++ "" ++ ". please retry") ∧
    (ConfirmPurchase storeWithOrder (declinesOnlyAmount 0) "u" "order-r" testCard none).val
      = Order.zero ∧
    (ConfirmPurchase storeWithOrder (declinesOnlyAmount 0) "u" "order-r" testCard none).ds
      = storeWithOrder ∧
    (ConfirmPurchase storeWithOrder (declinesOnlyAmount 0) "u" "order-r" testCard
      none).ds.findOrderByOrderID "u" "order-r" = some orderR ∧
    (ConfirmPurchase storeWithOrder (declinesOnlyAmount 0) "u" "order-r" testCard
      none).ds.inventory = storeWithOrder.inventory ∧
    (ConfirmPurchase storeWithOrder (declinesOnlyAmount 0) "u" "order-r" testCard
      none).ds.orders = storeWithOrder.orders ∧
    (ConfirmPurchase storeWithOrder (declinesOnlyAmount 0) "u" "order-r" testCard
      none).ds.carts = storeWithOrder.carts ∧
    (∀ (pg2 : PaymentProcessor) (c : String),
      pg2 { ID := "order-r", UserID := "u", Amount := 0 } testCard = (c, none) →
      (ConfirmPurchase
        (ConfirmPurchase storeWithOrder (declinesOnlyAmount 0) "u" "order-r" testCard none).ds
        pg2 "u" "order-r" testCard none).err = none) :=
  ConfirmPurchase_payment_failure_keeps_state storeWithOrder (declinesOnlyAmount 0)
    "u" "order-r" testCard none orderR (by decide) (by with_unfolding_all decide) (by decide)
    (by with_unfolding_all decide)

/-- C14. Successful confirmation: for a non-empty order id under which the user
has a pending order, and a processor that answers confirmation id `c` to the
call `ConfirmPurchase` makes (the request with the order id, the user and
`Amount = 0`, not the order total; whatever it would answer to other requests),
`ConfirmPurchase` hands it that request, succeeds and returns that order with
`ID`, `UserID`, `Items`, `TotalItems` and `TotalPrice` unchanged and
`PaymentConfirmation = c`; the ledger then holds that order under the id;
inventory, items and carts are unchanged. With the built-in `PaymentGateway`
the `PaymentConfirmation` of the returned order is the order id, which is not
empty. -/
theorem ConfirmPurchase_confirms_pending_order (ds : Datastore) (pg : PaymentProcessor)
    (userID orderID : String) (creditCardDetails : CreditCardDetails)
    (rawOrderId : Option String) (o : Order) (c : String) (hid : orderID ≠ "")
    (hf : ds.findOrderByOrderID userID orderID = some o) (hp : o.PaymentConfirmation = "")
    (hpg : pg { ID := orderID, UserID := userID, Amount := 0 } creditCardDetails = (c, none)) :
    (ConfirmPurchase ds pg userID orderID creditCardDetails rawOrderId).sent
      = some { ID := orderID, UserID := userID, Amount := 0 } ∧
    (ConfirmPurchase ds pg userID orderID creditCardDetails rawOrderId).err = none ∧
    (ConfirmPurchase ds pg userID orderID creditCardDetails rawOrderId).val
      = { o with PaymentConfirmation := c } ∧
    (ConfirmPurchase ds pg userID orderID creditCardDetails rawOrderId).val.ID = orderID ∧
    (ConfirmPurchase ds pg userID orderID creditCardDetails rawOrderId).val.Items = o.Items ∧
    (ConfirmPurchase ds pg userID orderID creditCardDetails rawOrderId).val.TotalItems
      = o.TotalItems ∧
    (ConfirmPurchase ds pg userID orderID creditCardDetails rawOrderId).val.TotalPrice
      = o.TotalPrice ∧
    (ConfirmPurchase ds pg userID orderID creditCardDetails rawOrderId).val.PaymentConfirmation
      = c ∧
    (ConfirmPurchase ds pg userID orderID creditCardDetails rawOrderId).ds.findOrderByOrderID
      userID orderID = some { o with PaymentConfirmation := c } ∧
    (ConfirmPurchase ds pg userID orderID creditCardDetails rawOrderId).ds.inventory
      = ds.inventory ∧
    (ConfirmPurchase ds pg userID orderID creditCardDetails rawOrderId).ds.items = ds.items ∧
    (ConfirmPurchase ds pg userID orderID creditCardDetails rawOrderId).ds.carts = ds.carts ∧
    (ConfirmPurchase ds PaymentGateway.ProcessPayment userID orderID creditCardDetails
      rawOrderId).val.PaymentConfirmation = orderID ∧
    (ConfirmPurchase ds PaymentGateway.ProcessPayment userID orderID creditCardDetails
      rawOrderId).val.PaymentConfirmation ≠ "" := by
  have hgw := ConfirmPurchase_pending_success ds PaymentGateway.ProcessPayment userID orderID
    creditCardDetails rawOrderId o orderID hid hf hp rfl
  rw [ConfirmPurchase_pending_success ds pg userID orderID creditCardDetails rawOrderId o c
    hid hf hp hpg, hgw]
  have hoid := findOrderByOrderID_id ds userID orderID o hf
  have hc : ds.ConfirmPayment userID orderID c =
      { ds := { ds with
                orders := Function.update ds.orders userID
                  (some (setPaymentConfirmation orderID c (ds.ordersOf userID))) }
        val := { o with PaymentConfirmation := c }
        err := none } := by
    simp [Datastore.ConfirmPayment, hf, hp]
  have hfind : (ds.ConfirmPayment userID orderID c).ds.findOrderByOrderID userID orderID
      = some { o with PaymentConfirmation := c } := by
    rw [hc]
    have hf2 := hf
    unfold Datastore.findOrderByOrderID at hf2
    cases ho : ds.orders userID with
    | none => simp [ho] at hf2
    | some os =>
      simp only [ho] at hf2
      simp [Datastore.findOrderByOrderID, Datastore.ordersOf, ho,
        find_setPaymentConfirmation orderID c os o hf2]
  refine ⟨rfl, rfl, rfl, hoid, rfl, rfl, rfl, rfl, hfind, ?_, ?_, ?_, rfl, hid⟩
  · rw [hc]
  · rw [hc]
  · rw [hc]

/-- C14 at the store with the pending order `order-r` of total 400, with a
processor that accepts a request of amount 0 and declines every other. -/
theorem ConfirmPurchase_confirms_pending_order_witness :
    (ConfirmPurchase storeWithOrder (acceptsOnlyAmount 0) "u" "order-r" testCard none).sent
      = some { ID := "order-r", UserID := "u", Amount := 0 } ∧
    (ConfirmPurchase storeWithOrder (acceptsOnlyAmount 0) "u" "order-r" testCard none).err = none ∧
    (ConfirmPurchase storeWithOrder (acceptsOnlyAmount 0) "u" "order-r" testCard none).val
      = { orderR with PaymentConfirmation := "paid" } ∧
    (ConfirmPurchase storeWithOrder (acceptsOnlyAmount 0) "u" "order-r" testCard none).ds.inventory
      = storeWithOrder.inventory ∧
    (ConfirmPurchase storeWithOrder (acceptsOnlyAmount 0) "u" "order-r" testCard none).ds.carts
      = storeWithOrder.carts ∧
    (ConfirmPurchase storeWithOrder PaymentGateway.ProcessPayment "u" "order-r" testCard
      none).val.PaymentConfirmation = "order-r" :=
  have h := ConfirmPurchase_confirms_pending_order storeWithOrder (acceptsOnlyAmount 0)
    "u" "order-r" testCard none orderR "paid" (by decide) (by with_unfolding_all decide)
    (by decide) (by with_unfolding_all decide)
  ⟨h.1, h.2.1, h.2.2.1, h.2.2.2.2.2.2.2.2.2.1, h.2.2.2.2.2.2.2.2.2.2.2.1,
    h.2.2.2.2.2.2.2.2.2.2.2.2.1⟩

/-- The amount of the request decides, not the order total: at the store with
the pending order `order-r` of total 400, a processor that accepts only a
request of amount 400 is handed a request of amount 0, declines it, and
`ConfirmPurchase` fails, leaving the order pending. -/
theorem ConfirmPurchase_fails_when_only_the_total_is_accepted :
    (storeWithOrder.findOrderByOrderID "u" "order-r").map (fun o => o.TotalPrice) = some 400 ∧
    (ConfirmPurchase storeWithOrder (acceptsOnlyAmount 400) "u" "order-r" testCard none).sent
      = some { ID := "order-r", UserID := "u", Amount := 0 } ∧
    (ConfirmPurchase storeWithOrder (acceptsOnlyAmount 400) "u" "order-r" testCard none).err
      = some ("payment processing failed for order id " ++ "" ++ ". please retry") ∧
    (ConfirmPurchase storeWithOrder (acceptsOnlyAmount 400) "u" "order-r" testCard
      none).ds.findOrderByOrderID "u" "order-r" = some orderR := by
  with_unfolding_all decide

/-! ## Float64 arithmetic -/

theorem Float64.toRat_ofInt (n : Int) (h : Float64.Representable (n : ℚ)) :
    (Float64.ofInt n).toRat = some (n : ℚ) := h

theorem Float64.value_of_toRat (x : Float64) (a : ℚ) (h : x.toRat = some a) : x.value = a := by
  cases x <;> simp_all [Float64.toRat, Float64.value]

/-- A product of finite values is exact when the exact product is a float64 value. -/
theorem Float64.toRat_mul (x y : Float64) (a b : ℚ) (hx : x.toRat = some a)
    (hy : y.toRat = some b) (h : Float64.Representable (a * b)) :
    (x * y).toRat = some (a * b) := by
  have hv := Float64.value_of_toRat x a hx
  have hw := Float64.value_of_toRat y b hy
  show (Float64.mul x y).toRat = some (a * b)
  have hm : Float64.mul x y =
      if x.value * y.value = 0 then
        (if xor x.isNegative y.isNegative then Float64.negZero else Float64.finite 0)
      else Float64.ofRat (x.value * y.value) := by
    cases x <;> cases y <;> simp_all [Float64.toRat, Float64.mul]
  rw [hm, hv, hw]
  by_cases h0 : a * b = 0
  · rw [if_pos h0, h0]
    cases xor x.isNegative y.isNegative <;> simp [Float64.toRat]
  · rw [if_neg h0]
    exact h

/-- A sum of finite values is exact when the exact sum is a float64 value. -/
theorem Float64.toRat_add (x y : Float64) (a b : ℚ) (hx : x.toRat = some a)
    (hy : y.toRat = some b) (h : Float64.Representable (a + b)) :
    (x + y).toRat = some (a + b) := by
  show (Float64.add x y).toRat = some (a + b)
  cases x <;> cases y <;> simp_all [Float64.toRat, Float64.add]
  exact h

theorem Float64.toRat_neg (y : Float64) (b : ℚ) (hy : y.toRat = some b) :
    (Float64.neg y).toRat = some (-b) := by
  cases y with
  | finite v =>
    have hb : v = b := by simpa [Float64.toRat] using hy
    subst hb
    by_cases h0 : v = 0
    · simp [Float64.neg, h0, Float64.toRat]
    · simp [Float64.neg, h0, Float64.toRat]
  | negZero =>
    have hb : 0 = b := by simpa [Float64.toRat] using hy
    subst hb
    simp [Float64.neg, Float64.toRat]
  | infinite s => simp [Float64.toRat] at hy
  | nan => simp [Float64.toRat] at hy

/-- A difference of finite values is exact when the exact difference is a
float64 value. -/
theorem Float64.toRat_sub (x y : Float64) (a b : ℚ) (hx : x.toRat = some a)
    (hy : y.toRat = some b) (h : Float64.Representable (a - b)) :
    (x - y).toRat = some (a - b) := by
  show (x + Float64.neg y).toRat = some (a - b)
  rw [sub_eq_add_neg] at h ⊢
  exact Float64.toRat_add x (Float64.neg y) a (-b) hx (Float64.toRat_neg y b hy) h

/-- The Go expression `x - y * float64(n)` is the exact `t - n * p` when `n`, the
product and the difference are float64 values. -/
theorem Float64.toRat_sub_mul_ofInt (x y : Float64) (n : Int) (t p : ℚ)
    (hx : x.toRat = some t) (hy : y.toRat = some p) (hn : Float64.Representable (n : ℚ))
    (hm : Float64.Representable (p * n)) (hd : Float64.Representable (t - p * n)) :
    (x - y * Float64.ofInt n).toRat = some (t - n * p) := by
  rw [mul_comm (n : ℚ) p]
  exact Float64.toRat_sub x (y * Float64.ofInt n) t (p * n) hx
    (Float64.toRat_mul y (Float64.ofInt n) p n hy (Float64.toRat_ofInt n hn) hm) hd

/-- The Go expression `x + y * float64(n)` is the exact `t + n * p` when `n`, the
product and the sum are float64 values. -/
theorem Float64.toRat_add_mul_ofInt (x y : Float64) (n : Int) (t p : ℚ)
    (hx : x.toRat = some t) (hy : y.toRat = some p) (hn : Float64.Representable (n : ℚ))
    (hm : Float64.Representable (p * n)) (hd : Float64.Representable (t + p * n)) :
    (x + y * Float64.ofInt n).toRat = some (t + n * p) := by
  rw [mul_comm (n : ℚ) p]
  exact Float64.toRat_add x (y * Float64.ofInt n) t (p * n) hx
    (Float64.toRat_mul y (Float64.ofInt n) p n hy (Float64.toRat_ofInt n hn) hm) hd

/-- Rounding at work: with the float64 nearest to one tenth as the price,
`3602879701896397 / 2 ^ 55`, three items added to the empty cart give the
`TotalPrice` `1351079888211149 / 2 ^ 52`, the float64 product, where the exact
product is `10808639105689191 / 2 ^ 55`. -/
theorem AddToCart_total_is_the_rounded_product :
    ((NewCart "u").AddToCart
      { SKU := "b", Name := "B", Price := .finite (mkRat 3602879701896397 36028797018963968) }
      3).TotalPrice.value.num = 1351079888211149 ∧
    ((NewCart "u").AddToCart
      { SKU := "b", Name := "B", Price := .finite (mkRat 3602879701896397 36028797018963968) }
      3).TotalPrice.value.den = 4503599627370496 ∧
    ((3 : ℚ) * mkRat 3602879701896397 36028797018963968).num = 10808639105689191 ∧
    ((3 : ℚ) * mkRat 3602879701896397 36028797018963968).den = 36028797018963968 := by
  refine ⟨?_, ?_, ?_, ?_⟩ <;> with_unfolding_all decide

/-! ## Removing from a cart -/

theorem Cart.line_of_items (c : Cart) (m : CartLines) (hm : c.Items = some m) (sku : String) :
    c.line sku = m.lookup sku := by
  simp [Cart.line, hm]

/-- `Cart.RemoveFromCart` for a SKU without a line in a cart whose map is not
nil: nothing changes and no error is returned. -/
theorem RemoveFromCart_absent_line (c : Cart) (m : CartLines) (item : Item) (quantity : Int)
    (hm : c.Items = some m) (h : m.lookup item.SKU = none) :
    c.RemoveFromCart item quantity = (c, none) := by
  simp [Cart.RemoveFromCart, hm, h]

/-- C15, evaluated. User `u` has a cart with `item-2` only; `item-1` is in the
catalogue. `RemoveFromCart(u, item-1, 1)` returns no error and the cart as it
was; on the cart itself, `RemoveFromCart` of an absent SKU returns no error
either. -/
theorem RemoveFromCart_of_absent_line_returns_no_error :
    storeWithCart.items "item-1" = some item1 ∧
    (storeWithCart.cartLines "u").dlookup "item-1" = none ∧
    (storeWithCart.RemoveFromCart "u" "item-1" 1).err = none ∧
    (storeWithCart.RemoveFromCart "u" "item-1" 1).val.lines = storeWithCart.cartLines "u" ∧
    (storeWithCart.RemoveFromCart "u" "item-1" 1).ds.cartLines "u"
      = storeWithCart.cartLines "u" ∧
    ((NewCart "u").RemoveFromCart item1 1).2 = none ∧
    ((NewCart "u").RemoveFromCart item1 1).1.lines = [] := by
  with_unfolding_all decide

/-- C16. `Cart.RemoveFromCart` on a present line holding `h = held.Quantity`,
for a requested `r`: if `h > r` the line's quantity becomes `h - r` and
`TotalItems` decreases by `r`; otherwise the line is removed and `TotalItems`
decreases by `h`. In both cases `TotalPrice` decreases by `r * item.Price`,
every other line is unchanged and no error is returned. The integer
subtractions are those of Go `int`; they are the exact differences whenever
these are representable. The price is that of Go `float64`, the statement
`TotalPrice -= item.Price * float64(r)` with each operation rounded; it is the
exact `TotalPrice - r * item.Price` whenever `r`, the product and the
difference are float64 values. -/
theorem RemoveFromCart_present_line (c : Cart) (item : Item) (r : Int) (held : CartItem)
    (h : c.line item.SKU = some held) :
    (c.RemoveFromCart item r).2 = none ∧
    (held.Quantity > r →
      (c.RemoveFromCart item r).1.line item.SKU
        = some { held with Quantity := wrapInt (held.Quantity - r) } ∧
      (InIntRange (held.Quantity - r) →
        (c.RemoveFromCart item r).1.line item.SKU
          = some { held with Quantity := held.Quantity - r }) ∧
      (c.RemoveFromCart item r).1.TotalItems = wrapInt (c.TotalItems - r) ∧
      (InIntRange (c.TotalItems - r) →
        (c.RemoveFromCart item r).1.TotalItems = c.TotalItems - r)) ∧
    (¬ held.Quantity > r →
      (c.RemoveFromCart item r).1.line item.SKU = none ∧
      (c.RemoveFromCart item r).1.TotalItems = wrapInt (c.TotalItems - held.Quantity) ∧
      (InIntRange (c.TotalItems - held.Quantity) →
        (c.RemoveFromCart item r).1.TotalItems = c.TotalItems - held.Quantity)) ∧
    (c.RemoveFromCart item r).1.TotalPrice = c.TotalPrice - item.Price * Float64.ofInt r ∧
    (∀ t p : ℚ, c.TotalPrice.toRat = some t → item.Price.toRat = some p →
      Float64.Representable (r : ℚ) → Float64.Representable (p * r) →
      Float64.Representable (t - p * r) →
      (c.RemoveFromCart item r).1.TotalPrice.toRat = some (t - r * p)) ∧
    (∀ sku, sku ≠ item.SKU → (c.RemoveFromCart item r).1.line sku = c.line sku) := by
  cases hm : c.Items with
  | none => simp [Cart.line, hm] at h
  | some m =>
    have hl : m.lookup item.SKU = some held := by
      rw [← Cart.line_of_items c m hm]; exact h
    by_cases hgt : held.Quantity > r
    · have hr : c.RemoveFromCart item r =
          ({ c with
             Items := some (m.insert item.SKU
               { held with Quantity := wrapInt (held.Quantity - r) })
             TotalItems := wrapInt (c.TotalItems - r)
             TotalPrice := c.TotalPrice - item.Price * Float64.ofInt r }, none) := by
        simp [Cart.RemoveFromCart, hm, hl, hgt]
      rw [hr]
      refine ⟨rfl, ?_, ?_, rfl, ?_, ?_⟩
      · intro _
        refine ⟨?_, ?_, rfl, ?_⟩
        · simp [Cart.line, AList.lookup_insert]
        · intro hin
          simp [Cart.line, AList.lookup_insert, wrapInt_of_inRange _ hin]
        · intro hin
          exact wrapInt_of_inRange _ hin
      · intro hn
        exact absurd hgt hn
      · intro t p ht hp hn hm hd
        exact Float64.toRat_sub_mul_ofInt c.TotalPrice item.Price r t p ht hp hn hm hd
      · intro sku hne
        simp [Cart.line, hm, AList.lookup_insert_ne hne]
    · have hr : c.RemoveFromCart item r =
          ({ c with
             Items := some (m.erase item.SKU)
             TotalItems := wrapInt (c.TotalItems - held.Quantity)
             TotalPrice := c.TotalPrice - item.Price * Float64.ofInt r }, none) := by
        simp [Cart.RemoveFromCart, hm, hl, hgt]
      rw [hr]
      refine ⟨rfl, ?_, ?_, rfl, ?_, ?_⟩
      · intro hp
        exact absurd hp hgt
      · intro _
        refine ⟨?_, rfl, ?_⟩
        · simp [Cart.line, AList.lookup_erase]
        · intro hin
          exact wrapInt_of_inRange _ hin
      · intro t p ht hp hn hm hd
        exact Float64.toRat_sub_mul_ofInt c.TotalPrice item.Price r t p ht hp hn hm hd
      · intro sku hne
        simp [Cart.line, hm, AList.lookup_erase_ne hne]

/-- C16 at a cart holding two `item-1`, removing five: the line goes,
`TotalItems` drops by 2 and `TotalPrice` by `5 * 100`, from 200 to minus 300. -/
theorem RemoveFromCart_present_line_witness :
    (((NewCart "u").AddToCart item1 2).RemoveFromCart item1 5).1.line item1.SKU = none ∧
    (((NewCart "u").AddToCart item1 2).RemoveFromCart item1 5).1.TotalItems
      = wrapInt (((NewCart "u").AddToCart item1 2).TotalItems - 2) ∧
    (((NewCart "u").AddToCart item1 2).RemoveFromCart item1 5).1.TotalPrice
      = ((NewCart "u").AddToCart item1 2).TotalPrice - item1.Price * Float64.ofInt 5 ∧
    (((NewCart "u").AddToCart item1 2).RemoveFromCart item1 5).1.TotalPrice.toRat
      = some (200 - ((5 : Int) : ℚ) * 100) :=
  have h := RemoveFromCart_present_line ((NewCart "u").AddToCart item1 2) item1 5
    { Item := item1, Quantity := 2 } (by with_unfolding_all decide)
  ⟨(h.2.2.1 (by decide)).1, (h.2.2.1 (by decide)).2.1, h.2.2.2.1,
    h.2.2.2.2.1 200 100 (by with_unfolding_all decide) (by with_unfolding_all decide)
      (by with_unfolding_all decide)
      (by
        have hv : (100 * ((5 : Int) : ℚ) : ℚ) = 500 := by norm_num
        rw [hv]
        decide)
      (by
        have hv : (200 - 100 * ((5 : Int) : ℚ) : ℚ) = -300 := by norm_num
        rw [hv]
        decide)⟩

/-! ## Adding to a cart -/

/-- The map `Cart.AddToCart` works on, and the map it leaves. -/
theorem AddToCart_items (c : Cart) (item : Item) (q : Int) :
    ∃ m : CartLines, c.lines = m.entries ∧ (∀ sku, c.line sku = m.lookup sku) ∧
      (c.AddToCart item q).Items = some (m.insert item.SKU
        (match m.lookup item.SKU with
          | some held => { held with Quantity := wrapInt (held.Quantity + q) }
          | none => { Item := item, Quantity := q })) := by
  cases hm : c.Items with
  | none =>
    refine ⟨∅, by simp [Cart.lines, hm], fun sku => by simp [Cart.line, hm], ?_⟩
    simp [Cart.AddToCart, hm]
  | some m =>
    refine ⟨m, by simp [Cart.lines, hm], fun sku => by simp [Cart.line, hm], ?_⟩
    cases hl : m.lookup item.SKU <;> simp [Cart.AddToCart, hm, hl]

theorem filter_key_kerase (k : String) (l : List (Sigma fun _ : String => CartItem))
    (hn : l.NodupKeys) :
    (l.kerase k).filter (fun kv => decide (kv.1 = k)) = [] := by
  rw [List.filter_eq_nil_iff]
  intro kv hkv
  have hnot := List.not_mem_keys_kerase k hn
  have hmem := List.mem_keys_of_mem hkv
  intro hk
  have hk2 : kv.1 = k := by simpa using hk
  rw [hk2] at hmem
  exact hnot hmem

/-- C17. `Cart.AddToCart` accumulates: afterwards there is exactly one line for
`item.SKU`; its quantity is the previous quantity plus `q` when there was a
line (the addition being that of Go `int`, exact whenever the sum is
representable) and `q` when there was none; every other line is unchanged;
`TotalItems` grows by `q` and `TotalPrice` by `q * item.Price`. Adding to a
cart without lines gives a cart with exactly one line, keyed by `item.SKU`.
The price is that of Go `float64`, the statement
`TotalPrice += item.Price * float64(q)` with each operation rounded; it is the
exact `TotalPrice + q * item.Price` whenever `q`, the product and the sum are
float64 values. -/
theorem AddToCart_accumulates (c : Cart) (item : Item) (q : Int) :
    (∀ held, c.line item.SKU = some held →
      (c.AddToCart item q).line item.SKU
        = some { held with Quantity := wrapInt (held.Quantity + q) } ∧
      (InIntRange (held.Quantity + q) →
        (c.AddToCart item q).line item.SKU
          = some { held with Quantity := held.Quantity + q })) ∧
    (c.line item.SKU = none →
      (c.AddToCart item q).line item.SKU = some { Item := item, Quantity := q }) ∧
    ((c.AddToCart item q).lines.filter (fun kv => decide (kv.1 = item.SKU))).length = 1 ∧
    (∀ sku, sku ≠ item.SKU → (c.AddToCart item q).line sku = c.line sku) ∧
    (c.AddToCart item q).TotalItems = wrapInt (c.TotalItems + q) ∧
    (InIntRange (c.TotalItems + q) → (c.AddToCart item q).TotalItems = c.TotalItems + q) ∧
    (c.AddToCart item q).TotalPrice = c.TotalPrice + item.Price * Float64.ofInt q ∧
    (∀ t p : ℚ, c.TotalPrice.toRat = some t → item.Price.toRat = some p →
      Float64.Representable (q : ℚ) → Float64.Representable (p * q) →
      Float64.Representable (t + p * q) →
      (c.AddToCart item q).TotalPrice.toRat = some (t + q * p)) ∧
    (c.lines = [] →
      (c.AddToCart item q).lines = [⟨item.SKU, { Item := item, Quantity := q }⟩]) := by
  obtain ⟨m, hlines, hline, hitems⟩ := AddToCart_items c item q
  have hnewline : ∀ sku, (c.AddToCart item q).line sku
      = (m.insert item.SKU
        (match m.lookup item.SKU with
          | some held => { held with Quantity := wrapInt (held.Quantity + q) }
          | none => { Item := item, Quantity := q })).lookup sku := by
    intro sku
    simp [Cart.line, hitems]
  have hnewlines : (c.AddToCart item q).lines
      = (m.insert item.SKU
        (match m.lookup item.SKU with
          | some held => { held with Quantity := wrapInt (held.Quantity + q) }
          | none => { Item := item, Quantity := q })).entries := by
    simp [Cart.lines, hitems]
  refine ⟨?_, ?_, ?_, ?_, rfl, ?_, rfl, ?_, ?_⟩
  · intro held hheld
    rw [hline] at hheld
    rw [hnewline, AList.lookup_insert, hheld]
    refine ⟨rfl, ?_⟩
    intro hin
    simp only [wrapInt_of_inRange _ hin]
  · intro hnone
    rw [hline] at hnone
    rw [hnewline, AList.lookup_insert, hnone]
  · rw [hnewlines, AList.insert_entries, List.filter_cons]
    simp [filter_key_kerase item.SKU m.entries m.nodupKeys]
  · intro sku hne
    rw [hnewline, AList.lookup_insert_ne hne, hline]
  · intro hin
    exact wrapInt_of_inRange _ hin
  · intro t p ht hp hn hm hd
    exact Float64.toRat_add_mul_ofInt c.TotalPrice item.Price q t p ht hp hn hm hd
  · intro hempty
    rw [hlines] at hempty
    have hnone : m.lookup item.SKU = none := by
      simp [AList.lookup, hempty]
    rw [hnewlines, AList.insert_entries, hnone, hempty]
    simp

/-- C17 for the first step of the purchase test: two `item-2` into the empty
cart give one line, keyed `item-2`, and totals 2 and 400. -/
theorem AddToCart_accumulates_witness :
    ((NewCart "u").AddToCart { SKU := "item-2", Name := "Item 2", Price := 200 } 2).lines
      = [⟨"item-2", { Item := { SKU := "item-2", Name := "Item 2", Price := 200 },
                      Quantity := 2 }⟩] ∧
    ((NewCart "u").AddToCart { SKU := "item-2", Name := "Item 2", Price := 200 } 2).TotalItems
      = (NewCart "u").TotalItems + 2 ∧
    ((NewCart "u").AddToCart { SKU := "item-2", Name := "Item 2", Price := 200 } 2).TotalPrice
      = (NewCart "u").TotalPrice + 200 * Float64.ofInt 2 ∧
    ((NewCart "u").AddToCart { SKU := "item-2", Name := "Item 2", Price := 200 }
      2).TotalPrice.toRat = some (0 + ((2 : Int) : ℚ) * 200) :=
  have h := AddToCart_accumulates (NewCart "u")
    { SKU := "item-2", Name := "Item 2", Price := 200 } 2
  ⟨h.2.2.2.2.2.2.2.2 (by decide), h.2.2.2.2.2.1 (by decide), h.2.2.2.2.2.2.1,
    h.2.2.2.2.2.2.2.1 0 200 (by with_unfolding_all decide) (by with_unfolding_all decide)
      (by with_unfolding_all decide)
      (by
        have hv : (200 * ((2 : Int) : ℚ) : ℚ) = 400 := by norm_num
        rw [hv]
        decide)
      (by
        have hv : (0 + 200 * ((2 : Int) : ℚ) : ℚ) = 400 := by norm_num
        rw [hv]
        decide)⟩

/-! ## The item count of a cart -/

theorem quantity_sum_kerase (k : String) (v : CartItem)
    (l : List (Sigma fun _ : String => CartItem)) (hn : l.NodupKeys)
    (h : l.dlookup k = some v) :
    (l.map (fun kv => kv.2.Quantity)).sum
      = v.Quantity + ((l.kerase k).map (fun kv => kv.2.Quantity)).sum := by
  induction l with
  | nil => simp at h
  | cons hd t ih =>
    obtain ⟨k1, v1⟩ := hd
    rw [List.nodupKeys_cons] at hn
    by_cases hk : k = k1
    · subst hk
      have hv : v1 = v := by simpa [List.dlookup_cons_eq] using h
      subst hv
      simp [List.kerase_cons_eq]
    · have hne : k ≠ (⟨k1, v1⟩ : Sigma fun _ : String => CartItem).1 := hk
      rw [List.dlookup_cons_ne t (⟨k1, v1⟩ : Sigma fun _ : String => CartItem) hne] at h
      rw [List.kerase_cons_ne hne]
      simp only [List.map_cons, List.sum_cons]
      rw [ih hn.2 h]
      ring

theorem quantity_sum_kerase_none (k : String) (l : List (Sigma fun _ : String => CartItem))
    (h : l.dlookup k = none) : l.kerase k = l :=
  List.kerase_of_not_mem_keys (List.dlookup_eq_none.mp h)

theorem wrapInt_congr (x y : Int) (h : (x - y) % 18446744073709551616 = 0) (hx : InIntRange x) :
    x = wrapInt y := by
  unfold InIntRange at hx
  unfold wrapInt
  omega

theorem CountInv_TotalItems (c : Cart) (h : c.CountInv) :
    c.TotalItems = wrapInt c.linesQuantity ∧
    (InIntRange c.linesQuantity → c.TotalItems = c.linesQuantity) := by
  have h1 := wrapInt_congr c.TotalItems c.linesQuantity h.2 h.1
  refine ⟨h1, ?_⟩
  intro hin
  rw [h1, wrapInt_of_inRange _ hin]

theorem CountInv_NewCart (userID : String) : (NewCart userID).CountInv := by
  unfold Cart.CountInv InIntRange
  simp [NewCart, Cart.linesQuantity, Cart.lines]

theorem CountInv_zero : Cart.zero.CountInv := by
  unfold Cart.CountInv InIntRange
  simp [Cart.zero, Cart.linesQuantity, Cart.lines]

theorem CountInv_AddToCart (c : Cart) (item : Item) (q : Int) (h : c.CountInv) :
    (c.AddToCart item q).CountInv := by
  obtain ⟨m, hlines, _, hitems⟩ := AddToCart_items c item q
  have htot : (c.AddToCart item q).TotalItems = wrapInt (c.TotalItems + q) := rfl
  obtain ⟨hr, hmod⟩ := h
  unfold Cart.CountInv
  refine ⟨by rw [htot]; exact wrapInt_inRange _, ?_⟩
  have hold : c.linesQuantity = (m.entries.map (fun kv => kv.2.Quantity)).sum := by
    simp [Cart.linesQuantity, hlines]
  cases hl : m.lookup item.SKU with
  | none =>
    have hnew : (c.AddToCart item q).linesQuantity
        = q + (m.entries.map (fun kv => kv.2.Quantity)).sum := by
      rw [hl] at hitems
      have hk := quantity_sum_kerase_none item.SKU m.entries hl
      simp [Cart.linesQuantity, Cart.lines, hitems, AList.insert_entries, hk]
    rw [htot, hnew, ← hold]
    unfold wrapInt
    omega
  | some held =>
    have hsum := quantity_sum_kerase item.SKU held m.entries m.nodupKeys hl
    have hnew : (c.AddToCart item q).linesQuantity
        = wrapInt (held.Quantity + q)
          + ((m.entries.kerase item.SKU).map (fun kv => kv.2.Quantity)).sum := by
      rw [hl] at hitems
      simp [Cart.linesQuantity, Cart.lines, hitems, AList.insert_entries]
    rw [htot, hnew]
    rw [hold, hsum] at hmod
    unfold wrapInt
    omega

theorem CountInv_RemoveFromCart (c : Cart) (item : Item) (r : Int) (h : c.CountInv) :
    (c.RemoveFromCart item r).1.CountInv := by
  cases hm : c.Items with
  | none =>
    have hr : c.RemoveFromCart item r
        = (c, some ("item id " ++ item.SKU ++ " not found in the cart")) := by
      simp [Cart.RemoveFromCart, hm]
    rw [hr]; exact h
  | some m =>
    cases hl : m.lookup item.SKU with
    | none =>
      rw [RemoveFromCart_absent_line c m item r hm hl]; exact h
    | some held =>
      obtain ⟨hr, hmod⟩ := h
      have hold : c.linesQuantity = (m.entries.map (fun kv => kv.2.Quantity)).sum := by
        simp [Cart.linesQuantity, Cart.lines, hm]
      have hsum := quantity_sum_kerase item.SKU held m.entries m.nodupKeys hl
      rw [hold, hsum] at hmod
      by_cases hgt : held.Quantity > r
      · have he : c.RemoveFromCart item r =
            ({ c with
               Items := some (m.insert item.SKU
                 { held with Quantity := wrapInt (held.Quantity - r) })
               TotalItems := wrapInt (c.TotalItems - r)
               TotalPrice := c.TotalPrice - item.Price * Float64.ofInt r }, none) := by
          simp [Cart.RemoveFromCart, hm, hl, hgt]
        rw [he]
        unfold Cart.CountInv
        refine ⟨wrapInt_inRange _, ?_⟩
        simp only [Cart.linesQuantity, Cart.lines, AList.insert_entries, List.map_cons,
          List.sum_cons]
        unfold wrapInt
        omega
      · have he : c.RemoveFromCart item r =
            ({ c with
               Items := some (m.erase item.SKU)
               TotalItems := wrapInt (c.TotalItems - held.Quantity)
               TotalPrice := c.TotalPrice - item.Price * Float64.ofInt r }, none) := by
          simp [Cart.RemoveFromCart, hm, hl, hgt]
        rw [he]
        unfold Cart.CountInv
        refine ⟨wrapInt_inRange _, ?_⟩
        simp only [Cart.linesQuantity, Cart.lines, AList.erase]
        unfold wrapInt
        omega

theorem CountInv_runCartOps (ops : List CartOp) (c : Cart) (h : c.CountInv) :
    (runCartOps c ops).CountInv := by
  induction ops generalizing c with
  | nil => exact h
  | cons op rest ih =>
    have hstep : (CartOp.apply c op).CountInv := by
      cases op with
      | add item quantity => exact CountInv_AddToCart c item quantity h
      | remove item quantity => exact CountInv_RemoveFromCart c item quantity h
    exact ih (CartOp.apply c op) hstep

/-- C18. The item count of a cart: after any sequence of `Cart.AddToCart` and
`Cart.RemoveFromCart` calls with any quantities, from `NewCart` or from the
zero cart, `TotalItems` equals the sum of the quantities of the current lines,
the sum being taken in Go `int`; it is the exact sum whenever that sum is
representable. -/
theorem TotalItems_eq_sum_of_line_quantities (userID : String) (ops : List CartOp) :
    (runCartOps (NewCart userID) ops).TotalItems
      = wrapInt (runCartOps (NewCart userID) ops).linesQuantity ∧
    (InIntRange (runCartOps (NewCart userID) ops).linesQuantity →
      (runCartOps (NewCart userID) ops).TotalItems
        = (runCartOps (NewCart userID) ops).linesQuantity) ∧
    (runCartOps Cart.zero ops).TotalItems = wrapInt (runCartOps Cart.zero ops).linesQuantity ∧
    (InIntRange (runCartOps Cart.zero ops).linesQuantity →
      (runCartOps Cart.zero ops).TotalItems = (runCartOps Cart.zero ops).linesQuantity) := by
  have h1 := CountInv_TotalItems _ (CountInv_runCartOps ops (NewCart userID) (CountInv_NewCart userID))
  have h2 := CountInv_TotalItems _ (CountInv_runCartOps ops Cart.zero CountInv_zero)
  exact ⟨h1.1, h1.2, h2.1, h2.2⟩

/-- C18 after adding two `item-1` and removing five. -/
theorem TotalItems_eq_sum_of_line_quantities_witness :
    (runCartOps (NewCart "u") [CartOp.add item1 2, CartOp.remove item1 5]).TotalItems
      = (runCartOps (NewCart "u") [CartOp.add item1 2, CartOp.remove item1 5]).linesQuantity :=
  (TotalItems_eq_sum_of_line_quantities "u" [CartOp.add item1 2, CartOp.remove item1 5]).2.1
    (by decide)

/-! ## Stock and ledger -/

/-- C19, evaluated. User `u` puts two `item-2` in the cart and checks out, and
`createNewOrderID` fails: `ConfirmOrder` has already debited the stock when it
returns the error. `inventory["item-2"]` is 0, `u` has no order, the cart
still holds the two units, and the seeded quantity was 2. -/
theorem stock_debited_without_order_when_id_fails :
    NewDatastore.inventory "item-2" = 2 ∧
    (storeWithCart.Checkout "u" none).err = some "unable to create new order for user u" ∧
    storeAfterFailedId.inventory "item-2" = 0 ∧
    storeAfterFailedId.orders "u" = none ∧
    storeAfterFailedId.orderedQuantity ["u"] "item-2" = 0 ∧
    (storeAfterFailedId.cartLines "u").map (fun kv => (kv.1, kv.2.Quantity)) = [("item-2", 2)] ∧
    storeAfterFailedId.inventory "item-2" + storeAfterFailedId.orderedQuantity ["u"] "item-2"
      ≠ NewDatastore.inventory "item-2" := by
  decide

/-! ### Carts stay keyed by the SKU of their items -/

theorem KeysAgree_NewCart (userID : String) : (NewCart userID).KeysAgree := by
  intro kv hkv
  simp [NewCart, Cart.lines] at hkv

theorem KeysAgree_AddToCart (c : Cart) (item : Item) (q : Int) (h : c.KeysAgree) :
    (c.AddToCart item q).KeysAgree := by
  obtain ⟨m, hlines, _, hitems⟩ := AddToCart_items c item q
  intro kv hkv
  have hnew : (c.AddToCart item q).lines
      = (⟨item.SKU, (match m.lookup item.SKU with
          | some held => { held with Quantity := wrapInt (held.Quantity + q) }
          | none => { Item := item, Quantity := q })⟩ : Sigma fun _ : String => CartItem)
        :: m.entries.kerase item.SKU := by
    simp [Cart.lines, hitems, AList.insert_entries]
  rw [hnew, List.mem_cons] at hkv
  rcases hkv with hhead | htail
  · subst hhead
    cases hl : m.lookup item.SKU with
    | none => rfl
    | some held =>
      have hmem : (⟨item.SKU, held⟩ : Sigma fun _ : String => CartItem) ∈ m.entries :=
        AList.mem_lookup_iff.mp (Option.mem_def.mpr hl)
      rw [← hlines] at hmem
      exact h ⟨item.SKU, held⟩ hmem
  · have hsub := (List.kerase_sublist item.SKU m.entries).subset htail
    rw [← hlines] at hsub
    exact h kv hsub

theorem KeysAgree_RemoveFromCart (c : Cart) (item : Item) (r : Int) (h : c.KeysAgree) :
    (c.RemoveFromCart item r).1.KeysAgree := by
  cases hm : c.Items with
  | none =>
    have hr : c.RemoveFromCart item r
        = (c, some ("item id " ++ item.SKU ++ " not found in the cart")) := by
      simp [Cart.RemoveFromCart, hm]
    rw [hr]; exact h
  | some m =>
    have hlines : c.lines = m.entries := by simp [Cart.lines, hm]
    cases hl : m.lookup item.SKU with
    | none => rw [RemoveFromCart_absent_line c m item r hm hl]; exact h
    | some held =>
      have hmem : (⟨item.SKU, held⟩ : Sigma fun _ : String => CartItem) ∈ m.entries :=
        AList.mem_lookup_iff.mp (Option.mem_def.mpr hl)
      rw [← hlines] at hmem
      have hheld := h ⟨item.SKU, held⟩ hmem
      by_cases hgt : held.Quantity > r
      · have he : c.RemoveFromCart item r =
            ({ c with
               Items := some (m.insert item.SKU
                 { held with Quantity := wrapInt (held.Quantity - r) })
               TotalItems := wrapInt (c.TotalItems - r)
               TotalPrice := c.TotalPrice - item.Price * Float64.ofInt r }, none) := by
          simp [Cart.RemoveFromCart, hm, hl, hgt]
        rw [he]
        intro kv hkv
        simp only [Cart.lines, AList.insert_entries, List.mem_cons] at hkv
        rcases hkv with hhead | htail
        · subst hhead; exact hheld
        · have hsub := (List.kerase_sublist item.SKU m.entries).subset htail
          rw [← hlines] at hsub
          exact h kv hsub
      · have he : c.RemoveFromCart item r =
            ({ c with
               Items := some (m.erase item.SKU)
               TotalItems := wrapInt (c.TotalItems - held.Quantity)
               TotalPrice := c.TotalPrice - item.Price * Float64.ofInt r }, none) := by
          simp [Cart.RemoveFromCart, hm, hl, hgt]
        rw [he]
        intro kv hkv
        simp only [Cart.lines, AList.erase] at hkv
        have hsub := (List.kerase_sublist item.SKU m.entries).subset hkv
        rw [← hlines] at hsub
        exact h kv hsub

theorem KeysAgree_cart (ds : Datastore) (h : ds.KeysAgree) (userID : String) (c : Cart)
    (hc : ds.carts userID = some c) : c.KeysAgree := by
  intro kv hkv
  have := h userID kv
  simp only [Datastore.cartLines, hc] at this
  exact this hkv

/-- Writing a well-keyed cart into the datastore keeps all carts well keyed. -/
theorem KeysAgree_update (ds : Datastore) (h : ds.KeysAgree) (userID : String) (c : Cart)
    (hc : c.KeysAgree) (inv : String → Int) (orders : String → Option (List Order)) :
    Datastore.KeysAgree
      { ds with inventory := inv, orders := orders
                carts := Function.update ds.carts userID (some c) } := by
  intro u kv hkv
  by_cases hu : u = userID
  · subst hu
    simp only [Datastore.cartLines, Function.update_same] at hkv
    exact hc kv hkv
  · simp only [Datastore.cartLines, Function.update_noteq hu] at hkv
    have := h u kv
    simp only [Datastore.cartLines] at this
    exact this hkv

/-! ### What each datastore method writes -/

/-- `AddToCart` first makes sure the user has a cart, then either stops or
writes the cart with the item added. -/
theorem AddToCart_ds_cases (ds : Datastore) (userID itemID : String) (quantity : Int) :
    ∃ ds1 c0,
      ((ds1 = ds ∧ ds.carts userID = some c0) ∨
        (ds1 = { ds with carts := Function.update ds.carts userID (some (NewCart userID)) } ∧
          ds.carts userID = none ∧ c0 = NewCart userID)) ∧
      (((ds.AddToCart userID itemID quantity).ds = ds1 ∧
          (ds.AddToCart userID itemID quantity).err ≠ none) ∨
        ∃ item, ds.items itemID = some item ∧ ¬ ds.inventory item.SKU < quantity ∧
          (ds.AddToCart userID itemID quantity).err = none ∧
          (ds.AddToCart userID itemID quantity).val = c0.AddToCart item quantity ∧
          (ds.AddToCart userID itemID quantity).ds
            = { ds1 with
                carts := Function.update ds1.carts userID (some (c0.AddToCart item quantity)) })
    := by
  cases hc : ds.carts userID with
  | none =>
    refine ⟨{ ds with carts := Function.update ds.carts userID (some (NewCart userID)) },
      NewCart userID, Or.inr ⟨rfl, rfl, rfl⟩, ?_⟩
    cases hi : ds.items itemID with
    | none => left; simp [Datastore.AddToCart, hc, Datastore.GetItem, hi]
    | some item =>
      by_cases hs : ds.inventory item.SKU < quantity
      · left; simp [Datastore.AddToCart, hc, Datastore.GetItem, hi, hs]
      · right
        exact ⟨item, rfl, hs, by simp [Datastore.AddToCart, hc, Datastore.GetItem, hi, hs]⟩
  | some cart =>
    refine ⟨ds, cart, Or.inl ⟨rfl, rfl⟩, ?_⟩
    cases hi : ds.items itemID with
    | none => left; simp [Datastore.AddToCart, hc, Datastore.GetItem, hi]
    | some item =>
      by_cases hs : ds.inventory item.SKU < quantity
      · left; simp [Datastore.AddToCart, hc, Datastore.GetItem, hi, hs]
      · right
        exact ⟨item, rfl, hs, by simp [Datastore.AddToCart, hc, Datastore.GetItem, hi, hs]⟩

/-- `RemoveFromCart` either leaves the datastore alone or writes the cart that
`Cart.RemoveFromCart` left. -/
theorem RemoveFromCart_ds_cases (ds : Datastore) (userID itemID : String) (quantity : Int) :
    ((ds.RemoveFromCart userID itemID quantity).ds = ds ∧
      (ds.RemoveFromCart userID itemID quantity).err ≠ none) ∨
    ∃ cart item, ds.carts userID = some cart ∧ ds.items itemID = some item ∧
      (ds.RemoveFromCart userID itemID quantity).err = (cart.RemoveFromCart item quantity).2 ∧
      (ds.RemoveFromCart userID itemID quantity).ds
        = { ds with
            carts := Function.update ds.carts userID
              (some (cart.RemoveFromCart item quantity).1) } := by
  cases hc : ds.carts userID with
  | none => left; simp [Datastore.RemoveFromCart, hc]
  | some cart =>
    cases hi : ds.items itemID with
    | none => left; simp [Datastore.RemoveFromCart, hc, Datastore.GetItem, hi]
    | some item =>
      right
      refine ⟨cart, item, rfl, rfl, ?_⟩
      cases hr : cart.RemoveFromCart item quantity with
      | mk cart1 e =>
        cases e <;> simp [Datastore.RemoveFromCart, hc, Datastore.GetItem, hi, hr]

theorem GetCart_ds_cases (ds : Datastore) (userID : String) :
    (ds.GetCart userID).1 = ds ∨
    (ds.carts userID = none ∧
      (ds.GetCart userID).1
        = { ds with carts := Function.update ds.carts userID (some (NewCart userID)) }) := by
  cases hc : ds.carts userID with
  | none => right; simp [Datastore.GetCart, hc]
  | some cart => left; simp [Datastore.GetCart, hc]

theorem GetCartTotalPrice_ds_cases (ds : Datastore) (userID : String) :
    (ds.GetCartTotalPrice userID).1 = ds ∨
    (ds.carts userID = none ∧
      (ds.GetCartTotalPrice userID).1
        = { ds with carts := Function.update ds.carts userID (some (NewCart userID)) }) := by
  cases hc : ds.carts userID with
  | none => right; simp [Datastore.GetCartTotalPrice, hc]
  | some cart => left; simp [Datastore.GetCartTotalPrice, hc]

theorem GetOrderHistory_ds_cases (ds : Datastore) (userID : String) :
    (ds.GetOrderHistory userID).1 = ds ∨
    (ds.orders userID = none ∧
      (ds.GetOrderHistory userID).1
        = { ds with orders := Function.update ds.orders userID (some []) }) := by
  cases ho : ds.orders userID with
  | none => right; simp [Datastore.GetOrderHistory, ho]
  | some os => left; simp [Datastore.GetOrderHistory, ho]

theorem ConfirmPayment_ds_cases (ds : Datastore) (userID orderID c : String) :
    ((ds.ConfirmPayment userID orderID c).ds = ds ∧
      (ds.ConfirmPayment userID orderID c).err ≠ none) ∨
    ((ds.ConfirmPayment userID orderID c).err = none ∧
      (ds.ConfirmPayment userID orderID c).ds
        = { ds with
            orders := Function.update ds.orders userID
              (some (setPaymentConfirmation orderID c (ds.ordersOf userID))) }) := by
  cases hf : ds.findOrderByOrderID userID orderID with
  | none => left; simp [Datastore.ConfirmPayment, hf]
  | some o =>
    by_cases hp : o.PaymentConfirmation = ""
    · right; simp [Datastore.ConfirmPayment, hf, hp]
    · left; simp [Datastore.ConfirmPayment, hf, hp]

/-- The datastore `ConfirmPurchase` leaves is the one its opening block left,
or that one after a `ConfirmPayment`. -/
theorem ConfirmPurchase_ds_cases (ds : Datastore) (pg : PaymentProcessor)
    (userID orderID : String) (creditCardDetails : CreditCardDetails)
    (rawOrderId : Option String) :
    (ConfirmPurchase ds pg userID orderID creditCardDetails rawOrderId).ds
      = (ConfirmPurchase.resolveOrder ds userID orderID rawOrderId).ds ∨
    ∃ c, (ConfirmPurchase ds pg userID orderID creditCardDetails rawOrderId).ds
      = ((ConfirmPurchase.resolveOrder ds userID orderID rawOrderId).ds.ConfirmPayment userID
          (ConfirmPurchase.resolveOrder ds userID orderID rawOrderId).val c).ds := by
  unfold ConfirmPurchase
  simp only
  split
  · left; rfl
  · split
    · left; rfl
    · rename_i cid _
      right
      refine ⟨cid, ?_⟩
      split <;> rfl

/-! ### The ledger accounts for the stock -/

theorem sum_map_add_at (users : List String) (hnd : users.Nodup) (u : String) (hu : u ∈ users)
    (f g : String → Int) (d : Int) (hg : g u = f u + d) (hother : ∀ v, v ≠ u → g v = f v) :
    (users.map g).sum = (users.map f).sum + d := by
  induction users with
  | nil => simp at hu
  | cons a t ih =>
    rw [List.nodup_cons] at hnd
    simp only [List.map_cons, List.sum_cons]
    by_cases ha : a = u
    · subst ha
      have ht : t.map g = t.map f := by
        apply List.map_congr_left
        intro v hv
        exact hother v (fun hva => hnd.1 (hva ▸ hv))
      rw [ht, hg]
      ring
    · have hut : u ∈ t := by
        rcases List.mem_cons.mp hu with h | h
        · exact absurd h.symm ha
        · exact h
      rw [ih hnd.2 hut, hother a ha]
      ring

/-- Under well-keyed, unique-keyed lines, the quantity of a SKU in the item
entries made from the lines is the quantity of its line, or 0 without a line. -/
theorem snapshot_quantity (sku : String) (l : List (Sigma fun _ : String => CartItem))
    (hn : l.NodupKeys) (hk : ∀ kv ∈ l, kv.2.Item.SKU = kv.1) :
    (((l.map snapshotLine).filter (fun i => decide (i.Item.SKU = sku))).map
        (fun i => i.Quantity)).sum
      = match l.dlookup sku with
        | some v => v.Quantity
        | none => 0 := by
  induction l with
  | nil => simp
  | cons hd t ih =>
    obtain ⟨k1, v1⟩ := hd
    rw [List.nodupKeys_cons] at hn
    have hhd : v1.Item.SKU = k1 := hk ⟨k1, v1⟩ (List.mem_cons_self _ _)
    have ht : ∀ kv ∈ t, kv.2.Item.SKU = kv.1 := fun kv hkv => hk kv (List.mem_cons_of_mem _ hkv)
    have iht := ih hn.2 ht
    by_cases hs : sku = k1
    · subst hs
      have hnone : t.dlookup sku = none := List.dlookup_eq_none.mpr hn.1
      rw [hnone] at iht
      simp only [List.map_cons, snapshotLine, List.dlookup_cons_eq]
      rw [List.filter_cons]
      simp only [hhd, decide_True, if_true, List.map_cons, List.sum_cons]
      simp only [snapshotLine] at iht
      rw [iht]
      simp
    · have hne : sku ≠ (⟨k1, v1⟩ : Sigma fun _ : String => CartItem).1 := hs
      rw [List.dlookup_cons_ne t (⟨k1, v1⟩ : Sigma fun _ : String => CartItem) hne]
      have hne2 : ¬ v1.Item.SKU = sku := by
        rw [hhd]; exact fun h => hs h.symm
      simp only [List.map_cons, snapshotLine]
      rw [List.filter_cons]
      simp only [hne2, decide_False]
      simp only [snapshotLine] at iht
      simpa using iht

theorem pendingOrder_quantityOf (userID raw sku : String) (cart : Cart) (hk : cart.KeysAgree) :
    (pendingOrder userID cart raw).quantityOf sku
      = match cart.lines.dlookup sku with
        | some v => v.Quantity
        | none => 0 := by
  unfold Order.quantityOf pendingOrder
  exact snapshot_quantity sku cart.lines cart.lines_nodupKeys hk

theorem setPaymentConfirmation_quantityOf (orderID c sku : String) (orders : List Order) :
    ((setPaymentConfirmation orderID c orders).map (fun o => o.quantityOf sku))
      = orders.map (fun o => o.quantityOf sku) := by
  induction orders with
  | nil => rfl
  | cons a t ih =>
    by_cases ha : a.ID = orderID
    · simp [setPaymentConfirmation, ha, Order.quantityOf]
    · simp [setPaymentConfirmation, ha, ih]

theorem setPaymentConfirmation_eq_nil (orderID c : String) (orders : List Order)
    (h : orders = []) : setPaymentConfirmation orderID c orders = [] := by
  subst h; rfl

/-- A step that keeps the stock of `sku`, every user's ordered quantity and the
absence of orders keeps the ledger accounting for the stock. -/
theorem StockInv_of_frame (ds ds1 : Datastore) (users : List String) (sku : String)
    (seeded : Int) (h : ds.StockInv users sku seeded) (hk : ds1.KeysAgree)
    (hi : ds1.inventory sku = ds.inventory sku)
    (ho : ∀ u, ds1.userOrdered u sku = ds.userOrdered u sku)
    (hn : ∀ u, ds.ordersOf u = [] → ds1.ordersOf u = []) :
    ds1.StockInv users sku seeded := by
  obtain ⟨_, hnone, hmod⟩ := h
  refine ⟨hk, fun u hu => hn u (hnone u hu), ?_⟩
  have hq : ds1.orderedQuantity users sku = ds.orderedQuantity users sku := by
    unfold Datastore.orderedQuantity
    congr 1
    apply List.map_congr_left
    intro u _
    exact ho u
  rw [hi, hq]
  exact hmod

theorem StockInv_carts (ds : Datastore) (users : List String) (sku : String) (seeded : Int)
    (h : ds.StockInv users sku seeded) (userID : String) (c : Cart) (hc : c.KeysAgree) :
    Datastore.StockInv { ds with carts := Function.update ds.carts userID (some c) }
      users sku seeded :=
  StockInv_of_frame ds _ users sku seeded h
    (KeysAgree_update ds h.1 userID c hc ds.inventory ds.orders) rfl (fun _ => rfl)
    (fun _ hu => hu)

theorem StockInv_ConfirmPayment (ds : Datastore) (users : List String) (sku : String)
    (seeded : Int) (h : ds.StockInv users sku seeded) (userID orderID c : String) :
    (ds.ConfirmPayment userID orderID c).ds.StockInv users sku seeded := by
  rcases ConfirmPayment_ds_cases ds userID orderID c with ⟨he, _⟩ | ⟨_, he⟩
  · rw [he]; exact h
  · rw [he]
    refine StockInv_of_frame ds _ users sku seeded h ?_ rfl ?_ ?_
    · intro u kv hkv
      exact h.1 u kv hkv
    · intro u
      by_cases hu : u = userID
      · subst hu
        simp only [Datastore.userOrdered, Datastore.ordersOf, Function.update_same]
        rw [setPaymentConfirmation_quantityOf]
      · simp only [Datastore.userOrdered, Datastore.ordersOf, Function.update_noteq hu]
    · intro u hnil
      by_cases hu : u = userID
      · subst hu
        simp only [Datastore.ordersOf, Function.update_same]
        exact setPaymentConfirmation_eq_nil orderID c _ hnil
      · simp only [Datastore.ordersOf, Function.update_noteq hu]
        exact hnil

theorem StockInv_GetOrderHistory (ds : Datastore) (users : List String) (sku : String)
    (seeded : Int) (h : ds.StockInv users sku seeded) (userID : String) :
    (ds.GetOrderHistory userID).1.StockInv users sku seeded := by
  rcases GetOrderHistory_ds_cases ds userID with he | ⟨hnone, he⟩
  · rw [he]; exact h
  · rw [he]
    have hord : ∀ u, Datastore.ordersOf
        { ds with orders := Function.update ds.orders userID (some []) } u = ds.ordersOf u := by
      intro u
      by_cases hu : u = userID
      · subst hu
        simp [Datastore.ordersOf, hnone]
      · simp only [Datastore.ordersOf, Function.update_noteq hu]
    refine StockInv_of_frame ds _ users sku seeded h ?_ rfl ?_ ?_
    · intro u kv hkv
      exact h.1 u kv hkv
    · intro u
      simp only [Datastore.userOrdered, hord u]
    · intro u hnil
      rw [hord u]; exact hnil

theorem debit_then_order_arith (x q o seeded : Int)
    (h : (x + o - seeded) % 18446744073709551616 = 0) :
    (wrapInt (x - q) + (o + q) - seeded) % 18446744073709551616 = 0 := by
  unfold wrapInt
  omega

theorem StockInv_ConfirmOrder (ds : Datastore) (users : List String) (sku : String)
    (seeded : Int) (h : ds.StockInv users sku seeded) (hnd : users.Nodup) (userID : String)
    (hu : userID ∈ users) (rawOrderId : Option String) (hraw : rawOrderId ≠ none) :
    (ds.ConfirmOrder userID rawOrderId).ds.StockInv users sku seeded := by
  rcases ConfirmOrder_cases ds userID rawOrderId with
    ⟨_, he⟩ | ⟨_, _, _, he⟩ | ⟨_, _, _, _, _, he⟩ | ⟨_, _, _, _, hnone, _⟩ |
    ⟨cart, raw, hc, _, _, _, he⟩
  · rw [he]; exact h
  · rw [he]; exact h
  · rw [he]; exact h
  · exact absurd hnone hraw
  · rw [he]
    have hkc : cart.KeysAgree := KeysAgree_cart ds h.1 userID cart hc
    obtain ⟨hk, hnone, hmod⟩ := h
    have hord : ∀ u, u ≠ userID → Datastore.ordersOf
        { ds with
          inventory := debitInventory ds.inventory cart.lines
          orders := Function.update ds.orders userID
            (some (pendingOrder userID cart raw :: ds.ordersOf userID))
          carts := Function.update ds.carts userID (some (NewCart userID)) } u
          = ds.ordersOf u := by
      intro u hne
      simp only [Datastore.ordersOf, Function.update_noteq hne]
    refine ⟨KeysAgree_update ds hk userID (NewCart userID) (KeysAgree_NewCart userID) _ _, ?_, ?_⟩
    · intro u hnot
      have hne : u ≠ userID := fun hEq => hnot (hEq ▸ hu)
      rw [hord u hne]
      exact hnone u hnot
    · have hq : Datastore.orderedQuantity
          { ds with
            inventory := debitInventory ds.inventory cart.lines
            orders := Function.update ds.orders userID
              (some (pendingOrder userID cart raw :: ds.ordersOf userID))
            carts := Function.update ds.carts userID (some (NewCart userID)) } users sku
          = ds.orderedQuantity users sku + (pendingOrder userID cart raw).quantityOf sku := by
        unfold Datastore.orderedQuantity
        apply sum_map_add_at users hnd userID hu
        · simp only [Datastore.userOrdered, Datastore.ordersOf, Function.update_same,
            List.map_cons, List.sum_cons]
          ring
        · intro v hv
          simp only [Datastore.userOrdered, hord v hv]
      rw [hq, pendingOrder_quantityOf userID raw sku cart hkc]
      simp only
      rw [debitInventory_apply cart.lines cart.lines_nodupKeys ds.inventory sku]
      cases hl : cart.lines.dlookup sku with
      | none =>
        simp only
        rw [add_zero]
        exact hmod
      | some v =>
        simp only
        exact debit_then_order_arith _ _ _ _ hmod

/-- One service call in which order-id generation does not fail keeps the
ledger accounting for the stock. -/
theorem StockInv_apply (ds : Datastore) (users : List String) (sku : String) (seeded : Int)
    (h : ds.StockInv users sku seeded) (hnd : users.Nodup) (op : Op)
    (hu : op.userID ∈ users) (hid : op.idGenerated) :
    (op.apply ds).StockInv users sku seeded := by
  cases op with
  | addToCart userID itemID quantity =>
    obtain ⟨ds1, c0, hfirst, hsecond⟩ := AddToCart_ds_cases ds userID itemID quantity
    have h1 : ds1.StockInv users sku seeded ∧ c0.KeysAgree := by
      rcases hfirst with ⟨hd, hc⟩ | ⟨hd, _, hc⟩
      · rw [hd]; exact ⟨h, KeysAgree_cart ds h.1 userID c0 hc⟩
      · rw [hd, hc]
        exact ⟨StockInv_carts ds users sku seeded h userID _ (KeysAgree_NewCart userID),
          KeysAgree_NewCart userID⟩
    simp only [Op.apply]
    rcases hsecond with ⟨he, _⟩ | ⟨item, _, _, _, _, he⟩
    · rw [he]; exact h1.1
    · rw [he]
      exact StockInv_carts ds1 users sku seeded h1.1 userID _
        (KeysAgree_AddToCart c0 item quantity h1.2)
  | removeFromCart userID itemID quantity =>
    simp only [Op.apply]
    rcases RemoveFromCart_ds_cases ds userID itemID quantity with
      ⟨he, _⟩ | ⟨cart, item, hc, _, _, he⟩
    · rw [he]; exact h
    · rw [he]
      exact StockInv_carts ds users sku seeded h userID _
        (KeysAgree_RemoveFromCart cart item quantity (KeysAgree_cart ds h.1 userID cart hc))
  | getCart userID =>
    simp only [Op.apply]
    rcases GetCart_ds_cases ds userID with he | ⟨_, he⟩
    · rw [he]; exact h
    · rw [he]
      exact StockInv_carts ds users sku seeded h userID _ (KeysAgree_NewCart userID)
  | getCartTotalPrice userID =>
    simp only [Op.apply]
    rcases GetCartTotalPrice_ds_cases ds userID with he | ⟨_, he⟩
    · rw [he]; exact h
    · rw [he]
      exact StockInv_carts ds users sku seeded h userID _ (KeysAgree_NewCart userID)
  | checkout userID rawOrderId =>
    exact StockInv_ConfirmOrder ds users sku seeded h hnd userID hu rawOrderId hid
  | confirmPurchase pg userID orderID creditCardDetails rawOrderId =>
    simp only [Op.apply]
    have hres : (ConfirmPurchase.resolveOrder ds userID orderID rawOrderId).ds.StockInv
        users sku seeded := by
      rw [resolveOrder_ds]
      by_cases hempty : orderID = ""
      · simp only [hempty, if_true]
        exact StockInv_ConfirmOrder ds users sku seeded h hnd userID hu rawOrderId (hid hempty)
      · simp only [hempty, if_false]
        exact h
    rcases ConfirmPurchase_ds_cases ds pg userID orderID creditCardDetails rawOrderId with
      he | ⟨c, he⟩
    · rw [he]; exact hres
    · rw [he]
      exact StockInv_ConfirmPayment _ users sku seeded hres userID _ c
  | getOrderHistory userID =>
    exact StockInv_GetOrderHistory ds users sku seeded h userID

theorem StockInv_runOps (ops : List Op) (ds : Datastore) (users : List String) (sku : String)
    (seeded : Int) (h : ds.StockInv users sku seeded) (hnd : users.Nodup)
    (hu : ∀ op ∈ ops, op.userID ∈ users) (hid : ∀ op ∈ ops, op.idGenerated) :
    (runOps ds ops).StockInv users sku seeded := by
  induction ops generalizing ds with
  | nil => exact h
  | cons op rest ih =>
    have hstep := StockInv_apply ds users sku seeded h hnd op
      (hu op (List.mem_cons_self _ _)) (hid op (List.mem_cons_self _ _))
    exact ih (Op.apply ds op) hstep
      (fun o ho => hu o (List.mem_cons_of_mem _ ho))
      (fun o ho => hid o (List.mem_cons_of_mem _ ho))

theorem NewDatastore_inventory (sku : String) :
    NewDatastore.inventory sku
      = if sku = "item-3" then 2 else if sku = "item-2" then 2 else if sku = "item-1" then 2
        else 0 := by
  have h2 : wrapInt 2 = 2 := by decide
  simp only [NewDatastore, Datastore.seedItemData, Datastore.AddItem, Function.update_apply]
  by_cases h3 : sku = "item-3"
  · subst h3; simp [h2]
  · by_cases h2s : sku = "item-2"
    · subst h2s; simp [h2]
    · by_cases h1 : sku = "item-1"
      · subst h1; simp [h2]
      · simp [h3, h2s, h1]

theorem StockInv_NewDatastore (users : List String) (sku : String) :
    NewDatastore.StockInv users sku (NewDatastore.inventory sku) := by
  have hord : ∀ u, NewDatastore.ordersOf u = [] := fun _ => rfl
  refine ⟨fun u kv hkv => ?_, fun u _ => hord u, ?_⟩
  · have hl : NewDatastore.cartLines u = [] := rfl
    rw [hl] at hkv
    simp at hkv
  · have hq : NewDatastore.orderedQuantity users sku = 0 := by
      unfold Datastore.orderedQuantity
      induction users with
      | nil => rfl
      | cons a t ih =>
        have ha : NewDatastore.userOrdered a sku = 0 := by
          simp [Datastore.userOrdered, hord a]
        simp only [List.map_cons, List.sum_cons, ih, ha]
        rfl
    rw [hq]
    simp

/-- Stock conservation when order-id generation does not fail: after any
sequence of service calls from the seeded store, made for users in `users`,
nobody else has an order, and `inventory[sku]` plus the quantity of `sku` in all
orders is the seeded quantity, the sum being taken in Go `int`; it is the
exact sum whenever that is representable. -/
theorem stock_conserved_when_ids_generated (ops : List Op) (users : List String)
    (sku : String) (hnd : users.Nodup) (hu : ∀ op ∈ ops, op.userID ∈ users)
    (hid : ∀ op ∈ ops, op.idGenerated) :
    (∀ u, u ∉ users → (runOps NewDatastore ops).ordersOf u = []) ∧
    wrapInt ((runOps NewDatastore ops).inventory sku
        + (runOps NewDatastore ops).orderedQuantity users sku)
      = NewDatastore.inventory sku ∧
    (InIntRange ((runOps NewDatastore ops).inventory sku
        + (runOps NewDatastore ops).orderedQuantity users sku) →
      (runOps NewDatastore ops).inventory sku
        + (runOps NewDatastore ops).orderedQuantity users sku
        = NewDatastore.inventory sku) := by
  obtain ⟨_, hnone, hmod⟩ := StockInv_runOps ops NewDatastore users sku
    (NewDatastore.inventory sku) (StockInv_NewDatastore users sku) hnd hu hid
  have hseed : InIntRange (NewDatastore.inventory sku) := by
    rw [NewDatastore_inventory]
    unfold InIntRange
    split
    · decide
    · split
      · decide
      · split <;> decide
  have hw : wrapInt ((runOps NewDatastore ops).inventory sku
      + (runOps NewDatastore ops).orderedQuantity users sku) = NewDatastore.inventory sku := by
    have := wrapInt_congr (NewDatastore.inventory sku)
      ((runOps NewDatastore ops).inventory sku
        + (runOps NewDatastore ops).orderedQuantity users sku)
      (by omega) hseed
    exact this.symm
  refine ⟨hnone, hw, ?_⟩
  intro hin
  rw [← hw, wrapInt_of_inRange _ hin]

/-! ## The ledger only grows -/

theorem Order.Step_refl (o : Order) : o.Step o :=
  ⟨⟨rfl, rfl, rfl, rfl, rfl⟩, fun _ => rfl⟩

theorem Order.Step_trans (a b c : Order) (h1 : a.Step b) (h2 : b.Step c) : a.Step c := by
  obtain ⟨⟨i1, u1, t1, n1, p1⟩, k1⟩ := h1
  obtain ⟨⟨i2, u2, t2, n2, p2⟩, k2⟩ := h2
  refine ⟨⟨i2.trans i1, u2.trans u1, t2.trans t1, n2.trans n1, p2.trans p1⟩, ?_⟩
  intro ha
  have hb : b = a := k1 ha
  have hb2 : b.PaymentConfirmation ≠ "" := by rw [hb]; exact ha
  rw [k2 hb2, hb]

theorem forall₂_Step_refl (l : List Order) : List.Forall₂ Order.Step l l := by
  induction l with
  | nil => exact List.Forall₂.nil
  | cons a t ih => exact List.Forall₂.cons (Order.Step_refl a) ih

theorem LedgerExtends_refl (l : List Order) : LedgerExtends Order.Step l l :=
  ⟨[], l, rfl, forall₂_Step_refl l⟩

theorem LedgerExtends_of_eq (old new : List Order) (h : new = old) :
    LedgerExtends Order.Step old new := by
  rw [h]; exact LedgerExtends_refl old

/-- A list related to `newer ++ kept` splits accordingly. -/
theorem forall₂_split (R : Order → Order → Prop) (newer kept l : List Order)
    (h : List.Forall₂ R (newer ++ kept) l) :
    ∃ l1 l2, l = l1 ++ l2 ∧ List.Forall₂ R newer l1 ∧ List.Forall₂ R kept l2 := by
  induction newer generalizing l with
  | nil => exact ⟨[], l, rfl, List.Forall₂.nil, h⟩
  | cons a t ih =>
    cases h with
    | cons hab htl =>
      obtain ⟨l1, l2, hl, h1, h2⟩ := ih _ htl
      exact ⟨_ :: l1, l2, by rw [hl]; rfl, List.Forall₂.cons hab h1, h2⟩

theorem forall₂_Step_trans (l1 l2 l3 : List Order) (h1 : List.Forall₂ Order.Step l1 l2)
    (h2 : List.Forall₂ Order.Step l2 l3) : List.Forall₂ Order.Step l1 l3 := by
  induction h1 generalizing l3 with
  | nil => cases h2; exact List.Forall₂.nil
  | cons hab _ ih =>
    cases h2 with
    | cons hbc htl => exact List.Forall₂.cons (Order.Step_trans _ _ _ hab hbc) (ih _ htl)

theorem LedgerExtends_trans (l1 l2 l3 : List Order) (h1 : LedgerExtends Order.Step l1 l2)
    (h2 : LedgerExtends Order.Step l2 l3) : LedgerExtends Order.Step l1 l3 := by
  obtain ⟨n1, k1, e1, f1⟩ := h1
  obtain ⟨n2, k2, e2, f2⟩ := h2
  rw [e1] at f2
  obtain ⟨k2a, k2b, e3, _, f3⟩ := forall₂_split Order.Step n1 k1 k2 f2
  refine ⟨n2 ++ k2a, k2b, ?_, forall₂_Step_trans _ _ _ f1 f3⟩
  rw [e2, e3, List.append_assoc]

/-- The write of `ConfirmPayment` on a list whose first order with the id is pending. -/
theorem setPaymentConfirmation_step (orderID c : String) (orders : List Order) (o : Order)
    (hf : orders.find? (fun o => decide (o.ID = orderID)) = some o)
    (hp : o.PaymentConfirmation = "") :
    List.Forall₂ Order.Step orders (setPaymentConfirmation orderID c orders) := by
  induction orders with
  | nil => simp at hf
  | cons a t ih =>
    by_cases ha : a.ID = orderID
    · have hao : a = o := by simpa [List.find?_cons, ha] using hf
      subst hao
      simp only [setPaymentConfirmation, ha, if_true]
      refine List.Forall₂.cons ⟨⟨ha.symm, rfl, rfl, rfl, rfl⟩, ?_⟩ (forall₂_Step_refl t)
      intro hne
      exact absurd hp hne
    · have ht : t.find? (fun o => decide (o.ID = orderID)) = some o := by
        simpa [List.find?_cons, ha] using hf
      simp only [setPaymentConfirmation, ha, if_false]
      exact List.Forall₂.cons (Order.Step_refl a) (ih ht)

theorem AddItem_orders (ds : Datastore) (item : Item) (quantity : Int) :
    (ds.AddItem item quantity).orders = ds.orders := rfl

theorem RemoveItem_orders (ds : Datastore) (item : Item) (quantity : Int) :
    (ds.RemoveItem item quantity).1.orders = ds.orders := by
  unfold Datastore.RemoveItem
  split
  · rfl
  · split <;> rfl

theorem AddToCart_orders (ds : Datastore) (userID itemID : String) (quantity : Int) :
    (ds.AddToCart userID itemID quantity).ds.orders = ds.orders := by
  obtain ⟨ds1, c0, hfirst, hsecond⟩ := AddToCart_ds_cases ds userID itemID quantity
  have h1 : ds1.orders = ds.orders := by
    rcases hfirst with ⟨hd, _⟩ | ⟨hd, _, _⟩ <;> rw [hd]
  rcases hsecond with ⟨he, _⟩ | ⟨item, _, _, _, _, he⟩
  · rw [he, h1]
  · rw [he]; exact h1

theorem RemoveFromCart_orders (ds : Datastore) (userID itemID : String) (quantity : Int) :
    (ds.RemoveFromCart userID itemID quantity).ds.orders = ds.orders := by
  rcases RemoveFromCart_ds_cases ds userID itemID quantity with ⟨he, _⟩ | ⟨_, _, _, _, _, he⟩ <;>
    rw [he]

theorem GetCart_orders (ds : Datastore) (userID : String) :
    (ds.GetCart userID).1.orders = ds.orders := by
  rcases GetCart_ds_cases ds userID with he | ⟨_, he⟩ <;> rw [he]

theorem GetCartTotalPrice_orders (ds : Datastore) (userID : String) :
    (ds.GetCartTotalPrice userID).1.orders = ds.orders := by
  rcases GetCartTotalPrice_ds_cases ds userID with he | ⟨_, he⟩ <;> rw [he]

theorem GetOrderHistory_ordersOf (ds : Datastore) (userID u : String) :
    (ds.GetOrderHistory userID).1.ordersOf u = ds.ordersOf u := by
  rcases GetOrderHistory_ds_cases ds userID with he | ⟨hnone, he⟩
  · rw [he]
  · rw [he]
    by_cases hu : u = userID
    · subst hu
      simp [Datastore.ordersOf, hnone]
    · simp only [Datastore.ordersOf, Function.update_noteq hu]

theorem ordersOf_congr (ds ds1 : Datastore) (h : ds1.orders = ds.orders) (u : String) :
    ds1.ordersOf u = ds.ordersOf u := by
  simp only [Datastore.ordersOf, h]

theorem ConfirmOrder_ledger (ds : Datastore) (userID : String) (rawOrderId : Option String)
    (u : String) :
    LedgerExtends Order.Step (ds.ordersOf u) ((ds.ConfirmOrder userID rawOrderId).ds.ordersOf u)
    := by
  rcases ConfirmOrder_cases ds userID rawOrderId with
    ⟨_, he⟩ | ⟨_, _, _, he⟩ | ⟨_, _, _, _, _, he⟩ | ⟨_, _, _, _, _, he⟩ |
    ⟨cart, raw, _, _, _, _, he⟩
  · rw [he]; exact LedgerExtends_refl _
  · rw [he]; exact LedgerExtends_refl _
  · rw [he]; exact LedgerExtends_refl _
  · rw [he]; exact LedgerExtends_refl _
  · rw [he]
    by_cases hu : u = userID
    · subst hu
      refine ⟨[pendingOrder u cart raw], ds.ordersOf u, ?_, forall₂_Step_refl _⟩
      simp [Datastore.ordersOf]
    · apply LedgerExtends_of_eq
      simp only [Datastore.ordersOf, Function.update_noteq hu]

theorem ConfirmPayment_ledger (ds : Datastore) (userID orderID c : String) (u : String) :
    LedgerExtends Order.Step (ds.ordersOf u) ((ds.ConfirmPayment userID orderID c).ds.ordersOf u)
    := by
  cases herr : (ds.ConfirmPayment userID orderID c).err with
  | some e =>
    rcases ConfirmPayment_ds_cases ds userID orderID c with ⟨he, _⟩ | ⟨hnone, _⟩
    · rw [he]; exact LedgerExtends_refl _
    · rw [herr] at hnone; simp at hnone
  | none =>
    obtain ⟨orders, o, ho, hf, hp, he⟩ := ConfirmPayment_success ds userID orderID c herr
    rw [he]
    by_cases hu : u = userID
    · subst hu
      refine ⟨[], setPaymentConfirmation orderID c orders, ?_, ?_⟩
      · simp [Datastore.ordersOf]
      · have hold : ds.ordersOf u = orders := by simp [Datastore.ordersOf, ho]
        rw [hold]
        exact setPaymentConfirmation_step orderID c orders o hf hp
    · apply LedgerExtends_of_eq
      simp only [Datastore.ordersOf, Function.update_noteq hu]

/-- One method call leaves every user's ledger as it was, order by order up to
the confirmation of a pending order, with at most a new order in front. -/
theorem StoreOp_ledger (ds : Datastore) (op : StoreOp) (u : String) :
    LedgerExtends Order.Step (ds.ordersOf u) ((op.apply ds).ordersOf u) := by
  cases op with
  | addItem item quantity =>
    exact LedgerExtends_of_eq _ _ (ordersOf_congr ds _ (AddItem_orders ds item quantity) u)
  | removeItem item quantity =>
    exact LedgerExtends_of_eq _ _ (ordersOf_congr ds _ (RemoveItem_orders ds item quantity) u)
  | listItems => exact LedgerExtends_refl _
  | getItem id => exact LedgerExtends_refl _
  | addToCart userID itemID quantity =>
    exact LedgerExtends_of_eq _ _
      (ordersOf_congr ds _ (AddToCart_orders ds userID itemID quantity) u)
  | removeFromCart userID itemID quantity =>
    exact LedgerExtends_of_eq _ _
      (ordersOf_congr ds _ (RemoveFromCart_orders ds userID itemID quantity) u)
  | getCart userID =>
    exact LedgerExtends_of_eq _ _ (ordersOf_congr ds _ (GetCart_orders ds userID) u)
  | getCartTotalPrice userID =>
    exact LedgerExtends_of_eq _ _ (ordersOf_congr ds _ (GetCartTotalPrice_orders ds userID) u)
  | getOrderHistory userID =>
    exact LedgerExtends_of_eq _ _ (GetOrderHistory_ordersOf ds userID u)
  | checkout userID rawOrderId => exact ConfirmOrder_ledger ds userID rawOrderId u
  | confirmOrder userID rawOrderId => exact ConfirmOrder_ledger ds userID rawOrderId u
  | confirmPayment userID orderID c => exact ConfirmPayment_ledger ds userID orderID c u
  | findOrder userID orderID => exact LedgerExtends_refl _

theorem runStoreOps_ledger (ops : List StoreOp) (ds : Datastore) (u : String) :
    LedgerExtends Order.Step (ds.ordersOf u) ((runStoreOps ds ops).ordersOf u) := by
  induction ops generalizing ds with
  | nil => exact LedgerExtends_refl _
  | cons op rest ih =>
    exact LedgerExtends_trans _ _ _ (StoreOp_ledger ds op u) (ih (StoreOp.apply ds op))

/-- C21. Order immutability: after any sequence of `Datastore` method calls
(`AddItem`, also of a known SKU at another price, `RemoveItem`, `AddToCart`,
`RemoveFromCart`, `Checkout` by any user, `ConfirmPayment`, and the others),
every user's order list is the list from before, each order with its `ID`,
`UserID`, `Items`, `TotalItems` and `TotalPrice` unchanged, with the orders
placed since in front of it. -/
theorem orders_keep_their_content (ds : Datastore) (ops : List StoreOp) (userID : String) :
    ∃ newer kept, (runStoreOps ds ops).ordersOf userID = newer ++ kept ∧
      List.Forall₂ Order.SameContent (ds.ordersOf userID) kept := by
  obtain ⟨newer, kept, he, hf⟩ := runStoreOps_ledger ops ds userID
  exact ⟨newer, kept, he, hf.imp (fun _ _ h => h.1)⟩

/-- C22. Confirmation is one-way and orders are never deleted: after any
sequence of `Datastore` method calls every user's order list is the list from
before, order by order, with the orders placed since in front of it; an order
that carried a confirmation is there unchanged, so with the same
`PaymentConfirmation`, and the list is not shorter. -/
theorem confirmed_orders_are_kept (ds : Datastore) (ops : List StoreOp) (userID : String) :
    (∃ newer kept, (runStoreOps ds ops).ordersOf userID = newer ++ kept ∧
      List.Forall₂ Order.KeptIfConfirmed (ds.ordersOf userID) kept) ∧
    (∀ o ∈ ds.ordersOf userID, o.PaymentConfirmation ≠ "" →
      o ∈ (runStoreOps ds ops).ordersOf userID) ∧
    (ds.ordersOf userID).length ≤ ((runStoreOps ds ops).ordersOf userID).length := by
  obtain ⟨newer, kept, he, hf⟩ := runStoreOps_ledger ops ds userID
  have hk : List.Forall₂ Order.KeptIfConfirmed (ds.ordersOf userID) kept :=
    hf.imp (fun _ _ h => h.2)
  refine ⟨⟨newer, kept, he, hk⟩, ?_, ?_⟩
  · intro o ho hp
    have hmem : ∀ (l1 l2 : List Order), List.Forall₂ Order.KeptIfConfirmed l1 l2 →
        o ∈ l1 → o ∈ l2 := by
      intro l1 l2 h12
      induction h12 with
      | nil => intro h; exact h
      | cons hab _ ih =>
        intro h
        rcases List.mem_cons.mp h with heq | htl
        · subst heq
          rw [hab hp]
          exact List.mem_cons_self _ _
        · exact List.mem_cons_of_mem _ (ih htl)
    rw [he]
    exact List.mem_append_right _ (hmem _ _ hk ho)
  · rw [he, List.length_append, hf.length_eq]
    omega

/-- C21 and the re-pricing scenario: `item-2` is added again at price 999,
stock is removed, carts change, another user checks out and the order is
confirmed; the order list of `u` still consists of one order with the content
of `order-r`. -/
theorem orders_keep_their_content_witness :
    ∃ newer kept,
      (runStoreOps storeWithOrder
        [StoreOp.addItem { SKU := "item-2", Name := "Item 2", Price := 999 } 5,
          StoreOp.removeItem item1 1, StoreOp.addToCart "v" "item-2" 1,
          StoreOp.removeFromCart "v" "item-2" 1, StoreOp.addToCart "v" "item-3" 1,
          StoreOp.checkout "v" (some "s"),
          StoreOp.confirmPayment "u" "order-r" "paid"]).ordersOf "u" = newer ++ kept ∧
      List.Forall₂ Order.SameContent (storeWithOrder.ordersOf "u") kept :=
  orders_keep_their_content storeWithOrder
    [StoreOp.addItem { SKU := "item-2", Name := "Item 2", Price := 999 } 5,
      StoreOp.removeItem item1 1, StoreOp.addToCart "v" "item-2" 1,
      StoreOp.removeFromCart "v" "item-2" 1, StoreOp.addToCart "v" "item-3" 1,
      StoreOp.checkout "v" (some "s"),
      StoreOp.confirmPayment "u" "order-r" "paid"] "u"

/-- C22 at the store whose order `order-r` is confirmed: a second confirmation
and a new checkout of the same user leave it in the list. -/
theorem confirmed_orders_are_kept_witness :
    { orderR with PaymentConfirmation := "order-r" }
      ∈ (runStoreOps storeWithConfirmedOrder
          [StoreOp.confirmPayment "u" "order-r" "again", StoreOp.addToCart "u" "item-1" 1,
            StoreOp.checkout "u" (some "t")]).ordersOf "u" :=
  (confirmed_orders_are_kept storeWithConfirmedOrder
    [StoreOp.confirmPayment "u" "order-r" "again", StoreOp.addToCart "u" "item-1" 1,
      StoreOp.checkout "u" (some "t")] "u").2.1
    { orderR with PaymentConfirmation := "order-r" } (by with_unfolding_all decide) (by decide)

/-! ## Newest first, and lookup by user -/

/-- C23. Newest first: when `Datastore.Checkout` succeeds for a user, that
user's order list afterwards is the returned order followed by the previous
list, and every other user's order list is unchanged. -/
theorem Checkout_prepends_order (ds : Datastore) (userID : String)
    (rawOrderId : Option String) (h : (ds.Checkout userID rawOrderId).err = none) :
    (ds.Checkout userID rawOrderId).ds.ordersOf userID
      = (ds.Checkout userID rawOrderId).val :: ds.ordersOf userID ∧
    (∀ u, u ≠ userID → (ds.Checkout userID rawOrderId).ds.orders u = ds.orders u) := by
  unfold Datastore.Checkout at h ⊢
  obtain ⟨cart, raw, _, _, _, _, he⟩ := ConfirmOrder_success ds userID rawOrderId h
  rw [he]
  refine ⟨by simp [Datastore.ordersOf], ?_⟩
  intro u hu
  exact Function.update_noteq hu _ _

/-- C23 at the store of `u` with an order, when `u` checks out again. -/
theorem Checkout_prepends_order_witness :
    ((runStoreOps storeWithOrder [StoreOp.addToCart "u" "item-1" 1]).Checkout "u"
        (some "t")).ds.ordersOf "u"
      = ((runStoreOps storeWithOrder [StoreOp.addToCart "u" "item-1" 1]).Checkout "u"
          (some "t")).val
        :: (runStoreOps storeWithOrder [StoreOp.addToCart "u" "item-1" 1]).ordersOf "u" ∧
    (∀ u, u ≠ "u" →
      ((runStoreOps storeWithOrder [StoreOp.addToCart "u" "item-1" 1]).Checkout "u"
        (some "t")).ds.orders u
        = (runStoreOps storeWithOrder [StoreOp.addToCart "u" "item-1" 1]).orders u) :=
  Checkout_prepends_order (runStoreOps storeWithOrder [StoreOp.addToCart "u" "item-1" 1]) "u"
    (some "t") (by decide)

/-- C24. `FindOrder` is scoped to the user: it succeeds exactly when the user's
own list has an order with that id, and then returns the first such order of
that list; otherwise it returns the not-found error with the zero order,
whatever other users' lists hold. It only reads the datastore. -/
theorem FindOrder_scoped_to_user (ds : Datastore) (userID orderID : String) :
    ((ds.FindOrder userID orderID).2 = none ↔ ∃ o ∈ ds.ordersOf userID, o.ID = orderID) ∧
    (∀ pre o post, ds.ordersOf userID = pre ++ o :: post →
      (∀ x ∈ pre, x.ID ≠ orderID) → o.ID = orderID →
      ds.FindOrder userID orderID = (o, none)) ∧
    ((∀ o ∈ ds.ordersOf userID, o.ID ≠ orderID) →
      ds.FindOrder userID orderID = (Order.zero, some "order not found in the datastore")) ∧
    (∀ other, other ≠ userID → (∃ o ∈ ds.ordersOf other, o.ID = orderID) →
      (∀ o ∈ ds.ordersOf userID, o.ID ≠ orderID) →
      (ds.FindOrder userID orderID).2 = some "order not found in the datastore") ∧
    StoreOp.apply ds (StoreOp.findOrder userID orderID) = ds := by
  have hnone : (∀ o ∈ ds.ordersOf userID, o.ID ≠ orderID) →
      ds.FindOrder userID orderID = (Order.zero, some "order not found in the datastore") := by
    intro h
    simp [Datastore.FindOrder, findOrderByOrderID_none ds userID orderID h]
  refine ⟨?_, ?_, hnone, ?_, rfl⟩
  · constructor
    · intro h
      by_contra hno
      have hall : ∀ o ∈ ds.ordersOf userID, o.ID ≠ orderID := by
        intro o ho hid
        exact hno ⟨o, ho, hid⟩
      rw [hnone hall] at h
      simp at h
    · rintro ⟨o, ho, hid⟩
      cases hf : ds.findOrderByOrderID userID orderID with
      | some found => simp [Datastore.FindOrder, hf]
      | none =>
        exfalso
        unfold Datastore.findOrderByOrderID at hf
        unfold Datastore.ordersOf at ho
        cases hos : ds.orders userID with
        | none => rw [hos] at ho; simp at ho
        | some os =>
          rw [hos] at ho hf
          simp only at ho hf
          have := List.find?_eq_none.mp hf o ho
          simp [hid] at this
  · intro pre o post hsplit hpre ho
    simp [Datastore.FindOrder, findOrderByOrderID_split ds userID orderID pre post o hsplit hpre ho]
  · intro other _ _ h
    rw [hnone h]

/-- C24 at the store where only `u` has `order-r`: another user does not find it. -/
theorem FindOrder_scoped_to_user_witness :
    (storeWithOrder.FindOrder "v" "order-r").2 = some "order not found in the datastore" :=
  (FindOrder_scoped_to_user storeWithOrder "v" "order-r").2.2.2.1 "u" (by decide)
    ⟨orderR, by with_unfolding_all decide, rfl⟩ (by decide)

/-! ## `AddToCart` and `RemoveItem` -/

theorem cartLines_after_new_cart (ds : Datastore) (userID : String)
    (hc : ds.carts userID = none) :
    Datastore.cartLines
      { ds with carts := Function.update ds.carts userID (some (NewCart userID)) } userID
      = ds.cartLines userID := by
  simp [Datastore.cartLines, hc, NewCart, Cart.lines]

/-- C25. `Datastore.AddToCart` rejects what cannot be supplied. When the id is
not in the catalogue it fails with not-found; when the catalogue item's stock is
below the requested quantity it fails with insufficient-stock naming the item's
SKU. In both cases inventory, items and order lists are unchanged and the carts
are unchanged, except that a user without a cart now has an empty one; the
lines of the user's cart are as before. Otherwise it succeeds, and the cart it
returns and stores is the user's cart (or a new one) after `Cart.AddToCart`;
inventory, order lists and other users' carts are unchanged. -/
theorem AddToCart_contract (ds : Datastore) (userID itemID : String) (quantity : Int) :
    (ds.items itemID = none →
      (ds.AddToCart userID itemID quantity).err = some "item not found in the datastore") ∧
    (∀ item, ds.items itemID = some item → ds.inventory item.SKU < quantity →
      (ds.AddToCart userID itemID quantity).err
        = some ("insufficient stock for item " ++ item.SKU)) ∧
    ((ds.AddToCart userID itemID quantity).err ≠ none →
      (ds.AddToCart userID itemID quantity).ds.inventory = ds.inventory ∧
      (ds.AddToCart userID itemID quantity).ds.items = ds.items ∧
      (ds.AddToCart userID itemID quantity).ds.orders = ds.orders ∧
      ((ds.AddToCart userID itemID quantity).ds.carts = ds.carts ∨
        (ds.carts userID = none ∧
          (ds.AddToCart userID itemID quantity).ds.carts
            = Function.update ds.carts userID (some (NewCart userID)))) ∧
      (ds.AddToCart userID itemID quantity).ds.cartLines userID = ds.cartLines userID) ∧
    (∀ item, ds.items itemID = some item → ¬ ds.inventory item.SKU < quantity →
      (ds.AddToCart userID itemID quantity).err = none ∧
      (ds.AddToCart userID itemID quantity).val
        = (match ds.carts userID with
            | some cart => cart
            | none => NewCart userID).AddToCart item quantity ∧
      (ds.AddToCart userID itemID quantity).ds.carts userID
        = some (ds.AddToCart userID itemID quantity).val ∧
      (∀ u, u ≠ userID → (ds.AddToCart userID itemID quantity).ds.carts u = ds.carts u) ∧
      (ds.AddToCart userID itemID quantity).ds.inventory = ds.inventory ∧
      (ds.AddToCart userID itemID quantity).ds.items = ds.items ∧
      (ds.AddToCart userID itemID quantity).ds.orders = ds.orders) := by
  obtain ⟨ds1, c0, hfirst, hsecond⟩ := AddToCart_ds_cases ds userID itemID quantity
  have hc0 : c0 = (match ds.carts userID with
      | some cart => cart
      | none => NewCart userID) := by
    rcases hfirst with ⟨_, hc⟩ | ⟨_, hc, hn⟩
    · rw [hc]
    · rw [hc, hn]
  have hds1 : ds1.inventory = ds.inventory ∧ ds1.items = ds.items ∧ ds1.orders = ds.orders ∧
      (ds1.carts = ds.carts ∨
        (ds.carts userID = none ∧
          ds1.carts = Function.update ds.carts userID (some (NewCart userID)))) ∧
      ds1.cartLines userID = ds.cartLines userID ∧
      (∀ u, u ≠ userID → ds1.carts u = ds.carts u) := by
    rcases hfirst with ⟨hd, _⟩ | ⟨hd, hc, _⟩
    · rw [hd]; exact ⟨rfl, rfl, rfl, Or.inl rfl, rfl, fun _ _ => rfl⟩
    · rw [hd]
      exact ⟨rfl, rfl, rfl, Or.inr ⟨hc, rfl⟩, cartLines_after_new_cart ds userID hc,
        fun u hu => Function.update_noteq hu _ _⟩
  refine ⟨?_, ?_, ?_, ?_⟩
  · intro hi
    rcases hsecond with ⟨_, _⟩ | ⟨item, hitem, _⟩
    · cases hcart : ds.carts userID <;> simp [Datastore.AddToCart, hcart, Datastore.GetItem, hi]
    · rw [hi] at hitem; simp at hitem
  · intro item hi hlt
    cases hcart : ds.carts userID <;>
      simp [Datastore.AddToCart, hcart, Datastore.GetItem, hi, hlt]
  · intro herr
    rcases hsecond with ⟨he, _⟩ | ⟨_, _, _, hnone, _⟩
    · rw [he]
      exact ⟨hds1.1, hds1.2.1, hds1.2.2.1, hds1.2.2.2.1, hds1.2.2.2.2.1⟩
    · exact absurd hnone herr
  · intro item hi hge
    rcases hsecond with ⟨_, herr⟩ | ⟨item2, hitem2, _, hnone, hval, he⟩
    · exfalso
      apply herr
      cases hcart : ds.carts userID <;>
        simp [Datastore.AddToCart, hcart, Datastore.GetItem, hi, hge]
    · have hsame : item2 = item := by
        rw [hi] at hitem2
        exact (Option.some.inj hitem2).symm
      subst hsame
      refine ⟨hnone, by rw [hval, hc0], ?_, ?_, ?_, ?_, ?_⟩
      · rw [he, hval]; simp
      · intro u hu
        rw [he]
        simp only [Function.update_noteq hu]
        exact hds1.2.2.2.2.2 u hu
      · rw [he]; exact hds1.1
      · rw [he]; exact hds1.2.1
      · rw [he]; exact hds1.2.2.1

/-- C25 at the seeded store: three `item-1` are more than the two in stock. -/
theorem AddToCart_contract_witness :
    (NewDatastore.AddToCart "u" "item-1" 3).err
      = some ("insufficient stock for item " ++ item1.SKU) :=
  (AddToCart_contract NewDatastore "u" "item-1" 3).2.1 item1 (by with_unfolding_all decide)
    (by decide)

/-- C26. The contract of `Datastore.RemoveItem(item, q)`: not-found when
`item.SKU` is not in the catalogue, insufficient-stock when `q` exceeds
`inventory[item.SKU]`, both leaving the datastore unchanged; otherwise
`inventory[item.SKU]` decreases by `q` (in Go `int`; exactly, when `q` is not
negative), no other SKU's stock changes, and items, orders and carts are
unchanged. -/
theorem RemoveItem_contract (ds : Datastore) (item : Item) (q : Int) :
    (ds.items item.SKU = none →
      (ds.RemoveItem item q).2 = some "item not found in the datastore" ∧
      (ds.RemoveItem item q).1 = ds) ∧
    (ds.items item.SKU ≠ none → ds.inventory item.SKU < q →
      (ds.RemoveItem item q).2 = some "insufficient stock" ∧ (ds.RemoveItem item q).1 = ds) ∧
    (ds.items item.SKU ≠ none → ¬ ds.inventory item.SKU < q →
      (ds.RemoveItem item q).2 = none ∧
      (ds.RemoveItem item q).1.inventory item.SKU = wrapInt (ds.inventory item.SKU - q) ∧
      (0 ≤ q → InIntRange (ds.inventory item.SKU) →
        (ds.RemoveItem item q).1.inventory item.SKU = ds.inventory item.SKU - q) ∧
      (∀ sku, sku ≠ item.SKU → (ds.RemoveItem item q).1.inventory sku = ds.inventory sku) ∧
      (ds.RemoveItem item q).1.items = ds.items ∧
      (ds.RemoveItem item q).1.orders = ds.orders ∧
      (ds.RemoveItem item q).1.carts = ds.carts) := by
  refine ⟨?_, ?_, ?_⟩
  · intro hi
    simp [Datastore.RemoveItem, hi]
  · intro hi hlt
    cases hs : ds.items item.SKU with
    | none => exact absurd hs hi
    | some found => simp [Datastore.RemoveItem, hs, hlt]
  · intro hi hge
    cases hs : ds.items item.SKU with
    | none => exact absurd hs hi
    | some found =>
      have hr : ds.RemoveItem item q =
          ({ ds with inventory :=
              Function.update ds.inventory item.SKU (wrapInt (ds.inventory item.SKU - q)) },
            none) := by
        simp [Datastore.RemoveItem, hs, hge]
      rw [hr]
      refine ⟨rfl, by simp, ?_, ?_, rfl, rfl, rfl⟩
      · intro hq hr2
        simp only [Function.update_same]
        apply wrapInt_of_inRange
        unfold InIntRange at hr2 ⊢
        omega
      · intro sku hne
        exact Function.update_noteq hne _ _

/-- C26 at the seeded store: removing one `item-1` leaves one. -/
theorem RemoveItem_contract_witness :
    (NewDatastore.RemoveItem item1 1).2 = none ∧
    (NewDatastore.RemoveItem item1 1).1.inventory item1.SKU
      = NewDatastore.inventory item1.SKU - 1 :=
  have h := (RemoveItem_contract NewDatastore item1 1).2.2 (by with_unfolding_all decide)
    (by decide)
  ⟨h.1, h.2.2.1 (by decide) (by decide)⟩

/-! ## Two checkouts, one after the other -/

theorem ConfirmOrder_carts_other (ds : Datastore) (userID : String)
    (rawOrderId : Option String) (u : String) (hu : u ≠ userID) :
    (ds.ConfirmOrder userID rawOrderId).ds.carts u = ds.carts u := by
  rcases ConfirmOrder_cases ds userID rawOrderId with
    ⟨_, he⟩ | ⟨_, _, _, he⟩ | ⟨_, _, _, _, _, he⟩ | ⟨_, _, _, _, _, he⟩ |
    ⟨_, _, _, _, _, _, he⟩
  · rw [he]
  · rw [he]
  · rw [he]
  · rw [he]
  · rw [he]; exact Function.update_noteq hu _ _

/-- `ConfirmOrder` fails and writes nothing when a line asks for more than the stock. -/
theorem ConfirmOrder_fails_of_short_stock (ds : Datastore) (userID : String)
    (rawOrderId : Option String)
    (h : ∃ kv ∈ ds.cartLines userID, ds.inventory kv.1 < kv.2.Quantity) :
    (ds.ConfirmOrder userID rawOrderId).err ≠ none ∧
    (ds.ConfirmOrder userID rawOrderId).ds = ds := by
  obtain ⟨kv0, hmem0, hlt0⟩ := h
  unfold Datastore.cartLines at hmem0
  rcases ConfirmOrder_cases ds userID rawOrderId with
    ⟨_, he⟩ | ⟨_, _, _, he⟩ | ⟨_, _, _, _, _, he⟩ | ⟨cart, hc, _, hall, _, _⟩ |
    ⟨cart, raw, hc, _, hall, _, _⟩
  · rw [he]; exact ⟨by simp, rfl⟩
  · rw [he]; exact ⟨by simp, rfl⟩
  · rw [he]; exact ⟨by simp, rfl⟩
  · rw [hc] at hmem0
    exact absurd hlt0 (not_lt.mpr (hall kv0 hmem0))
  · rw [hc] at hmem0
    exact absurd hlt0 (not_lt.mpr (hall kv0 hmem0))

/-- The stock of a SKU with a line in the cart after `ConfirmOrder`: untouched,
or debited by that line, which the stock covered. -/
theorem ConfirmOrder_inventory_at (ds : Datastore) (userID : String)
    (rawOrderId : Option String) (sku : String) (line : CartItem)
    (hmem : (⟨sku, line⟩ : Sigma fun _ : String => CartItem) ∈ ds.cartLines userID) :
    ((ds.ConfirmOrder userID rawOrderId).err ≠ none ∧
      (ds.ConfirmOrder userID rawOrderId).ds.inventory sku = ds.inventory sku) ∨
    (line.Quantity ≤ ds.inventory sku ∧
      (ds.ConfirmOrder userID rawOrderId).ds.inventory sku
        = wrapInt (ds.inventory sku - line.Quantity)) := by
  have hdebit : ∀ cart, ds.carts userID = some cart →
      (∀ kv ∈ cart.lines, kv.2.Quantity ≤ ds.inventory kv.1) →
      line.Quantity ≤ ds.inventory sku ∧
        debitInventory ds.inventory cart.lines sku = wrapInt (ds.inventory sku - line.Quantity)
      := by
    intro cart hc hall
    have hl : ds.cartLines userID = cart.lines := by simp [Datastore.cartLines, hc]
    rw [hl] at hmem
    have hnd := cart.lines_nodupKeys
    have hlook : cart.lines.dlookup sku = some line :=
      Option.mem_def.mp ((List.mem_dlookup_iff hnd).mpr hmem)
    refine ⟨hall ⟨sku, line⟩ hmem, ?_⟩
    rw [debitInventory_apply cart.lines hnd ds.inventory sku, hlook]
  rcases ConfirmOrder_cases ds userID rawOrderId with
    ⟨_, he⟩ | ⟨_, _, _, he⟩ | ⟨_, _, _, _, _, he⟩ | ⟨cart, hc, _, hall, _, he⟩ |
    ⟨cart, raw, hc, _, hall, _, he⟩
  · left; rw [he]; exact ⟨by simp, rfl⟩
  · left; rw [he]; exact ⟨by simp, rfl⟩
  · left; rw [he]; exact ⟨by simp, rfl⟩
  · right; rw [he]; exact hdebit cart hc hall
  · right; rw [he]; exact hdebit cart hc hall

/-- After `ConfirmOrder`, the stock of a SKU with a positive line in the cart is
still non-negative and representable, if it was. -/
theorem ConfirmOrder_inventory_nonneg_at (ds : Datastore) (userID : String)
    (rawOrderId : Option String) (sku : String) (line : CartItem)
    (hmem : (⟨sku, line⟩ : Sigma fun _ : String => CartItem) ∈ ds.cartLines userID)
    (hq : 0 < line.Quantity) (h0 : 0 ≤ ds.inventory sku) (hr : InIntRange (ds.inventory sku)) :
    0 ≤ (ds.ConfirmOrder userID rawOrderId).ds.inventory sku ∧
    InIntRange ((ds.ConfirmOrder userID rawOrderId).ds.inventory sku) := by
  rcases ConfirmOrder_inventory_at ds userID rawOrderId sku line hmem with
    ⟨_, he⟩ | ⟨hle, he⟩
  · rw [he]; exact ⟨h0, hr⟩
  · rw [he]
    have hw : wrapInt (ds.inventory sku - line.Quantity) = ds.inventory sku - line.Quantity := by
      apply wrapInt_of_inRange
      unfold InIntRange at hr ⊢
      omega
    rw [hw]
    unfold InIntRange at hr ⊢
    omega

/-- C27. No overselling across two checkouts run one after the other: two
distinct users hold `q1 > 0` and `q2 > 0` units of one SKU in their carts, the
stock of that SKU is a non-negative Go `int`, and `q1 + q2` exceeds it. Then of
`Checkout` for the first and `Checkout` for the second at most one succeeds,
and the stock of that SKU is non-negative after each. -/
theorem sequential_checkouts_do_not_oversell (ds : Datastore) (user1 user2 sku : String)
    (line1 line2 : CartItem) (raw1 raw2 : Option String) (hne : user1 ≠ user2)
    (h1 : (⟨sku, line1⟩ : Sigma fun _ : String => CartItem) ∈ ds.cartLines user1)
    (h2 : (⟨sku, line2⟩ : Sigma fun _ : String => CartItem) ∈ ds.cartLines user2)
    (hq1 : 0 < line1.Quantity) (hq2 : 0 < line2.Quantity)
    (hover : line1.Quantity + line2.Quantity > ds.inventory sku)
    (h0 : 0 ≤ ds.inventory sku) (hr : InIntRange (ds.inventory sku)) :
    ¬ ((ds.Checkout user1 raw1).err = none ∧
        ((ds.Checkout user1 raw1).ds.Checkout user2 raw2).err = none) ∧
    0 ≤ (ds.Checkout user1 raw1).ds.inventory sku ∧
    0 ≤ ((ds.Checkout user1 raw1).ds.Checkout user2 raw2).ds.inventory sku := by
  unfold Datastore.Checkout
  have hcart2 : (ds.ConfirmOrder user1 raw1).ds.cartLines user2 = ds.cartLines user2 := by
    simp only [Datastore.cartLines,
      ConfirmOrder_carts_other ds user1 raw1 user2 (fun h => hne h.symm)]
  have hmem2 : (⟨sku, line2⟩ : Sigma fun _ : String => CartItem)
      ∈ (ds.ConfirmOrder user1 raw1).ds.cartLines user2 := by
    rw [hcart2]; exact h2
  have hafter1 := ConfirmOrder_inventory_nonneg_at ds user1 raw1 sku line1 h1 hq1 h0 hr
  have hafter2 := ConfirmOrder_inventory_nonneg_at (ds.ConfirmOrder user1 raw1).ds user2 raw2
    sku line2 hmem2 hq2 hafter1.1 hafter1.2
  refine ⟨?_, hafter1.1, hafter2.1⟩
  rintro ⟨hs1, hs2⟩
  rcases ConfirmOrder_inventory_at ds user1 raw1 sku line1 h1 with ⟨herr, _⟩ | ⟨hle, he⟩
  · exact herr hs1
  · have hw : wrapInt (ds.inventory sku - line1.Quantity)
        = ds.inventory sku - line1.Quantity := by
      apply wrapInt_of_inRange
      unfold InIntRange at hr ⊢
      omega
    have hshort : (ds.ConfirmOrder user1 raw1).ds.inventory sku < line2.Quantity := by
      rw [he, hw]; omega
    have hfail := ConfirmOrder_fails_of_short_stock (ds.ConfirmOrder user1 raw1).ds user2 raw2
      ⟨⟨sku, line2⟩, hmem2, hshort⟩
    exact hfail.1 hs2

/-- C27 at the seeded store with two `item-1` in the carts of `a` and of `b`. -/
theorem sequential_checkouts_do_not_oversell_witness :
    ¬ (((runOps NewDatastore [Op.addToCart "a" "item-1" 2, Op.addToCart "b" "item-1" 2]).Checkout
          "a" (some "r1")).err = none ∧
        (((runOps NewDatastore [Op.addToCart "a" "item-1" 2, Op.addToCart "b" "item-1" 2]).Checkout
          "a" (some "r1")).ds.Checkout "b" (some "r2")).err = none) ∧
    0 ≤ ((runOps NewDatastore [Op.addToCart "a" "item-1" 2, Op.addToCart "b" "item-1" 2]).Checkout
          "a" (some "r1")).ds.inventory "item-1" ∧
    0 ≤ (((runOps NewDatastore [Op.addToCart "a" "item-1" 2, Op.addToCart "b" "item-1" 2]).Checkout
          "a" (some "r1")).ds.Checkout "b" (some "r2")).ds.inventory "item-1" :=
  sequential_checkouts_do_not_oversell
    (runOps NewDatastore [Op.addToCart "a" "item-1" 2, Op.addToCart "b" "item-1" 2])
    "a" "b" "item-1" { Item := item1, Quantity := 2 } { Item := item1, Quantity := 2 }
    (some "r1") (some "r2") (by decide) (by with_unfolding_all decide)
    (by with_unfolding_all decide) (by decide) (by decide) (by decide) (by decide) (by decide)

/-! ## Positive lines -/

/-- C28 as stated fails when an addition leaves the range of Go `int`: adding
9223372036854775807 and then 1 of one item, both positive, leaves a line of
quantity minus 9223372036854775808. -/
theorem line_quantity_wraps_negative :
    (∀ op ∈ [CartOp.add item1 9223372036854775807, CartOp.add item1 1],
      0 < op.quantity ∧ InIntRange op.quantity) ∧
    (runCartOps (NewCart "u")
        [CartOp.add item1 9223372036854775807, CartOp.add item1 1]).lines.map
      (fun kv => (kv.1, kv.2.Quantity)) = [("item-1", -9223372036854775808)] ∧
    ¬ (∀ kv ∈ (runCartOps (NewCart "u")
        [CartOp.add item1 9223372036854775807, CartOp.add item1 1]).lines,
      0 < kv.2.Quantity) := by
  decide

theorem LinesPositive_NewCart (userID : String) : (NewCart userID).LinesPositive := by
  intro kv hkv
  simp [NewCart, Cart.lines] at hkv

theorem LinesPositive_zero : Cart.zero.LinesPositive := by
  intro kv hkv
  simp [Cart.zero, Cart.lines] at hkv

theorem LinesPositive_AddToCart (c : Cart) (item : Item) (q : Int) (h : c.LinesPositive)
    (hq : 0 < q) (hqr : InIntRange q)
    (hsafe : match c.line item.SKU with
      | some held => InIntRange (held.Quantity + q)
      | none => True) :
    (c.AddToCart item q).LinesPositive := by
  obtain ⟨m, hlines, hline, hitems⟩ := AddToCart_items c item q
  intro kv hkv
  have hnew : (c.AddToCart item q).lines
      = (⟨item.SKU, (match m.lookup item.SKU with
          | some held => { held with Quantity := wrapInt (held.Quantity + q) }
          | none => { Item := item, Quantity := q })⟩ : Sigma fun _ : String => CartItem)
        :: m.entries.kerase item.SKU := by
    simp [Cart.lines, hitems, AList.insert_entries]
  rw [hnew, List.mem_cons] at hkv
  rcases hkv with hhead | htail
  · subst hhead
    rw [hline] at hsafe
    cases hl : m.lookup item.SKU with
    | none => exact ⟨hq, hqr⟩
    | some held =>
      rw [hl] at hsafe
      simp only at hsafe ⊢
      have hmem : (⟨item.SKU, held⟩ : Sigma fun _ : String => CartItem) ∈ m.entries :=
        AList.mem_lookup_iff.mp (Option.mem_def.mpr hl)
      rw [← hlines] at hmem
      have hpos := (h ⟨item.SKU, held⟩ hmem).1
      simp only at hpos
      rw [wrapInt_of_inRange _ hsafe]
      exact ⟨by omega, hsafe⟩
  · have hsub := (List.kerase_sublist item.SKU m.entries).subset htail
    rw [← hlines] at hsub
    exact h kv hsub

theorem LinesPositive_RemoveFromCart (c : Cart) (item : Item) (r : Int) (h : c.LinesPositive)
    (hr : 0 < r) : (c.RemoveFromCart item r).1.LinesPositive := by
  cases hm : c.Items with
  | none =>
    have he : c.RemoveFromCart item r
        = (c, some ("item id " ++ item.SKU ++ " not found in the cart")) := by
      simp [Cart.RemoveFromCart, hm]
    rw [he]; exact h
  | some m =>
    have hlines : c.lines = m.entries := by simp [Cart.lines, hm]
    cases hl : m.lookup item.SKU with
    | none => rw [RemoveFromCart_absent_line c m item r hm hl]; exact h
    | some held =>
      have hmem : (⟨item.SKU, held⟩ : Sigma fun _ : String => CartItem) ∈ m.entries :=
        AList.mem_lookup_iff.mp (Option.mem_def.mpr hl)
      rw [← hlines] at hmem
      have hheld := h ⟨item.SKU, held⟩ hmem
      simp only at hheld
      by_cases hgt : held.Quantity > r
      · have he : c.RemoveFromCart item r =
            ({ c with
               Items := some (m.insert item.SKU
                 { held with Quantity := wrapInt (held.Quantity - r) })
               TotalItems := wrapInt (c.TotalItems - r)
               TotalPrice := c.TotalPrice - item.Price * Float64.ofInt r }, none) := by
          simp [Cart.RemoveFromCart, hm, hl, hgt]
        rw [he]
        intro kv hkv
        simp only [Cart.lines, AList.insert_entries, List.mem_cons] at hkv
        rcases hkv with hhead | htail
        · subst hhead
          simp only
          have hin : InIntRange (held.Quantity - r) := by
            have h2 := hheld.2
            unfold InIntRange at h2 ⊢
            omega
          rw [wrapInt_of_inRange _ hin]
          exact ⟨by omega, hin⟩
        · have hsub := (List.kerase_sublist item.SKU m.entries).subset htail
          rw [← hlines] at hsub
          exact h kv hsub
      · have he : c.RemoveFromCart item r =
            ({ c with
               Items := some (m.erase item.SKU)
               TotalItems := wrapInt (c.TotalItems - held.Quantity)
               TotalPrice := c.TotalPrice - item.Price * Float64.ofInt r }, none) := by
          simp [Cart.RemoveFromCart, hm, hl, hgt]
        rw [he]
        intro kv hkv
        simp only [Cart.lines, AList.erase] at hkv
        have hsub := (List.kerase_sublist item.SKU m.entries).subset hkv
        rw [← hlines] at hsub
        exact h kv hsub

theorem LinesPositive_runCartOps (ops : List CartOp) (c : Cart) (h : c.LinesPositive)
    (hq : ∀ op ∈ ops, 0 < op.quantity ∧ InIntRange op.quantity)
    (hsafe : addsStayInRange c ops) : (runCartOps c ops).LinesPositive := by
  induction ops generalizing c with
  | nil => exact h
  | cons op rest ih =>
    have hop := hq op (List.mem_cons_self _ _)
    have hrest : ∀ o ∈ rest, 0 < o.quantity ∧ InIntRange o.quantity :=
      fun o ho => hq o (List.mem_cons_of_mem _ ho)
    cases op with
    | add item quantity =>
      simp only [addsStayInRange] at hsafe
      exact ih (c.AddToCart item quantity)
        (LinesPositive_AddToCart c item quantity h hop.1 hop.2 hsafe.1) hrest hsafe.2
    | remove item quantity =>
      simp only [addsStayInRange] at hsafe
      exact ih (c.RemoveFromCart item quantity).1
        (LinesPositive_RemoveFromCart c item quantity h hop.1) hrest hsafe

/-- C28, as amended. Cart lines stay positive: after any sequence of
`Cart.AddToCart` and `Cart.RemoveFromCart` calls from `NewCart` or from the
zero cart, whose quantity arguments are positive Go `int`s and in which no
`AddToCart` takes the quantity of an existing line beyond the largest Go
`int`, every line present in the cart has `Quantity > 0`. -/
theorem cart_lines_stay_positive (userID : String) (ops : List CartOp)
    (hq : ∀ op ∈ ops, 0 < op.quantity ∧ InIntRange op.quantity) :
    (addsStayInRange (NewCart userID) ops →
      ∀ kv ∈ (runCartOps (NewCart userID) ops).lines, 0 < kv.2.Quantity) ∧
    (addsStayInRange Cart.zero ops →
      ∀ kv ∈ (runCartOps Cart.zero ops).lines, 0 < kv.2.Quantity) := by
  constructor
  · intro hsafe kv hkv
    exact (LinesPositive_runCartOps ops (NewCart userID) (LinesPositive_NewCart userID) hq hsafe
      kv hkv).1
  · intro hsafe kv hkv
    exact (LinesPositive_runCartOps ops Cart.zero LinesPositive_zero hq hsafe kv hkv).1

/-- C28 as amended, after adding two and three `item-1` and removing one. -/
theorem cart_lines_stay_positive_witness :
    (∀ op ∈ [CartOp.add item1 2, CartOp.add item1 3, CartOp.remove item1 1],
      0 < op.quantity ∧ InIntRange op.quantity) ∧
    (∀ kv ∈ (runCartOps (NewCart "u")
        [CartOp.add item1 2, CartOp.add item1 3, CartOp.remove item1 1]).lines,
      0 < kv.2.Quantity) :=
  ⟨by decide,
    (cart_lines_stay_positive "u"
      [CartOp.add item1 2, CartOp.add item1 3, CartOp.remove item1 1] (by decide)).1 (by
        have hline : ((NewCart "u").AddToCart item1 2).line item1.SKU
            = some { Item := item1, Quantity := 2 } := by
          with_unfolding_all decide
        refine ⟨trivial, ?_, trivial⟩
        rw [hline]
        decide)⟩

/-! ## Totals and the add-time stock check -/

/-- C29, evaluated. Two `item-1` (price 100) are added to the empty cart and
five are removed, both quantities positive: `TotalItems` is 0 and `TotalPrice`
is minus 300. Through the datastore, after one `item-2` more the cart has
`TotalPrice` minus 100, and the order `Checkout` creates carries it. -/
theorem TotalPrice_negative_after_over_removal :
    (∀ op ∈ [CartOp.add item1 2, CartOp.remove item1 5], 0 < op.quantity) ∧
    0 ≤ item1.Price ∧
    (runCartOps (NewCart "u") [CartOp.add item1 2, CartOp.remove item1 5]).TotalItems = 0 ∧
    (runCartOps (NewCart "u") [CartOp.add item1 2, CartOp.remove item1 5]).TotalPrice = -300 ∧
    (runCartOps (NewCart "u") [CartOp.add item1 2, CartOp.remove item1 5]).TotalPrice < 0 ∧
    (storeAfterOverRemoval.Checkout "u" (some "r")).err = none ∧
    (storeAfterOverRemoval.Checkout "u" (some "r")).val.TotalPrice = -100 ∧
    (storeAfterOverRemoval.Checkout "u" (some "r")).val.TotalPrice < 0 := by
  with_unfolding_all decide

/-- C30, evaluated. With two `item-1` in stock, `AddToCart(u, item-1, 2)`
succeeds twice: each call compares the stock with the requested 2, not with
the 4 the line then holds. The line exceeds the stock and `Checkout` fails its
stock check. -/
theorem cart_line_exceeds_stock_after_two_adds :
    (NewDatastore.AddToCart "u" "item-1" 2).err = none ∧
    ((NewDatastore.AddToCart "u" "item-1" 2).ds.AddToCart "u" "item-1" 2).err = none ∧
    (storeAfterTwoAdds.cartLines "u").map (fun kv => (kv.1, kv.2.Quantity)) = [("item-1", 4)] ∧
    storeAfterTwoAdds.inventory "item-1" = 2 ∧
    (storeAfterTwoAdds.Checkout "u" (some "r")).err
      = some "insufficient stock for item item-1" := by
  decide

/-- The item count stays non-negative: after a sequence of cart calls with
positive Go `int` quantities in which no line quantity leaves the range, from
`NewCart`, `TotalItems` is not negative when the sum of the line quantities is
representable. -/
theorem TotalItems_nonneg_of_positive_lines (userID : String) (ops : List CartOp)
    (hq : ∀ op ∈ ops, 0 < op.quantity ∧ InIntRange op.quantity)
    (hsafe : addsStayInRange (NewCart userID) ops)
    (hsum : InIntRange (runCartOps (NewCart userID) ops).linesQuantity) :
    0 ≤ (runCartOps (NewCart userID) ops).TotalItems := by
  have hpos := LinesPositive_runCartOps ops (NewCart userID) (LinesPositive_NewCart userID) hq
    hsafe
  have hcount := CountInv_TotalItems _
    (CountInv_runCartOps ops (NewCart userID) (CountInv_NewCart userID))
  rw [hcount.2 hsum]
  unfold Cart.linesQuantity
  apply List.sum_nonneg
  intro x hx
  obtain ⟨kv, hkv, rfl⟩ := List.mem_map.mp hx
  exact le_of_lt (hpos kv hkv).1

/-! ## User isolation -/

theorem AddToCart_carts_other (ds : Datastore) (userID itemID : String) (quantity : Int)
    (u : String) (hu : u ≠ userID) :
    (ds.AddToCart userID itemID quantity).ds.carts u = ds.carts u := by
  obtain ⟨ds1, c0, hfirst, hsecond⟩ := AddToCart_ds_cases ds userID itemID quantity
  have h1 : ds1.carts u = ds.carts u := by
    rcases hfirst with ⟨hd, _⟩ | ⟨hd, _, _⟩
    · rw [hd]
    · rw [hd]; exact Function.update_noteq hu _ _
  rcases hsecond with ⟨he, _⟩ | ⟨item, _, _, _, _, he⟩
  · rw [he, h1]
  · rw [he]
    simp only [Function.update_noteq hu]
    exact h1

theorem RemoveFromCart_carts_other (ds : Datastore) (userID itemID : String) (quantity : Int)
    (u : String) (hu : u ≠ userID) :
    (ds.RemoveFromCart userID itemID quantity).ds.carts u = ds.carts u := by
  rcases RemoveFromCart_ds_cases ds userID itemID quantity with ⟨he, _⟩ | ⟨_, _, _, _, _, he⟩
  · rw [he]
  · rw [he]; exact Function.update_noteq hu _ _

theorem GetCart_carts_other (ds : Datastore) (userID u : String) (hu : u ≠ userID) :
    (ds.GetCart userID).1.carts u = ds.carts u := by
  rcases GetCart_ds_cases ds userID with he | ⟨_, he⟩
  · rw [he]
  · rw [he]; exact Function.update_noteq hu _ _

theorem GetCartTotalPrice_carts_other (ds : Datastore) (userID u : String) (hu : u ≠ userID) :
    (ds.GetCartTotalPrice userID).1.carts u = ds.carts u := by
  rcases GetCartTotalPrice_ds_cases ds userID with he | ⟨_, he⟩
  · rw [he]
  · rw [he]; exact Function.update_noteq hu _ _

theorem GetOrderHistory_carts (ds : Datastore) (userID : String) :
    (ds.GetOrderHistory userID).1.carts = ds.carts := by
  rcases GetOrderHistory_ds_cases ds userID with he | ⟨_, he⟩ <;> rw [he]

theorem GetOrderHistory_orders_other (ds : Datastore) (userID u : String) (hu : u ≠ userID) :
    (ds.GetOrderHistory userID).1.orders u = ds.orders u := by
  rcases GetOrderHistory_ds_cases ds userID with he | ⟨_, he⟩
  · rw [he]
  · rw [he]; exact Function.update_noteq hu _ _

theorem ConfirmOrder_orders_other (ds : Datastore) (userID : String)
    (rawOrderId : Option String) (u : String) (hu : u ≠ userID) :
    (ds.ConfirmOrder userID rawOrderId).ds.orders u = ds.orders u := by
  rcases ConfirmOrder_cases ds userID rawOrderId with
    ⟨_, he⟩ | ⟨_, _, _, he⟩ | ⟨_, _, _, _, _, he⟩ | ⟨_, _, _, _, _, he⟩ |
    ⟨_, _, _, _, _, _, he⟩
  · rw [he]
  · rw [he]
  · rw [he]
  · rw [he]
  · rw [he]; exact Function.update_noteq hu _ _

theorem ConfirmPayment_carts (ds : Datastore) (userID orderID c : String) :
    (ds.ConfirmPayment userID orderID c).ds.carts = ds.carts := by
  rcases ConfirmPayment_ds_cases ds userID orderID c with ⟨he, _⟩ | ⟨_, he⟩ <;> rw [he]

theorem ConfirmPayment_orders_other (ds : Datastore) (userID orderID c : String) (u : String)
    (hu : u ≠ userID) : (ds.ConfirmPayment userID orderID c).ds.orders u = ds.orders u := by
  rcases ConfirmPayment_ds_cases ds userID orderID c with ⟨he, _⟩ | ⟨_, he⟩
  · rw [he]
  · rw [he]; exact Function.update_noteq hu _ _

/-- A method call made for one user leaves the cart and the order list stored
for any other user as they are. -/
theorem StoreOp_other_user (ds : Datastore) (op : StoreOp) (a b : String)
    (ha : op.forUser = some a) (hab : a ≠ b) :
    (op.apply ds).carts b = ds.carts b ∧ (op.apply ds).orders b = ds.orders b := by
  have hba : b ≠ a := fun h => hab h.symm
  cases op with
  | addItem item quantity => simp [StoreOp.forUser] at ha
  | removeItem item quantity => simp [StoreOp.forUser] at ha
  | listItems => simp [StoreOp.forUser] at ha
  | getItem id => simp [StoreOp.forUser] at ha
  | addToCart userID itemID quantity =>
    have hu : userID = a := by simpa [StoreOp.forUser] using ha
    subst hu
    exact ⟨AddToCart_carts_other ds userID itemID quantity b hba,
      congrFun (AddToCart_orders ds userID itemID quantity) b⟩
  | removeFromCart userID itemID quantity =>
    have hu : userID = a := by simpa [StoreOp.forUser] using ha
    subst hu
    exact ⟨RemoveFromCart_carts_other ds userID itemID quantity b hba,
      congrFun (RemoveFromCart_orders ds userID itemID quantity) b⟩
  | getCart userID =>
    have hu : userID = a := by simpa [StoreOp.forUser] using ha
    subst hu
    exact ⟨GetCart_carts_other ds userID b hba, congrFun (GetCart_orders ds userID) b⟩
  | getCartTotalPrice userID =>
    have hu : userID = a := by simpa [StoreOp.forUser] using ha
    subst hu
    exact ⟨GetCartTotalPrice_carts_other ds userID b hba,
      congrFun (GetCartTotalPrice_orders ds userID) b⟩
  | getOrderHistory userID =>
    have hu : userID = a := by simpa [StoreOp.forUser] using ha
    subst hu
    exact ⟨congrFun (GetOrderHistory_carts ds userID) b,
      GetOrderHistory_orders_other ds userID b hba⟩
  | checkout userID rawOrderId =>
    have hu : userID = a := by simpa [StoreOp.forUser] using ha
    subst hu
    exact ⟨ConfirmOrder_carts_other ds userID rawOrderId b hba,
      ConfirmOrder_orders_other ds userID rawOrderId b hba⟩
  | confirmOrder userID rawOrderId =>
    have hu : userID = a := by simpa [StoreOp.forUser] using ha
    subst hu
    exact ⟨ConfirmOrder_carts_other ds userID rawOrderId b hba,
      ConfirmOrder_orders_other ds userID rawOrderId b hba⟩
  | confirmPayment userID orderID c =>
    have hu : userID = a := by simpa [StoreOp.forUser] using ha
    subst hu
    exact ⟨congrFun (ConfirmPayment_carts ds userID orderID c) b,
      ConfirmPayment_orders_other ds userID orderID c b hba⟩
  | findOrder userID orderID => exact ⟨rfl, rfl⟩

/-- A sequence of method calls, each made for a user other than `b`, leaves
the cart and the order list stored for `b` as they are. -/
theorem runStoreOps_other_user (ops : List StoreOp) (ds : Datastore) (b : String)
    (h : ∀ op ∈ ops, ∃ a, op.forUser = some a ∧ a ≠ b) :
    (runStoreOps ds ops).carts b = ds.carts b ∧ (runStoreOps ds ops).orders b = ds.orders b := by
  induction ops generalizing ds with
  | nil => exact ⟨rfl, rfl⟩
  | cons op rest ih =>
    obtain ⟨a, ha, hab⟩ := h op (List.mem_cons_self _ _)
    have hstep := StoreOp_other_user ds op a b ha hab
    have hrest := ih (StoreOp.apply ds op) (fun o ho => h o (List.mem_cons_of_mem _ ho))
    exact ⟨hrest.1.trans hstep.1, hrest.2.trans hstep.2⟩

/-- C31. User isolation: for distinct users `a` and `b`, a `Datastore` method
call made for `a` (`AddToCart`, `RemoveFromCart`, `GetCart`,
`GetCartTotalPrice`, `Checkout`, `ConfirmOrder`, `ConfirmPayment`, `FindOrder`,
`GetOrderHistory`), whatever it returns, leaves the cart stored for `b`, so its
lines, `TotalItems` and `TotalPrice`, and the order list stored for `b`
unchanged. -/
theorem other_users_cart_and_orders_unchanged (ds : Datastore) (op : StoreOp) (a b : String)
    (ha : op.forUser = some a) (hab : a ≠ b) :
    (op.apply ds).carts b = ds.carts b ∧
    (op.apply ds).cartLines b = ds.cartLines b ∧
    ((op.apply ds).carts b).map (fun c => c.TotalItems)
      = (ds.carts b).map (fun c => c.TotalItems) ∧
    ((op.apply ds).carts b).map (fun c => c.TotalPrice)
      = (ds.carts b).map (fun c => c.TotalPrice) ∧
    (op.apply ds).orders b = ds.orders b ∧
    (op.apply ds).ordersOf b = ds.ordersOf b := by
  obtain ⟨hc, ho⟩ := StoreOp_other_user ds op a b ha hab
  refine ⟨hc, ?_, ?_, ?_, ho, ?_⟩
  · simp only [Datastore.cartLines, hc]
  · rw [hc]
  · rw [hc]
  · simp only [Datastore.ordersOf, ho]

/-- C31 at the store of two users: `a` checks out, which succeeds and debits
the stock, and the cart and the order list of `b` are as before. -/
theorem other_users_cart_and_orders_unchanged_witness :
    (storeOfTwoUsers.Checkout "a" (some "rc")).err = none ∧
    (StoreOp.apply storeOfTwoUsers (StoreOp.checkout "a" (some "rc"))).carts "b"
      = storeOfTwoUsers.carts "b" ∧
    (StoreOp.apply storeOfTwoUsers (StoreOp.checkout "a" (some "rc"))).cartLines "b"
      = storeOfTwoUsers.cartLines "b" ∧
    ((StoreOp.apply storeOfTwoUsers (StoreOp.checkout "a" (some "rc"))).carts "b").map
        (fun c => c.TotalItems)
      = (storeOfTwoUsers.carts "b").map (fun c => c.TotalItems) ∧
    ((StoreOp.apply storeOfTwoUsers (StoreOp.checkout "a" (some "rc"))).carts "b").map
        (fun c => c.TotalPrice)
      = (storeOfTwoUsers.carts "b").map (fun c => c.TotalPrice) ∧
    (StoreOp.apply storeOfTwoUsers (StoreOp.checkout "a" (some "rc"))).orders "b"
      = storeOfTwoUsers.orders "b" ∧
    (StoreOp.apply storeOfTwoUsers (StoreOp.checkout "a" (some "rc"))).ordersOf "b"
      = storeOfTwoUsers.ordersOf "b" :=
  ⟨by decide,
    other_users_cart_and_orders_unchanged storeOfTwoUsers (StoreOp.checkout "a" (some "rc"))
      "a" "b" rfl (by decide)⟩

end Bookstore
